import Mathlib

/-!
# Connect 4: win detection, position evaluation and move selection

A shallow embedding of `src/classes/Connect4.cpp`.

* The grid of squares (`_grid`) is a function from in-range coordinates to the
  piece standing there; `getSquare` yields no square outside the 7x6 board.
* The serialized board (`std::string state`) is a `List Char` of 42 symbols,
  row-major, row 0 on top: index `row * 7 + col`.
* C++ `int` is `Int`; every quantity of the program stays far below 2^31.
* `while` loops and the recursion of `negamax` take a fuel argument and
  return `none` when it runs out; the theorems show that the fuel handed in
  by the callers is enough.
* `negamax` receives the board by reference and writes into it, so the
  embedding returns the board together with the value.
-/

namespace Connect4

/-! ## Definitions -/

/-- Board width, `BOARD_WIDTH` of `Connect4.h`. -/
def BOARD_WIDTH : Int := 7

/-- Board height, `BOARD_HEIGHT` of `Connect4.h`. -/
def BOARD_HEIGHT : Int := 6

/-- Players are identified by their player number (the `Player *` that
`getPlayerAt` hands out for that number). -/
abbrev Player := Nat

/-- One piece on the board: its owner and its game tag (`Bit`). -/
structure Bit where
  owner : Player
  gameTag : Int
deriving DecidableEq, Repr

/-- The grid of squares. `bit x y` is the piece standing on the square of
column `x` and row `y` (`square->bit()`), `none` when the square is empty.
The class `Grid` is not part of the sources at hand; the board is 7 wide and
6 high and `getSquare` hands out a null pointer outside of it. -/
structure Grid where
  bit : Nat → Nat → Option Bit

/-- The square at `(col, row)`: `none` is the null pointer, `some b` is a
square whose `bit()` is `b`. -/
def Grid.getSquare (g : Grid) (col row : Int) : Option (Option Bit) :=
  if 0 ≤ col ∧ col < BOARD_WIDTH ∧ 0 ≤ row ∧ row < BOARD_HEIGHT then
    some (g.bit col.toNat row.toNat)
  else none

/-- The test `sq && sq->bit() && sq->bit()->getOwner() == player`. -/
def ownedBy (g : Grid) (player : Player) (c r : Int) : Bool :=
  match g.getSquare c r with
  | some (some b) => decide (b.owner = player)
  | _ => false

/-- The `while` loop of `countDirection`: one unit of fuel per evaluation of
the loop condition. -/
def countDirectionLoop (g : Grid) (dCol dRow : Int) (player : Player) :
    Nat → Int → Int → Int → Option Int
  | 0, _, _, _ => none
  | fuel + 1, c, r, count =>
    if c ≥ 0 ∧ c < BOARD_WIDTH ∧ r ≥ 0 ∧ r < BOARD_HEIGHT then
      if ownedBy g player c r then
        countDirectionLoop g dCol dRow player fuel (c + dCol) (r + dRow) (count + 1)
      else some count
    else some count

/-- `Connect4::countDirection`. -/
def countDirection (fuel : Nat) (g : Grid) (col row dCol dRow : Int)
    (player : Player) : Option Int :=
  countDirectionLoop g dCol dRow player fuel (col + dCol) (row + dRow) 0

/-- The four axes of `checkWinAt`, in the order of the source. -/
def directions : List (Int × Int) := [(1, 0), (0, 1), (1, 1), (1, -1)]

/-- The `for (auto &dir : directions)` loop of `checkWinAt`. -/
def checkWinAtLoop (fuel : Nat) (g : Grid) (col row : Int) (player : Player) :
    List (Int × Int) → Option Bool
  | [] => some false
  | dir :: rest =>
    match countDirection fuel g col row dir.1 dir.2 player,
          countDirection fuel g col row (-dir.1) (-dir.2) player with
    | some a, some b =>
      if 1 + a + b ≥ 4 then some true
      else checkWinAtLoop fuel g col row player rest
    | _, _ => none

/-- `Connect4::checkWinAt`. -/
def checkWinAt (fuel : Nat) (g : Grid) (col row : Int) : Option Bool :=
  match g.getSquare col row with
  | some (some b) => checkWinAtLoop fuel g col row b.owner directions
  | _ => some false

/-- The cells in the order `checkForWinner` visits them: columns outside,
rows inside. -/
def scanOrder : List (Nat × Nat) :=
  (List.range 7).flatMap fun col => (List.range 6).map fun row => (col, row)

/-- The two nested loops of `checkForWinner` over the cells still to visit.
The result is `some none` for the null pointer. -/
def checkForWinnerLoop (fuel : Nat) (g : Grid) :
    List (Nat × Nat) → Option (Option Player)
  | [] => some none
  | cell :: rest =>
    match checkWinAt fuel g cell.1 cell.2 with
    | none => none
    | some true => some ((g.bit cell.1 cell.2).map Bit.owner)
    | some false => checkForWinnerLoop fuel g rest

/-- `Connect4::checkForWinner`. -/
def checkForWinner (fuel : Nat) (g : Grid) : Option (Option Player) :=
  checkForWinnerLoop fuel g scanOrder

/-! ### The serialized board -/

/-- The read `state[idx]`. The program only reads inside the string; outside
of it (undefined in C++) the embedding reads the NUL character. -/
def charAt (state : List Char) (idx : Int) : Char :=
  if idx < 0 then Char.ofNat 0 else state.getD idx.toNat (Char.ofNat 0)

/-- The write `state[idx] = ch`. -/
def setChar (state : List Char) (idx : Int) (ch : Char) : List Char :=
  if idx < 0 then state else state.set idx.toNat ch

/-- The `for` loop of `getLowestEmptyRowFromState`; `n` rows are still to be
tried, from row `n - 1` upwards. -/
def lowestEmptyRowLoop (column : Int) (state : List Char) : Nat → Int
  | 0 => -1
  | n + 1 =>
    if charAt state ((n : Int) * BOARD_WIDTH + column) = '0' then (n : Int)
    else lowestEmptyRowLoop column state n

/-- `Connect4::getLowestEmptyRowFromState`. -/
def getLowestEmptyRowFromState (column : Int) (state : List Char) : Int :=
  lowestEmptyRowLoop column state 6

/-- `Connect4::isColumnFull`. -/
def isColumnFull (column : Int) (state : List Char) : Bool :=
  charAt state column != '0'

/-- The counting loop of `evaluateWindow`, from index `i` with `n` cells
still to read; `none` is the early `return 0` of the range guard. -/
def evaluateWindowLoop (state : List Char) (start step : Int) (aiChar humanChar : Char) :
    Nat → Nat → Int → Int → Int → Option (Int × Int × Int)
  | 0, _, aiCount, humanCount, emptyCount => some (aiCount, humanCount, emptyCount)
  | n + 1, i, aiCount, humanCount, emptyCount =>
    let idx := start + (i : Int) * step
    if idx < 0 ∨ idx ≥ (state.length : Int) then none
    else
      let c := charAt state idx
      if c = aiChar then
        evaluateWindowLoop state start step aiChar humanChar n (i + 1)
          (aiCount + 1) humanCount emptyCount
      else if c = humanChar then
        evaluateWindowLoop state start step aiChar humanChar n (i + 1)
          aiCount (humanCount + 1) emptyCount
      else
        evaluateWindowLoop state start step aiChar humanChar n (i + 1)
          aiCount humanCount (emptyCount + 1)

/-- `Connect4::evaluateWindow`. -/
def evaluateWindow (state : List Char) (start step : Int) (aiChar humanChar : Char) : Int :=
  match evaluateWindowLoop state start step aiChar humanChar 4 0 0 0 0 with
  | none => 0
  | some (aiCount, humanCount, emptyCount) =>
    if aiCount > 0 ∧ humanCount > 0 then 0
    else if aiCount = 4 then 1000
    else if aiCount = 3 ∧ emptyCount = 1 then 50
    else if aiCount = 2 ∧ emptyCount = 2 then 10
    else if humanCount = 4 then -1000
    else if humanCount = 3 ∧ emptyCount = 1 then -100
    else if humanCount = 2 ∧ emptyCount = 2 then -10
    else 0

/-- The symbol of the automated player, `aiChar` of `evaluatePosition` and
`updateAI`; `aiPlayer` is `_gameOptions.AIPlayer`. -/
def aiCharOf (aiPlayer : Int) : Char := if aiPlayer = 0 then '1' else '2'

/-- The symbol of the other player, `humanChar` of `evaluatePosition`. -/
def humanCharOf (aiPlayer : Int) : Char := if aiPlayer = 0 then '2' else '1'

/-- The center column loop of `evaluatePosition`. -/
def centerBonus (state : List Char) (aiChar humanChar : Char) (score : Int) : Int :=
  (List.range 6).foldl (fun (score : Int) (row : Nat) =>
    if charAt state ((row : Int) * BOARD_WIDTH + 3) = aiChar then score + 6
    else if charAt state ((row : Int) * BOARD_WIDTH + 3) = humanChar then score - 6
    else score) score

/-- A pair of nested window loops of `evaluatePosition`: the outer variable
runs through `outer`, the inner one through `inner`, `start` tells the first
index of the window from the two and `step` is its stride. -/
def windowLoops (state : List Char) (aiChar humanChar : Char) (outer inner : List Nat)
    (start : Nat → Nat → Int) (step : Int) (score : Int) : Int :=
  outer.foldl (fun (score : Int) (a : Nat) =>
    inner.foldl (fun (score : Int) (b : Nat) =>
      score + evaluateWindow state (start a b) step aiChar humanChar) score) score

/-- `Connect4::evaluatePosition`; `aiPlayer` is `_gameOptions.AIPlayer`. -/
def evaluatePosition (aiPlayer : Int) (state : List Char) : Int :=
  let score : Int := 0
  let aiChar := aiCharOf aiPlayer
  let humanChar := humanCharOf aiPlayer
  let score := centerBonus state aiChar humanChar score
  -- horizontal: row outside, col inside
  let score := windowLoops state aiChar humanChar (List.range 6) (List.range 4)
    (fun (row col : Nat) => (row : Int) * BOARD_WIDTH + col) 1 score
  -- vertical: col outside, row inside
  let score := windowLoops state aiChar humanChar (List.range 7) (List.range 3)
    (fun (col row : Nat) => (row : Int) * BOARD_WIDTH + col) BOARD_WIDTH score
  -- diagonal down-right
  let score := windowLoops state aiChar humanChar (List.range 3) (List.range 4)
    (fun (row col : Nat) => (row : Int) * BOARD_WIDTH + col) (BOARD_WIDTH + 1) score
  -- diagonal up-right
  let score := windowLoops state aiChar humanChar [3, 4, 5] (List.range 4)
    (fun (row col : Nat) => (row : Int) * BOARD_WIDTH + col) (-BOARD_WIDTH + 1) score
  score

/-- The loop `for (col = 0; col < BOARD_WIDTH; col++) if (!isColumnFull) ...`
of `negamax`: is there a column whose top cell is empty. -/
def hasMove (state : List Char) : Bool :=
  (List.range 7).any fun (col : Nat) => !isColumnFull (col : Int) state

/-- The column order `{3, 2, 4, 1, 5, 0, 6}` of `negamax` and `updateAI`. -/
def order : List Int := [3, 2, 4, 1, 5, 0, 6]

/-- Modelled from the spec: the constant `HUMAN_PLAYER` of the absent header
`Game.h`, the sign that `updateAI` hands to `negamax` for the reply of the
opponent ("sign = opponent", the sign being +1 or -1). -/
def HUMAN_PLAYER : Int := -1

/-- The move loop of `negamax` over the columns still to try. `child` is the
recursive call: it takes the board, alpha and beta and gives back the value
together with the board it leaves behind. The result is `bestVal` and the
board. -/
def negamaxLoop (child : List Char → Int → Int → Option (Int × List Char))
    (playerColor beta : Int) :
    List Int → List Char → Int → Int → Option (Int × List Char)
  | [], state, bestVal, _ => some (bestVal, state)
  | col :: rest, state, bestVal, alpha =>
    let row := getLowestEmptyRowFromState col state
    if row ≥ 0 then
      let state1 := setChar state (row * BOARD_WIDTH + col) (if playerColor = 1 then '2' else '1')
      match child state1 (-beta) (-alpha) with
      | none => none
      | some (r, state2) =>
        let val := -r
        let state3 := setChar state2 (row * BOARD_WIDTH + col) '0'
        let bestVal := max bestVal val
        let alpha := max alpha val
        if alpha ≥ beta then some (bestVal, state3)
        else negamaxLoop child playerColor beta rest state3 bestVal alpha
    else negamaxLoop child playerColor beta rest state bestVal alpha

/-- `Connect4::negamax`; one unit of fuel per nested call. -/
def negamax (aiPlayer : Int) :
    Nat → List Char → Int → Int → Int → Int → Option (Int × List Char)
  | 0, _, _, _, _, _ => none
  | fuel + 1, state, depth, alpha, beta, playerColor =>
    let score := evaluatePosition aiPlayer state
    if score ≥ 1000 ∨ score ≤ -1000 then some (playerColor * score, state)
    else if !hasMove state then some (0, state)
    else if depth ≥ 6 then some (playerColor * score, state)
    else
      negamaxLoop
        (fun st a b => negamax aiPlayer fuel st (depth + 1) a b (-playerColor))
        playerColor beta order state (-10000) alpha

/-- The move loop of `updateAI` over the columns still to try; the result is
`bestCol` and the working copy of the board. -/
def updateAILoop (aiPlayer : Int) (fuel : Nat) :
    List Int → List Char → Int → Int → Option (Int × List Char)
  | [], state, bestCol, _ => some (bestCol, state)
  | col :: rest, state, bestCol, bestVal =>
    let row := getLowestEmptyRowFromState col state
    if row ≥ 0 then
      let state1 := setChar state (row * BOARD_WIDTH + col) (aiCharOf aiPlayer)
      match negamax aiPlayer fuel state1 0 (-10000) 10000 HUMAN_PLAYER with
      | none => none
      | some (r, state2) =>
        let val := -r
        let state3 := setChar state2 (row * BOARD_WIDTH + col) '0'
        if val > bestVal then updateAILoop aiPlayer fuel rest state3 col val
        else updateAILoop aiPlayer fuel rest state3 bestCol bestVal
    else updateAILoop aiPlayer fuel rest state bestCol bestVal

/-- The move selection of `Connect4::updateAI` on the board string
`state = stateString()`: the value of `bestCol` after the loop, -1 when no
move was kept. -/
def updateAI (aiPlayer : Int) (fuel : Nat) (state : List Char) : Option Int :=
  (updateAILoop aiPlayer fuel order state (-1) (-10000)).map Prod.fst

/-! ### Win detection: what the claims say -/

/-- Cell `(c, r)` lies on the board and holds a piece owned by `player`. -/
def OwnedCell (g : Grid) (player : Player) (c r : Int) : Prop :=
  0 ≤ c ∧ c < 7 ∧ 0 ≤ r ∧ r < 6 ∧ ∃ b, g.bit c.toNat r.toNat = some b ∧ b.owner = player

/-- Cell `(col, row)` belongs to 4 consecutive cells along the axis
`(dc, dr)` that are all owned by `player`: the four cells start `k` steps
before the cell, for some `k` from 0 to 3. -/
def InFour (g : Grid) (player : Player) (col row dc dr : Int) : Prop :=
  ∃ k : Int, 0 ≤ k ∧ k ≤ 3 ∧
    ∀ i : Int, 0 ≤ i → i ≤ 3 → OwnedCell g player (col + (i - k) * dc) (row + (i - k) * dr)

/-- The cell is occupied and belongs, on at least one of the four axes, to 4
consecutive cells of its owner. -/
def WinAt (g : Grid) (col row : Int) : Prop :=
  ∃ b, g.getSquare col row = some (some b) ∧
    ∃ dir ∈ directions, InFour g b.owner col row dir.1 dir.2

/-- A unit step: each component is -1, 0 or 1 and the step is not `(0, 0)`. -/
def UnitStep (dc dr : Int) : Prop :=
  -1 ≤ dc ∧ dc ≤ 1 ∧ -1 ≤ dr ∧ dr ≤ 1 ∧ (dc ≠ 0 ∨ dr ≠ 0)

/-- A board whose bottom row holds four pieces of player 0, in columns 0 to 3. -/
def bottomFour : Grid :=
  ⟨fun x y => if y = 5 ∧ x < 4 then some ⟨0, 1⟩ else none⟩

/-! ### Position evaluation: what the claims say -/

/-- The `i`-th cell of the window that starts at index `start` and advances
by `step`. -/
def windowCell (state : List Char) (start step : Int) (i : Nat) : Char :=
  charAt state (start + (i : Int) * step)

/-- The 4 cells of a window. -/
def windowCells (state : List Char) (start step : Int) : List Char :=
  (List.range 4).map (windowCell state start step)

/-- Number of cells of the window that hold the symbol `ch`. -/
def piecesOf (ch : Char) (state : List Char) (start step : Int) : Nat :=
  (windowCells state start step).countP fun c => c = ch

/-- Number of cells of the window that hold neither of the two symbols: the
empty cells. -/
def emptiesOf (aiChar humanChar : Char) (state : List Char) (start step : Int) : Nat :=
  (windowCells state start step).countP fun c => c ≠ aiChar ∧ c ≠ humanChar

/-- The score the specification gives to a window with `fav` favorable
pieces, `opp` pieces of the opponent and `emp` empty cells. -/
def windowScore (fav opp emp : Nat) : Int :=
  if fav ≥ 1 ∧ opp ≥ 1 then 0
  else if fav = 4 then 1000
  else if fav = 3 ∧ emp = 1 then 50
  else if fav = 2 ∧ emp = 2 then 10
  else if opp = 4 then -1000
  else if opp = 3 ∧ emp = 1 then -100
  else if opp = 2 ∧ emp = 2 then -10
  else 0

/-- The windows `evaluatePosition` scores, as pairs `(start, step)`, in the
order of its four pairs of nested loops. -/
def sourceWindows : List (Int × Int) :=
  ((List.range 6).flatMap fun (row : Nat) => (List.range 4).map fun (col : Nat) =>
    ((row : Int) * BOARD_WIDTH + col, (1 : Int))) ++
  ((List.range 7).flatMap fun (col : Nat) => (List.range 3).map fun (row : Nat) =>
    ((row : Int) * BOARD_WIDTH + col, BOARD_WIDTH)) ++
  ((List.range 3).flatMap fun (row : Nat) => (List.range 4).map fun (col : Nat) =>
    ((row : Int) * BOARD_WIDTH + col, BOARD_WIDTH + 1)) ++
  ([3, 4, 5].flatMap fun (row : Nat) => (List.range 4).map fun (col : Nat) =>
    ((row : Int) * BOARD_WIDTH + col, -BOARD_WIDTH + 1))

/-- The 4 indices a window `(start, step)` reads. -/
def windowIndices (w : Int × Int) : List Int :=
  (List.range 4).map fun (i : Nat) => w.1 + (i : Int) * w.2

/-- Cell `(col, row)` lies on the 7x6 board. -/
def onBoard (cell : Int × Int) : Bool :=
  decide (0 ≤ cell.1 ∧ cell.1 < 7 ∧ 0 ≤ cell.2 ∧ cell.2 < 6)

/-- Index of the cell `(col, row)` in the serialized board: row-major, row 0
on top. -/
def cellIndex (cell : Int × Int) : Int := cell.2 * 7 + cell.1

/-- The 4 collinear adjacent cells that start at `(col, row)` and advance
along the axis `dir`. -/
def lineFrom (dir : Int × Int) (col row : Nat) : List (Int × Int) :=
  (List.range 4).map fun (i : Nat) => ((col : Int) + (i : Int) * dir.1, (row : Int) + (i : Int) * dir.2)

/-- The geometric windows of the board along one axis: every set of 4
collinear adjacent cells that fits on the board. -/
def axisWindows (dir : Int × Int) : List (List (Int × Int)) :=
  (List.range 7).flatMap fun (col : Nat) => (List.range 6).filterMap fun (row : Nat) =>
    if (lineFrom dir col row).all onBoard then some (lineFrom dir col row) else none

/-- All geometric windows of the board: the four axes are horizontal,
vertical, diagonal down-right and diagonal up-right. -/
def geometricWindows : List (List (Int × Int)) :=
  directions.flatMap axisWindows

/-- Score of a list of 4 indices: the specification's table on the numbers of
favorable pieces, opponent pieces and empty cells read there. -/
def indicesScore (state : List Char) (aiChar humanChar : Char) (idxs : List Int) : Int :=
  windowScore ((idxs.map (charAt state)).countP fun c => c = aiChar)
    ((idxs.map (charAt state)).countP fun c => c = humanChar)
    ((idxs.map (charAt state)).countP fun c => c ≠ aiChar ∧ c ≠ humanChar)

/-- The cells of the center column, column 3, from the top row down. -/
def centerCells : List (Int × Int) := (List.range 6).map fun (row : Nat) => ((3 : Int), (row : Int))

/-- The reference sum of the specification: +6 per favorable piece and -6 per
opponent piece in column 3, plus the score of every geometric window. -/
def referenceScore (aiPlayer : Int) (state : List Char) : Int :=
  6 * ((centerCells.map fun c => charAt state (cellIndex c)).countP
        fun c => c = aiCharOf aiPlayer) -
  6 * ((centerCells.map fun c => charAt state (cellIndex c)).countP
        fun c => c = humanCharOf aiPlayer) +
  (geometricWindows.map fun w =>
    indicesScore state (aiCharOf aiPlayer) (humanCharOf aiPlayer) (w.map cellIndex)).sum

/-! ### Move selection: what the claims say -/

/-- The board after a piece `piece` was dropped into column `col`: the write
`state[row * BOARD_WIDTH + col] = piece` at the lowest empty row. -/
def dropInto (state : List Char) (col : Int) (piece : Char) : List Char :=
  setChar state (getLowestEmptyRowFromState col state * BOARD_WIDTH + col) piece

/-- The value `updateAI` gives to column `col`: minus the value `negamax`
returns, at depth 0 with the window (-10000, 10000) and the sign of the
opponent, on the board with the piece of the automated player dropped into
`col`. -/
def moveValue (aiPlayer : Int) (fuel : Nat) (state : List Char) (col : Int) : Int :=
  match negamax aiPlayer fuel (dropInto state col (aiCharOf aiPlayer)) 0 (-10000) 10000
      HUMAN_PLAYER with
  | some (r, _) => -r
  | none => 0

/-- Column `col` is not full: the lowest-empty-row lookup finds a row. -/
def NotFull (state : List Char) (col : Int) : Prop :=
  getLowestEmptyRowFromState col state ≥ 0

instance (state : List Char) (col : Int) : Decidable (NotFull state col) :=
  inferInstanceAs (Decidable (getLowestEmptyRowFromState col state ≥ 0))

/-! ### Real moves on the grid and the boards used as examples -/

/-- The `for` loop of `getLowestEmptyRow` on the grid; `n` rows are still to
be tried, from row `n - 1` upwards. -/
def getLowestEmptyRowLoop (g : Grid) (column : Int) : Nat → Int
  | 0 => -1
  | n + 1 =>
    match g.getSquare column (n : Int) with
    | some none => (n : Int)
    | _ => getLowestEmptyRowLoop g column n

/-- `Connect4::getLowestEmptyRow`. -/
def getLowestEmptyRow (g : Grid) (column : Int) : Int :=
  getLowestEmptyRowLoop g column 6

/-- `Connect4::PieceForPlayer`: the piece of player `playerNumber`, owned by
that player and tagged `playerNumber + 1`. -/
def PieceForPlayer (playerNumber : Nat) : Bit :=
  ⟨playerNumber, (playerNumber : Int) + 1⟩

/-- The grid with the piece `b` set on the square `(x, y)` (`setBit`). -/
def Grid.setBit (g : Grid) (x y : Nat) (b : Bit) : Grid :=
  ⟨fun x2 y2 => if x2 = x ∧ y2 = y then some b else g.bit x2 y2⟩

/-- `Connect4::actionForEmptyHolder` for a click in column `column` while
`playerNumber` is the current player: `none` is the result `false` (no piece
placed), `some g` the grid after the drop. -/
def actionForEmptyHolder (g : Grid) (column : Int) (playerNumber : Nat) : Option Grid :=
  let targetRow := getLowestEmptyRow g column
  if targetRow < 0 then none
  else
    match g.getSquare column targetRow with
    | none => none
    | some _ => some (g.setBit column.toNat targetRow.toNat (PieceForPlayer playerNumber))

/-- `Connect4::stateString`: cell `y * 7 + x` is `'0' + gameTag` of the piece
on square `(x, y)`, and `'0'` on an empty square. -/
def stateString (g : Grid) : List Char :=
  (List.range 42).map fun (i : Nat) =>
    match g.bit (i % 7) (i / 7) with
    | some b => Char.ofNat ((48 + b.gameTag) % 256).toNat
    | none => '0'

/-- The grid without pieces. -/
def emptyGrid : Grid := ⟨fun _ _ => none⟩

/-- Modelled from the spec: the turn bookkeeping of the absent class `Game`.
One piece is added per turn by `actionForEmptyHolder` and the turn then goes
to the other of the two players. `playGame moves g p` plays the columns
`moves` from the grid `g` with player `p` to move; `none` when a drop is
refused. -/
def playGame : List Int → Grid → Nat → Option Grid
  | [], g, _ => some g
  | column :: rest, g, p =>
    match actionForEmptyHolder g column p with
    | none => none
    | some g2 => playGame rest g2 (1 - p)

/-- The board string reached from the empty grid by the legal drops `moves`,
player 0 (symbol `'1'`) moving first. -/
def boardAfter (moves : List Int) : Option (List Char) :=
  (playGame moves emptyGrid 0).map stateString

/-- Some geometric window holds 4 pieces of the symbol `ch`: a real four in a
row on the board string. -/
def hasFour (state : List Char) (ch : Char) : Bool :=
  geometricWindows.any fun w => w.all fun cell => charAt state (cellIndex cell) = ch

/-- The board string obeys gravity: below an occupied cell the cell of the
same column is occupied. -/
def gravityConsistent (state : List Char) : Bool :=
  (List.range 7).all fun (col : Nat) => (List.range 5).all fun (row : Nat) =>
    charAt state ((row : Int) * 7 + col) = '0' ||
      charAt state (((row : Int) + 1) * 7 + col) != '0'

/-- Seven legal drops after which the automated player (symbol `'2'`, moving
second) has four in the bottom row. -/
def aiWinMoves : List Int := [6, 0, 6, 1, 6, 2, 5, 3]

/-- Seven legal drops after which the opponent (symbol `'1'`, moving first)
has four in the bottom row. -/
def humanWinMoves : List Int := [6, 1, 3, 3, 5, 2, 4]

/-- Seventeen legal drops after which nobody has four in a row. -/
def quietMoves : List Int := [6, 2, 2, 0, 2, 0, 2, 4, 4, 0, 4, 3, 4, 3, 3, 6, 3]

/-- A board with the single empty cell on top of column 3; every other cell
holds `'1'`. -/
def lostBoard3 : List Char := List.replicate 3 '1' ++ '0' :: List.replicate 38 '1'

/-- A board with the single empty cell on top of column 0; every other cell
holds `'1'`. -/
def lostBoard0 : List Char := '0' :: List.replicate 41 '1'

/-- A board with 39 pieces on which the automated player (symbol `'2'`) wins
at once in column 3. -/
def winInThree : List Char := "120021221102111222122121112211211212212211".toList

/-- A board with 39 pieces on which the opponent (symbol `'1'`) wins at once
in column 5, under or over a piece of the automated player. -/
def lostInFive : List Char := "120110121122012122112221122212211221211211".toList

/-- A board with 39 pieces on which the opponent (symbol `'1'`) wins at once
in column 6 and nowhere else. -/
def blockInSix : List Char := "212201012110212122121122112121112121212212".toList

/-- A board with 39 pieces, all columns full but columns 4 and 5. -/
def twoOpen : List Char := "122100221110212122111211222112221221211121".toList

/-- Legal drops that lead to the board `winInThree`. -/
def winInThreeMoves : List Int :=
  [5, 1, 6, 0, 0, 3, 6, 5, 1, 1, 0, 5, 3, 1, 0, 4, 4, 6, 4, 5, 2, 0, 5, 6, 6, 2, 4, 4, 2, 2,
    3, 6, 5, 3, 0, 4, 1, 1, 2]

/-- Legal drops that lead to the board `lostInFive`. -/
def lostInFiveMoves : List Int :=
  [5, 1, 6, 6, 0, 6, 2, 6, 3, 2, 3, 1, 3, 1, 0, 4, 4, 4, 1, 0, 6, 5, 6, 3, 4, 4, 2, 0, 1, 5,
    4, 1, 5, 3, 3, 0, 0, 2, 2]

/-! ### Draw detection, loading a board string, gravity on the grid -/

/-- The `for` loop of `checkForDraw` over the columns still to look at. -/
def checkForDrawLoop (g : Grid) : List Nat → Bool
  | [] => true
  | col :: rest =>
    if getLowestEmptyRow g (col : Int) ≥ 0 then false else checkForDrawLoop g rest

/-- `Connect4::checkForDraw`. -/
def checkForDraw (g : Grid) : Bool :=
  checkForDrawLoop g (List.range 7)

/-- `Connect4::setStateString`: a string of another length than 42 leaves the
grid as it is; otherwise every square of the board loses its piece and gets
the piece of player `pieceType - 1` when `pieceType = s[y * 7 + x] - '0'` is
positive. -/
def setStateString (g : Grid) (s : List Char) : Grid :=
  if s.length ≠ 42 then g
  else
    ⟨fun x y =>
      if x < 7 ∧ y < 6 then
        let pieceType : Int := ((charAt s ((y : Int) * BOARD_WIDTH + (x : Int))).toNat : Int) - 48
        if pieceType > 0 then some (PieceForPlayer (pieceType - 1).toNat) else none
      else g.bit x y⟩

/-- Gravity on the grid: whenever a square is occupied, the square below it
in the same column is occupied. -/
def GridGravity (g : Grid) : Prop :=
  ∀ x y : Nat, x < 7 → y < 5 → g.bit x y ≠ none → g.bit x (y + 1) ≠ none

/-- A sequence of drops, each with its column and the number of the player
who drops: every drop goes through `actionForEmptyHolder`, and the sequence
is refused (`none`) as soon as one drop is refused. -/
def playDrops : List (Int × Nat) → Grid → Option Grid
  | [], g => some g
  | move :: rest, g =>
    match actionForEmptyHolder g move.1 move.2 with
    | none => none
    | some g2 => playDrops rest g2

/-- A full board without four in a row. -/
def drawnBoard : List Char := "112211222112211122112221122111221122211221".toList

/-- The index of the mirror cell: same row, column `6 - col`. -/
def mirrorIndex (i : Int) : Int := (i / 7) * 7 + (6 - i % 7)

/-- The mirror image of a board string: column `c` and column `6 - c` change
places in every row. -/
def mirror (s : List Char) : List Char :=
  (List.range 42).map fun (i : Nat) => charAt s (mirrorIndex (i : Int))

/-- A list of indices read from its smaller end: a window and the same window
read backwards have the same orientation. -/
def oriented (l : List Int) : List Int :=
  if l.reverse.headD 0 < l.headD 0 then l.reverse else l

/-- The move loop of the search without cutoff: every non-full column is
tried, in the same order and with the same pieces as in `negamax`, on a copy
of the board; `child` is the recursive call. -/
def plainLoop (child : List Char → Option Int) (playerColor : Int) :
    List Int → List Char → Int → Option Int
  | [], _, bestVal => some bestVal
  | col :: rest, state, bestVal =>
    if getLowestEmptyRowFromState col state ≥ 0 then
      match child (dropInto state col (if playerColor = 1 then '2' else '1')) with
      | none => none
      | some r => plainLoop child playerColor rest state (max bestVal (-r))
    else plainLoop child playerColor rest state bestVal

/-- The depth-limited negamax without alpha and beta: the leaf rules, the
pieces, the column order and the start value of `bestVal` are those of
`negamax`, but no column is cut off. One unit of fuel per nested call. -/
def plain (aiPlayer : Int) : Nat → List Char → Int → Int → Option Int
  | 0, _, _, _ => none
  | fuel + 1, state, depth, playerColor =>
    let score := evaluatePosition aiPlayer state
    if score ≥ 1000 ∨ score ≤ -1000 then some (playerColor * score)
    else if !hasMove state then some 0
    else if depth ≥ 6 then some (playerColor * score)
    else
      plainLoop (fun st => plain aiPlayer fuel st (depth + 1) (-playerColor))
        playerColor order state (-10000)

/-- What a search with the window (alpha, beta) tells about the value `p` of
the search without cutoff: a result at or below alpha is an upper bound of
`p`, a result at or above beta is a lower bound, a result inside the window is
`p` itself. -/
def WindowBound (r p alpha beta : Int) : Prop :=
  (r ≤ alpha → p ≤ r) ∧ (beta ≤ r → r ≤ p) ∧ (alpha < r → r < beta → r = p)

/-! ### The search on bitboards

A second, faster form of the evaluation and of the search without cutoff, on
three numbers that hold one bit per cell (bit `row * 7 + col`): the cells of
the automated player, the cells of the opponent and the occupied cells. It
serves to bound the value of the search on the empty board. -/

/-- The number whose bit `i` is set exactly when the `i`-th symbol of the
string satisfies `p`. -/
def enc (p : Char → Bool) : List Char → Nat
  | [] => 0
  | c :: cs => (if p c then 1 else 0) + 2 * enc p cs

/-- Bit `i` of `x`, as 0 or 1. -/
def bitAt (x i : Nat) : Nat := (x >>> i) % 2

/-- A window on bitboards: the mask of its 4 cells and the 4 indices. -/
abbrev FastWindow := Nat × Nat × Nat × Nat × Nat

/-- The bitboard form of the window that reads the 4 indices `idxs`. -/
def fastWindowOf (w : Int × Int) : FastWindow :=
  (2 ^ (w.1).toNat ||| 2 ^ (w.1 + w.2).toNat ||| 2 ^ (w.1 + 2 * w.2).toNat |||
      2 ^ (w.1 + 3 * w.2).toNat,
    (w.1).toNat, (w.1 + w.2).toNat, (w.1 + 2 * w.2).toNat, (w.1 + 3 * w.2).toNat)

/-- Number of set bits of `x` among the 4 cells of the window. -/
def cnt4 (x : Nat) (w : FastWindow) : Nat :=
  bitAt x w.2.1 + bitAt x w.2.2.1 + bitAt x w.2.2.2.1 + bitAt x w.2.2.2.2

/-- The score of a window, from the bitboards of the two players. -/
def fastWindow (ai hu : Nat) (w : FastWindow) : Int :=
  if ai &&& w.1 = 0 then
    if hu &&& w.1 = 0 then 0
    else
      if cnt4 hu w = 4 then -1000 else if cnt4 hu w = 3 then -100
      else if cnt4 hu w = 2 then -10 else 0
  else if hu &&& w.1 = 0 then
    if cnt4 ai w = 4 then 1000 else if cnt4 ai w = 3 then 50
    else if cnt4 ai w = 2 then 10 else 0
  else 0

/-- The change of the sum of the scores of the windows `ws` between two
positions. -/
def fastDelta (ai hu ai2 hu2 : Nat) (ws : List FastWindow) : Int :=
  ws.foldl (fun (acc : Int) (w : FastWindow) =>
    acc + (fastWindow ai2 hu2 w - fastWindow ai hu w)) 0

/-- The windows of `evaluatePosition` that read the cell of row `r` and
column `c`, in bitboard form: entry `c` of entry `r`. -/
def throughTable : List (List (List FastWindow)) :=
  [[[(15, 0, 1, 2, 3), (2113665, 0, 7, 14, 21), (16843009, 0, 8, 16, 24)],
    [(15, 0, 1, 2, 3), (30, 1, 2, 3, 4), (4227330, 1, 8, 15, 22), (33686018, 1, 9, 17, 25)],
    [(15, 0, 1, 2, 3), (30, 1, 2, 3, 4), (60, 2, 3, 4, 5), (8454660, 2, 9, 16, 23), (67372036,
     2, 10, 18, 26)],
    [(15, 0, 1, 2, 3), (30, 1, 2, 3, 4), (60, 2, 3, 4, 5), (120, 3, 4, 5, 6), (16909320, 3, 10,
     17, 24), (134744072, 3, 11, 19, 27), (2130440, 21, 15, 9, 3)],
    [(30, 1, 2, 3, 4), (60, 2, 3, 4, 5), (120, 3, 4, 5, 6), (33818640, 4, 11, 18, 25), (4260880,
     22, 16, 10, 4)],
    [(60, 2, 3, 4, 5), (120, 3, 4, 5, 6), (67637280, 5, 12, 19, 26), (8521760, 23, 17, 11, 5)],
    [(120, 3, 4, 5, 6), (135274560, 6, 13, 20, 27), (17043520, 24, 18, 12, 6)]],
   [[(1920, 7, 8, 9, 10), (2113665, 0, 7, 14, 21), (270549120, 7, 14, 21, 28), (2155905152, 7,
     15, 23, 31)],
    [(1920, 7, 8, 9, 10), (3840, 8, 9, 10, 11), (4227330, 1, 8, 15, 22), (541098240, 8, 15, 22,
     29), (16843009, 0, 8, 16, 24), (4311810304, 8, 16, 24, 32)],
    [(1920, 7, 8, 9, 10), (3840, 8, 9, 10, 11), (7680, 9, 10, 11, 12), (8454660, 2, 9, 16, 23),
     (1082196480, 9, 16, 23, 30), (33686018, 1, 9, 17, 25), (8623620608, 9, 17, 25, 33),
     (2130440, 21, 15, 9, 3)],
    [(1920, 7, 8, 9, 10), (3840, 8, 9, 10, 11), (7680, 9, 10, 11, 12), (15360, 10, 11, 12, 13),
     (16909320, 3, 10, 17, 24), (2164392960, 10, 17, 24, 31), (67372036, 2, 10, 18, 26),
     (17247241216, 10, 18, 26, 34), (4260880, 22, 16, 10, 4), (272696320, 28, 22, 16, 10)],
    [(3840, 8, 9, 10, 11), (7680, 9, 10, 11, 12), (15360, 10, 11, 12, 13), (33818640, 4, 11, 18,
     25), (4328785920, 11, 18, 25, 32), (134744072, 3, 11, 19, 27), (8521760, 23, 17, 11, 5),
     (545392640, 29, 23, 17, 11)],
    [(7680, 9, 10, 11, 12), (15360, 10, 11, 12, 13), (67637280, 5, 12, 19, 26), (8657571840, 12,
     19, 26, 33), (17043520, 24, 18, 12, 6), (1090785280, 30, 24, 18, 12)],
    [(15360, 10, 11, 12, 13), (135274560, 6, 13, 20, 27), (17315143680, 13, 20, 27, 34),
     (2181570560, 31, 25, 19, 13)]],
   [[(245760, 14, 15, 16, 17), (2113665, 0, 7, 14, 21), (270549120, 7, 14, 21, 28),
     (34630287360, 14, 21, 28, 35), (275955859456, 14, 22, 30, 38)],
    [(245760, 14, 15, 16, 17), (491520, 15, 16, 17, 18), (4227330, 1, 8, 15, 22), (541098240, 8,
     15, 22, 29), (69260574720, 15, 22, 29, 36), (2155905152, 7, 15, 23, 31), (551911718912, 15,
     23, 31, 39), (2130440, 21, 15, 9, 3)],
    [(245760, 14, 15, 16, 17), (491520, 15, 16, 17, 18), (983040, 16, 17, 18, 19), (8454660, 2,
     9, 16, 23), (1082196480, 9, 16, 23, 30), (138521149440, 16, 23, 30, 37), (16843009, 0, 8,
     16, 24), (4311810304, 8, 16, 24, 32), (1103823437824, 16, 24, 32, 40), (4260880, 22, 16, 10,
     4), (272696320, 28, 22, 16, 10)],
    [(245760, 14, 15, 16, 17), (491520, 15, 16, 17, 18), (983040, 16, 17, 18, 19), (1966080, 17,
     18, 19, 20), (16909320, 3, 10, 17, 24), (2164392960, 10, 17, 24, 31), (277042298880, 17, 24,
     31, 38), (33686018, 1, 9, 17, 25), (8623620608, 9, 17, 25, 33), (2207646875648, 17, 25, 33,
     41), (8521760, 23, 17, 11, 5), (545392640, 29, 23, 17, 11), (34905128960, 35, 29, 23, 17)],
    [(491520, 15, 16, 17, 18), (983040, 16, 17, 18, 19), (1966080, 17, 18, 19, 20), (33818640,
     4, 11, 18, 25), (4328785920, 11, 18, 25, 32), (554084597760, 18, 25, 32, 39), (67372036, 2,
     10, 18, 26), (17247241216, 10, 18, 26, 34), (17043520, 24, 18, 12, 6), (1090785280, 30, 24,
     18, 12), (69810257920, 36, 30, 24, 18)],
    [(983040, 16, 17, 18, 19), (1966080, 17, 18, 19, 20), (67637280, 5, 12, 19, 26),
     (8657571840, 12, 19, 26, 33), (1108169195520, 19, 26, 33, 40), (134744072, 3, 11, 19, 27),
     (2181570560, 31, 25, 19, 13), (139620515840, 37, 31, 25, 19)],
    [(1966080, 17, 18, 19, 20), (135274560, 6, 13, 20, 27), (17315143680, 13, 20, 27, 34),
     (2216338391040, 20, 27, 34, 41), (279241031680, 38, 32, 26, 20)]],
   [[(31457280, 21, 22, 23, 24), (2113665, 0, 7, 14, 21), (270549120, 7, 14, 21, 28),
     (34630287360, 14, 21, 28, 35), (2130440, 21, 15, 9, 3)],
    [(31457280, 21, 22, 23, 24), (62914560, 22, 23, 24, 25), (4227330, 1, 8, 15, 22),
     (541098240, 8, 15, 22, 29), (69260574720, 15, 22, 29, 36), (275955859456, 14, 22, 30, 38),
     (4260880, 22, 16, 10, 4), (272696320, 28, 22, 16, 10)],
    [(31457280, 21, 22, 23, 24), (62914560, 22, 23, 24, 25), (125829120, 23, 24, 25, 26),
     (8454660, 2, 9, 16, 23), (1082196480, 9, 16, 23, 30), (138521149440, 16, 23, 30, 37),
     (2155905152, 7, 15, 23, 31), (551911718912, 15, 23, 31, 39), (8521760, 23, 17, 11, 5),
     (545392640, 29, 23, 17, 11), (34905128960, 35, 29, 23, 17)],
    [(31457280, 21, 22, 23, 24), (62914560, 22, 23, 24, 25), (125829120, 23, 24, 25, 26),
     (251658240, 24, 25, 26, 27), (16909320, 3, 10, 17, 24), (2164392960, 10, 17, 24, 31),
     (277042298880, 17, 24, 31, 38), (16843009, 0, 8, 16, 24), (4311810304, 8, 16, 24, 32),
     (1103823437824, 16, 24, 32, 40), (17043520, 24, 18, 12, 6), (1090785280, 30, 24, 18, 12),
     (69810257920, 36, 30, 24, 18)],
    [(62914560, 22, 23, 24, 25), (125829120, 23, 24, 25, 26), (251658240, 24, 25, 26, 27),
     (33818640, 4, 11, 18, 25), (4328785920, 11, 18, 25, 32), (554084597760, 18, 25, 32, 39),
     (33686018, 1, 9, 17, 25), (8623620608, 9, 17, 25, 33), (2207646875648, 17, 25, 33, 41),
     (2181570560, 31, 25, 19, 13), (139620515840, 37, 31, 25, 19)],
    [(125829120, 23, 24, 25, 26), (251658240, 24, 25, 26, 27), (67637280, 5, 12, 19, 26),
     (8657571840, 12, 19, 26, 33), (1108169195520, 19, 26, 33, 40), (67372036, 2, 10, 18, 26),
     (17247241216, 10, 18, 26, 34), (279241031680, 38, 32, 26, 20)],
    [(251658240, 24, 25, 26, 27), (135274560, 6, 13, 20, 27), (17315143680, 13, 20, 27, 34),
     (2216338391040, 20, 27, 34, 41), (134744072, 3, 11, 19, 27)]],
   [[(4026531840, 28, 29, 30, 31), (270549120, 7, 14, 21, 28), (34630287360, 14, 21, 28, 35),
     (272696320, 28, 22, 16, 10)],
    [(4026531840, 28, 29, 30, 31), (8053063680, 29, 30, 31, 32), (541098240, 8, 15, 22, 29),
     (69260574720, 15, 22, 29, 36), (545392640, 29, 23, 17, 11), (34905128960, 35, 29, 23, 17)],
    [(4026531840, 28, 29, 30, 31), (8053063680, 29, 30, 31, 32), (16106127360, 30, 31, 32, 33),
     (1082196480, 9, 16, 23, 30), (138521149440, 16, 23, 30, 37), (275955859456, 14, 22, 30, 38),
     (1090785280, 30, 24, 18, 12), (69810257920, 36, 30, 24, 18)],
    [(4026531840, 28, 29, 30, 31), (8053063680, 29, 30, 31, 32), (16106127360, 30, 31, 32, 33),
     (32212254720, 31, 32, 33, 34), (2164392960, 10, 17, 24, 31), (277042298880, 17, 24, 31, 38),
     (2155905152, 7, 15, 23, 31), (551911718912, 15, 23, 31, 39), (2181570560, 31, 25, 19, 13),
     (139620515840, 37, 31, 25, 19)],
    [(8053063680, 29, 30, 31, 32), (16106127360, 30, 31, 32, 33), (32212254720, 31, 32, 33, 34),
     (4328785920, 11, 18, 25, 32), (554084597760, 18, 25, 32, 39), (4311810304, 8, 16, 24, 32),
     (1103823437824, 16, 24, 32, 40), (279241031680, 38, 32, 26, 20)],
    [(16106127360, 30, 31, 32, 33), (32212254720, 31, 32, 33, 34), (8657571840, 12, 19, 26, 33),
     (1108169195520, 19, 26, 33, 40), (8623620608, 9, 17, 25, 33), (2207646875648, 17, 25, 33,
     41)],
    [(32212254720, 31, 32, 33, 34), (17315143680, 13, 20, 27, 34), (2216338391040, 20, 27, 34,
     41), (17247241216, 10, 18, 26, 34)]],
   [[(515396075520, 35, 36, 37, 38), (34630287360, 14, 21, 28, 35), (34905128960, 35, 29, 23,
     17)],
    [(515396075520, 35, 36, 37, 38), (1030792151040, 36, 37, 38, 39), (69260574720, 15, 22, 29,
     36), (69810257920, 36, 30, 24, 18)],
    [(515396075520, 35, 36, 37, 38), (1030792151040, 36, 37, 38, 39), (2061584302080, 37, 38,
     39, 40), (138521149440, 16, 23, 30, 37), (139620515840, 37, 31, 25, 19)],
    [(515396075520, 35, 36, 37, 38), (1030792151040, 36, 37, 38, 39), (2061584302080, 37, 38,
     39, 40), (4123168604160, 38, 39, 40, 41), (277042298880, 17, 24, 31, 38), (275955859456, 14,
     22, 30, 38), (279241031680, 38, 32, 26, 20)],
    [(1030792151040, 36, 37, 38, 39), (2061584302080, 37, 38, 39, 40), (4123168604160, 38, 39,
     40, 41), (554084597760, 18, 25, 32, 39), (551911718912, 15, 23, 31, 39)],
    [(2061584302080, 37, 38, 39, 40), (4123168604160, 38, 39, 40, 41), (1108169195520, 19, 26,
     33, 40), (1103823437824, 16, 24, 32, 40)],
    [(4123168604160, 38, 39, 40, 41), (2216338391040, 20, 27, 34, 41), (2207646875648, 17, 25,
     33, 41)]]]

/-- The windows of `evaluatePosition` that read the index `idx`. -/
def windowsThrough (idx : Int) : List (Int × Int) :=
  sourceWindows.filter fun w => decide (idx ∈ windowIndices w)

/-- The center column term of `evaluatePosition`: +6 per favorable and -6 per
opponent piece in column 3. -/
def centerTerm (aiChar humanChar : Char) (s : List Char) : Int :=
  6 * ((centerCells.map fun c => charAt s (cellIndex c)).countP fun c => c = aiChar) -
  6 * ((centerCells.map fun c => charAt s (cellIndex c)).countP fun c => c = humanChar)

/-- The bitboards and the score stand for the board string `s`. -/
def Represents (aiPlayer : Int) (s : List Char) (ai hu occ : Nat) (score : Int) : Prop :=
  s.length = 42 ∧
  ai = enc (fun c => decide (c = aiCharOf aiPlayer)) s ∧
  hu = enc (fun c => decide (c = humanCharOf aiPlayer)) s ∧
  occ = enc (fun c => c != '0') s ∧
  score = evaluatePosition aiPlayer s

/-- The sign +1 or -1 of `negamax` for the flag of the bitboard search. -/
def signOf (sign : Bool) : Int := if sign then 1 else -1

/-- The lowest empty row of a column on the bitboard of the occupied cells;
`n` rows are still to be tried. -/
def lowestFast (occ col : Nat) : Nat → Option Nat
  | 0 => none
  | n + 1 => if bitAt occ (n * 7 + col) = 0 then some n else lowestFast occ col n

/-- Some column has a free top cell. -/
def hasMoveFast (occ : Nat) : Bool :=
  (List.range 7).any fun (c : Nat) => bitAt occ c == 0

/-- The position after a drop into column `c`: the three bitboards and the
score. The piece goes to the automated player when `toAi` holds. -/
def fastDrop (toAi : Bool) (ai hu occ : Nat) (score : Int) (c : Nat) :
    Option (Nat × Nat × Nat × Int) :=
  match lowestFast occ c 6 with
  | none => none
  | some r =>
    some (if toAi then ai + 2 ^ (r * 7 + c) else ai,
      if toAi then hu else hu + 2 ^ (r * 7 + c),
      occ + 2 ^ (r * 7 + c),
      score + (if c = 3 then (if toAi then 6 else -6) else 0) +
        fastDelta ai hu (if toAi then ai + 2 ^ (r * 7 + c) else ai)
          (if toAi then hu else hu + 2 ^ (r * 7 + c)) ((throughTable.getD r []).getD c []))

/-! ### The check of a bound by a certificate

The bitboard search in a form that evaluates fast: natural numbers only, the
score kept as a difference `pos - neg`, every window score raised by 1000, and
the loops over rows, windows and columns written out. -/

/-- The choice between `x`, when `b` holds, and `y`. -/
def sel {α : Type} (b : Bool) (x y : α) : α := @Bool.casesOn (fun _ => α) b y x

/-- Bit `i` of `x`, as 0 or 1. -/
def rawBit (x i : Nat) : Nat := Nat.mod (Nat.shiftRight x i) 2

/-- Number of set bits of `x` among the 4 cells `a`, `b`, `c`, `d`. -/
def rawCount (x a b c d : Nat) : Nat :=
  Nat.add (Nat.add (Nat.add (rawBit x a) (rawBit x b)) (rawBit x c)) (rawBit x d)

/-- The score, raised by 1000, of a window that holds `h` pieces of the
opponent and no favorable piece. -/
def oppBiased (h : Nat) : Nat :=
  sel (Nat.beq h 4) 0 (sel (Nat.beq h 3) 900 (sel (Nat.beq h 2) 990 1000))

/-- The score, raised by 1000, of a window that holds `a` favorable pieces
and no piece of the opponent. -/
def favBiased (a : Nat) : Nat :=
  sel (Nat.beq a 4) 2000 (sel (Nat.beq a 3) 1050 (sel (Nat.beq a 2) 1010 1000))

/-- The score, raised by 1000, of the window with mask `m` and cells `a`,
`b`, `c`, `d`. -/
def windowBiased (ai hu m a b c d : Nat) : Nat :=
  sel (Nat.beq (Nat.land ai m) 0)
    (sel (Nat.beq (Nat.land hu m) 0) 1000 (oppBiased (rawCount hu a b c d)))
    (sel (Nat.beq (Nat.land hu m) 0) (favBiased (rawCount ai a b c d)) 1000)

/-- The sum of the raised scores of the windows `ws`. -/
def sumBiased (ai hu : Nat) : List FastWindow → Nat
  | [] => 0
  | w :: ws =>
    Nat.add (windowBiased ai hu w.1 w.2.1 w.2.2.1 w.2.2.2.1 w.2.2.2.2) (sumBiased ai hu ws)

/-- A position of the bitboard search: the cells of the automated player, of
the opponent, the occupied cells, and the score as `pos - neg`. -/
structure BitState where
  /-- The cells of the automated player. -/
  ai : Nat
  /-- The cells of the opponent. -/
  hu : Nat
  /-- The occupied cells. -/
  occ : Nat
  /-- The score is `pos - neg`. -/
  pos : Nat
  /-- The score is `pos - neg`. -/
  neg : Nat

/-- The position after a piece was put on the cell with the bit `bit`;
`cellSum` is the sum of the raised scores of the windows through the cell and
`center` the bonus of the cell. -/
def placePiece (toAi : Bool) (ai hu occ pos neg bit center : Nat)
    (cellSum : Nat → Nat → Nat) : BitState :=
  sel toAi
    (BitState.mk (Nat.add ai bit) hu (Nat.add occ bit)
      (Nat.add (Nat.add pos center) (cellSum (Nat.add ai bit) hu)) (Nat.add neg (cellSum ai hu)))
    (BitState.mk ai (Nat.add hu bit) (Nat.add occ bit)
      (Nat.add pos (cellSum ai (Nat.add hu bit))) (Nat.add (Nat.add neg center) (cellSum ai hu)))

/-- The position after a drop into column `col`, with the lowest `n` rows of
the board still to be tried from row `n - 1` upwards. -/
def dropRows (toAi : Bool) (ai hu occ pos neg col : Nat) : Nat → Option BitState
  | 0 => none
  | n + 1 =>
    sel (Nat.beq (rawBit occ (n * 7 + col)) 0)
      (some (placePiece toAi ai hu occ pos neg (2 ^ (n * 7 + col)) (if col = 3 then 6 else 0)
        (fun a h => sumBiased a h ((throughTable.getD n []).getD col []))))
      (dropRows toAi ai hu occ pos neg col n)

/-- The drop into column 0, written out: `dropRows` for this column and 6
rows. -/
def dropCol0 (toAi : Bool) (ai hu occ pos neg : Nat) : Option BitState :=
  (sel (Nat.beq (rawBit occ 35) 0)
      (some (placePiece toAi ai hu occ pos neg 34359738368 0
        (fun a h => Nat.add (windowBiased a h 515396075520 35 36 37 38) (Nat.add (windowBiased a
        h 34630287360 14 21 28 35) (Nat.add (windowBiased a h 34905128960 35 29 23 17) 0)))))
    (sel (Nat.beq (rawBit occ 28) 0)
      (some (placePiece toAi ai hu occ pos neg 268435456 0
        (fun a h => Nat.add (windowBiased a h 4026531840 28 29 30 31) (Nat.add (windowBiased a h
        270549120 7 14 21 28) (Nat.add (windowBiased a h 34630287360 14 21 28 35) (Nat.add
        (windowBiased a h 272696320 28 22 16 10) 0))))))
    (sel (Nat.beq (rawBit occ 21) 0)
      (some (placePiece toAi ai hu occ pos neg 2097152 0
        (fun a h => Nat.add (windowBiased a h 31457280 21 22 23 24) (Nat.add (windowBiased a h
        2113665 0 7 14 21) (Nat.add (windowBiased a h 270549120 7 14 21 28) (Nat.add
        (windowBiased a h 34630287360 14 21 28 35) (Nat.add (windowBiased a h 2130440 21 15 9 3)
        0)))))))
    (sel (Nat.beq (rawBit occ 14) 0)
      (some (placePiece toAi ai hu occ pos neg 16384 0
        (fun a h => Nat.add (windowBiased a h 245760 14 15 16 17) (Nat.add (windowBiased a h
        2113665 0 7 14 21) (Nat.add (windowBiased a h 270549120 7 14 21 28) (Nat.add
        (windowBiased a h 34630287360 14 21 28 35) (Nat.add (windowBiased a h 275955859456 14 22
        30 38) 0)))))))
    (sel (Nat.beq (rawBit occ 7) 0)
      (some (placePiece toAi ai hu occ pos neg 128 0
        (fun a h => Nat.add (windowBiased a h 1920 7 8 9 10) (Nat.add (windowBiased a h 2113665
        0 7 14 21) (Nat.add (windowBiased a h 270549120 7 14 21 28) (Nat.add (windowBiased a h
        2155905152 7 15 23 31) 0))))))
    (sel (Nat.beq (rawBit occ 0) 0)
      (some (placePiece toAi ai hu occ pos neg 1 0
        (fun a h => Nat.add (windowBiased a h 15 0 1 2 3) (Nat.add (windowBiased a h 2113665 0 7
        14 21) (Nat.add (windowBiased a h 16843009 0 8 16 24) 0)))))
    none))))))

/-- The drop into column 1, written out: `dropRows` for this column and 6
rows. -/
def dropCol1 (toAi : Bool) (ai hu occ pos neg : Nat) : Option BitState :=
  (sel (Nat.beq (rawBit occ 36) 0)
      (some (placePiece toAi ai hu occ pos neg 68719476736 0
        (fun a h => Nat.add (windowBiased a h 515396075520 35 36 37 38) (Nat.add (windowBiased a
        h 1030792151040 36 37 38 39) (Nat.add (windowBiased a h 69260574720 15 22 29 36)
        (Nat.add (windowBiased a h 69810257920 36 30 24 18) 0))))))
    (sel (Nat.beq (rawBit occ 29) 0)
      (some (placePiece toAi ai hu occ pos neg 536870912 0
        (fun a h => Nat.add (windowBiased a h 4026531840 28 29 30 31) (Nat.add (windowBiased a h
        8053063680 29 30 31 32) (Nat.add (windowBiased a h 541098240 8 15 22 29) (Nat.add
        (windowBiased a h 69260574720 15 22 29 36) (Nat.add (windowBiased a h 545392640 29 23 17
        11) (Nat.add (windowBiased a h 34905128960 35 29 23 17) 0))))))))
    (sel (Nat.beq (rawBit occ 22) 0)
      (some (placePiece toAi ai hu occ pos neg 4194304 0
        (fun a h => Nat.add (windowBiased a h 31457280 21 22 23 24) (Nat.add (windowBiased a h
        62914560 22 23 24 25) (Nat.add (windowBiased a h 4227330 1 8 15 22) (Nat.add
        (windowBiased a h 541098240 8 15 22 29) (Nat.add (windowBiased a h 69260574720 15 22 29
        36) (Nat.add (windowBiased a h 275955859456 14 22 30 38) (Nat.add (windowBiased a h
        4260880 22 16 10 4) (Nat.add (windowBiased a h 272696320 28 22 16 10) 0))))))))))
    (sel (Nat.beq (rawBit occ 15) 0)
      (some (placePiece toAi ai hu occ pos neg 32768 0
        (fun a h => Nat.add (windowBiased a h 245760 14 15 16 17) (Nat.add (windowBiased a h
        491520 15 16 17 18) (Nat.add (windowBiased a h 4227330 1 8 15 22) (Nat.add (windowBiased
        a h 541098240 8 15 22 29) (Nat.add (windowBiased a h 69260574720 15 22 29 36) (Nat.add
        (windowBiased a h 2155905152 7 15 23 31) (Nat.add (windowBiased a h 551911718912 15 23
        31 39) (Nat.add (windowBiased a h 2130440 21 15 9 3) 0))))))))))
    (sel (Nat.beq (rawBit occ 8) 0)
      (some (placePiece toAi ai hu occ pos neg 256 0
        (fun a h => Nat.add (windowBiased a h 1920 7 8 9 10) (Nat.add (windowBiased a h 3840 8 9
        10 11) (Nat.add (windowBiased a h 4227330 1 8 15 22) (Nat.add (windowBiased a h
        541098240 8 15 22 29) (Nat.add (windowBiased a h 16843009 0 8 16 24) (Nat.add
        (windowBiased a h 4311810304 8 16 24 32) 0))))))))
    (sel (Nat.beq (rawBit occ 1) 0)
      (some (placePiece toAi ai hu occ pos neg 2 0
        (fun a h => Nat.add (windowBiased a h 15 0 1 2 3) (Nat.add (windowBiased a h 30 1 2 3 4)
        (Nat.add (windowBiased a h 4227330 1 8 15 22) (Nat.add (windowBiased a h 33686018 1 9 17
        25) 0))))))
    none))))))

/-- The drop into column 2, written out: `dropRows` for this column and 6
rows. -/
def dropCol2 (toAi : Bool) (ai hu occ pos neg : Nat) : Option BitState :=
  (sel (Nat.beq (rawBit occ 37) 0)
      (some (placePiece toAi ai hu occ pos neg 137438953472 0
        (fun a h => Nat.add (windowBiased a h 515396075520 35 36 37 38) (Nat.add (windowBiased a
        h 1030792151040 36 37 38 39) (Nat.add (windowBiased a h 2061584302080 37 38 39 40)
        (Nat.add (windowBiased a h 138521149440 16 23 30 37) (Nat.add (windowBiased a h
        139620515840 37 31 25 19) 0)))))))
    (sel (Nat.beq (rawBit occ 30) 0)
      (some (placePiece toAi ai hu occ pos neg 1073741824 0
        (fun a h => Nat.add (windowBiased a h 4026531840 28 29 30 31) (Nat.add (windowBiased a h
        8053063680 29 30 31 32) (Nat.add (windowBiased a h 16106127360 30 31 32 33) (Nat.add
        (windowBiased a h 1082196480 9 16 23 30) (Nat.add (windowBiased a h 138521149440 16 23
        30 37) (Nat.add (windowBiased a h 275955859456 14 22 30 38) (Nat.add (windowBiased a h
        1090785280 30 24 18 12) (Nat.add (windowBiased a h 69810257920 36 30 24 18) 0))))))))))
    (sel (Nat.beq (rawBit occ 23) 0)
      (some (placePiece toAi ai hu occ pos neg 8388608 0
        (fun a h => Nat.add (windowBiased a h 31457280 21 22 23 24) (Nat.add (windowBiased a h
        62914560 22 23 24 25) (Nat.add (windowBiased a h 125829120 23 24 25 26) (Nat.add
        (windowBiased a h 8454660 2 9 16 23) (Nat.add (windowBiased a h 1082196480 9 16 23 30)
        (Nat.add (windowBiased a h 138521149440 16 23 30 37) (Nat.add (windowBiased a h
        2155905152 7 15 23 31) (Nat.add (windowBiased a h 551911718912 15 23 31 39) (Nat.add
        (windowBiased a h 8521760 23 17 11 5) (Nat.add (windowBiased a h 545392640 29 23 17 11)
        (Nat.add (windowBiased a h 34905128960 35 29 23 17) 0)))))))))))))
    (sel (Nat.beq (rawBit occ 16) 0)
      (some (placePiece toAi ai hu occ pos neg 65536 0
        (fun a h => Nat.add (windowBiased a h 245760 14 15 16 17) (Nat.add (windowBiased a h
        491520 15 16 17 18) (Nat.add (windowBiased a h 983040 16 17 18 19) (Nat.add
        (windowBiased a h 8454660 2 9 16 23) (Nat.add (windowBiased a h 1082196480 9 16 23 30)
        (Nat.add (windowBiased a h 138521149440 16 23 30 37) (Nat.add (windowBiased a h 16843009
        0 8 16 24) (Nat.add (windowBiased a h 4311810304 8 16 24 32) (Nat.add (windowBiased a h
        1103823437824 16 24 32 40) (Nat.add (windowBiased a h 4260880 22 16 10 4) (Nat.add
        (windowBiased a h 272696320 28 22 16 10) 0)))))))))))))
    (sel (Nat.beq (rawBit occ 9) 0)
      (some (placePiece toAi ai hu occ pos neg 512 0
        (fun a h => Nat.add (windowBiased a h 1920 7 8 9 10) (Nat.add (windowBiased a h 3840 8 9
        10 11) (Nat.add (windowBiased a h 7680 9 10 11 12) (Nat.add (windowBiased a h 8454660 2
        9 16 23) (Nat.add (windowBiased a h 1082196480 9 16 23 30) (Nat.add (windowBiased a h
        33686018 1 9 17 25) (Nat.add (windowBiased a h 8623620608 9 17 25 33) (Nat.add
        (windowBiased a h 2130440 21 15 9 3) 0))))))))))
    (sel (Nat.beq (rawBit occ 2) 0)
      (some (placePiece toAi ai hu occ pos neg 4 0
        (fun a h => Nat.add (windowBiased a h 15 0 1 2 3) (Nat.add (windowBiased a h 30 1 2 3 4)
        (Nat.add (windowBiased a h 60 2 3 4 5) (Nat.add (windowBiased a h 8454660 2 9 16 23)
        (Nat.add (windowBiased a h 67372036 2 10 18 26) 0)))))))
    none))))))

/-- The drop into column 3, written out: `dropRows` for this column and 6
rows. -/
def dropCol3 (toAi : Bool) (ai hu occ pos neg : Nat) : Option BitState :=
  (sel (Nat.beq (rawBit occ 38) 0)
      (some (placePiece toAi ai hu occ pos neg 274877906944 6
        (fun a h => Nat.add (windowBiased a h 515396075520 35 36 37 38) (Nat.add (windowBiased a
        h 1030792151040 36 37 38 39) (Nat.add (windowBiased a h 2061584302080 37 38 39 40)
        (Nat.add (windowBiased a h 4123168604160 38 39 40 41) (Nat.add (windowBiased a h
        277042298880 17 24 31 38) (Nat.add (windowBiased a h 275955859456 14 22 30 38) (Nat.add
        (windowBiased a h 279241031680 38 32 26 20) 0)))))))))
    (sel (Nat.beq (rawBit occ 31) 0)
      (some (placePiece toAi ai hu occ pos neg 2147483648 6
        (fun a h => Nat.add (windowBiased a h 4026531840 28 29 30 31) (Nat.add (windowBiased a h
        8053063680 29 30 31 32) (Nat.add (windowBiased a h 16106127360 30 31 32 33) (Nat.add
        (windowBiased a h 32212254720 31 32 33 34) (Nat.add (windowBiased a h 2164392960 10 17
        24 31) (Nat.add (windowBiased a h 277042298880 17 24 31 38) (Nat.add (windowBiased a h
        2155905152 7 15 23 31) (Nat.add (windowBiased a h 551911718912 15 23 31 39) (Nat.add
        (windowBiased a h 2181570560 31 25 19 13) (Nat.add (windowBiased a h 139620515840 37 31
        25 19) 0))))))))))))
    (sel (Nat.beq (rawBit occ 24) 0)
      (some (placePiece toAi ai hu occ pos neg 16777216 6
        (fun a h => Nat.add (windowBiased a h 31457280 21 22 23 24) (Nat.add (windowBiased a h
        62914560 22 23 24 25) (Nat.add (windowBiased a h 125829120 23 24 25 26) (Nat.add
        (windowBiased a h 251658240 24 25 26 27) (Nat.add (windowBiased a h 16909320 3 10 17 24)
        (Nat.add (windowBiased a h 2164392960 10 17 24 31) (Nat.add (windowBiased a h
        277042298880 17 24 31 38) (Nat.add (windowBiased a h 16843009 0 8 16 24) (Nat.add
        (windowBiased a h 4311810304 8 16 24 32) (Nat.add (windowBiased a h 1103823437824 16 24
        32 40) (Nat.add (windowBiased a h 17043520 24 18 12 6) (Nat.add (windowBiased a h
        1090785280 30 24 18 12) (Nat.add (windowBiased a h 69810257920 36 30 24 18)
        0)))))))))))))))
    (sel (Nat.beq (rawBit occ 17) 0)
      (some (placePiece toAi ai hu occ pos neg 131072 6
        (fun a h => Nat.add (windowBiased a h 245760 14 15 16 17) (Nat.add (windowBiased a h
        491520 15 16 17 18) (Nat.add (windowBiased a h 983040 16 17 18 19) (Nat.add
        (windowBiased a h 1966080 17 18 19 20) (Nat.add (windowBiased a h 16909320 3 10 17 24)
        (Nat.add (windowBiased a h 2164392960 10 17 24 31) (Nat.add (windowBiased a h
        277042298880 17 24 31 38) (Nat.add (windowBiased a h 33686018 1 9 17 25) (Nat.add
        (windowBiased a h 8623620608 9 17 25 33) (Nat.add (windowBiased a h 2207646875648 17 25
        33 41) (Nat.add (windowBiased a h 8521760 23 17 11 5) (Nat.add (windowBiased a h
        545392640 29 23 17 11) (Nat.add (windowBiased a h 34905128960 35 29 23 17)
        0)))))))))))))))
    (sel (Nat.beq (rawBit occ 10) 0)
      (some (placePiece toAi ai hu occ pos neg 1024 6
        (fun a h => Nat.add (windowBiased a h 1920 7 8 9 10) (Nat.add (windowBiased a h 3840 8 9
        10 11) (Nat.add (windowBiased a h 7680 9 10 11 12) (Nat.add (windowBiased a h 15360 10
        11 12 13) (Nat.add (windowBiased a h 16909320 3 10 17 24) (Nat.add (windowBiased a h
        2164392960 10 17 24 31) (Nat.add (windowBiased a h 67372036 2 10 18 26) (Nat.add
        (windowBiased a h 17247241216 10 18 26 34) (Nat.add (windowBiased a h 4260880 22 16 10
        4) (Nat.add (windowBiased a h 272696320 28 22 16 10) 0))))))))))))
    (sel (Nat.beq (rawBit occ 3) 0)
      (some (placePiece toAi ai hu occ pos neg 8 6
        (fun a h => Nat.add (windowBiased a h 15 0 1 2 3) (Nat.add (windowBiased a h 30 1 2 3 4)
        (Nat.add (windowBiased a h 60 2 3 4 5) (Nat.add (windowBiased a h 120 3 4 5 6) (Nat.add
        (windowBiased a h 16909320 3 10 17 24) (Nat.add (windowBiased a h 134744072 3 11 19 27)
        (Nat.add (windowBiased a h 2130440 21 15 9 3) 0)))))))))
    none))))))

/-- The drop into column 4, written out: `dropRows` for this column and 6
rows. -/
def dropCol4 (toAi : Bool) (ai hu occ pos neg : Nat) : Option BitState :=
  (sel (Nat.beq (rawBit occ 39) 0)
      (some (placePiece toAi ai hu occ pos neg 549755813888 0
        (fun a h => Nat.add (windowBiased a h 1030792151040 36 37 38 39) (Nat.add (windowBiased
        a h 2061584302080 37 38 39 40) (Nat.add (windowBiased a h 4123168604160 38 39 40 41)
        (Nat.add (windowBiased a h 554084597760 18 25 32 39) (Nat.add (windowBiased a h
        551911718912 15 23 31 39) 0)))))))
    (sel (Nat.beq (rawBit occ 32) 0)
      (some (placePiece toAi ai hu occ pos neg 4294967296 0
        (fun a h => Nat.add (windowBiased a h 8053063680 29 30 31 32) (Nat.add (windowBiased a h
        16106127360 30 31 32 33) (Nat.add (windowBiased a h 32212254720 31 32 33 34) (Nat.add
        (windowBiased a h 4328785920 11 18 25 32) (Nat.add (windowBiased a h 554084597760 18 25
        32 39) (Nat.add (windowBiased a h 4311810304 8 16 24 32) (Nat.add (windowBiased a h
        1103823437824 16 24 32 40) (Nat.add (windowBiased a h 279241031680 38 32 26 20)
        0))))))))))
    (sel (Nat.beq (rawBit occ 25) 0)
      (some (placePiece toAi ai hu occ pos neg 33554432 0
        (fun a h => Nat.add (windowBiased a h 62914560 22 23 24 25) (Nat.add (windowBiased a h
        125829120 23 24 25 26) (Nat.add (windowBiased a h 251658240 24 25 26 27) (Nat.add
        (windowBiased a h 33818640 4 11 18 25) (Nat.add (windowBiased a h 4328785920 11 18 25
        32) (Nat.add (windowBiased a h 554084597760 18 25 32 39) (Nat.add (windowBiased a h
        33686018 1 9 17 25) (Nat.add (windowBiased a h 8623620608 9 17 25 33) (Nat.add
        (windowBiased a h 2207646875648 17 25 33 41) (Nat.add (windowBiased a h 2181570560 31 25
        19 13) (Nat.add (windowBiased a h 139620515840 37 31 25 19) 0)))))))))))))
    (sel (Nat.beq (rawBit occ 18) 0)
      (some (placePiece toAi ai hu occ pos neg 262144 0
        (fun a h => Nat.add (windowBiased a h 491520 15 16 17 18) (Nat.add (windowBiased a h
        983040 16 17 18 19) (Nat.add (windowBiased a h 1966080 17 18 19 20) (Nat.add
        (windowBiased a h 33818640 4 11 18 25) (Nat.add (windowBiased a h 4328785920 11 18 25
        32) (Nat.add (windowBiased a h 554084597760 18 25 32 39) (Nat.add (windowBiased a h
        67372036 2 10 18 26) (Nat.add (windowBiased a h 17247241216 10 18 26 34) (Nat.add
        (windowBiased a h 17043520 24 18 12 6) (Nat.add (windowBiased a h 1090785280 30 24 18
        12) (Nat.add (windowBiased a h 69810257920 36 30 24 18) 0)))))))))))))
    (sel (Nat.beq (rawBit occ 11) 0)
      (some (placePiece toAi ai hu occ pos neg 2048 0
        (fun a h => Nat.add (windowBiased a h 3840 8 9 10 11) (Nat.add (windowBiased a h 7680 9
        10 11 12) (Nat.add (windowBiased a h 15360 10 11 12 13) (Nat.add (windowBiased a h
        33818640 4 11 18 25) (Nat.add (windowBiased a h 4328785920 11 18 25 32) (Nat.add
        (windowBiased a h 134744072 3 11 19 27) (Nat.add (windowBiased a h 8521760 23 17 11 5)
        (Nat.add (windowBiased a h 545392640 29 23 17 11) 0))))))))))
    (sel (Nat.beq (rawBit occ 4) 0)
      (some (placePiece toAi ai hu occ pos neg 16 0
        (fun a h => Nat.add (windowBiased a h 30 1 2 3 4) (Nat.add (windowBiased a h 60 2 3 4 5)
        (Nat.add (windowBiased a h 120 3 4 5 6) (Nat.add (windowBiased a h 33818640 4 11 18 25)
        (Nat.add (windowBiased a h 4260880 22 16 10 4) 0)))))))
    none))))))

/-- The drop into column 5, written out: `dropRows` for this column and 6
rows. -/
def dropCol5 (toAi : Bool) (ai hu occ pos neg : Nat) : Option BitState :=
  (sel (Nat.beq (rawBit occ 40) 0)
      (some (placePiece toAi ai hu occ pos neg 1099511627776 0
        (fun a h => Nat.add (windowBiased a h 2061584302080 37 38 39 40) (Nat.add (windowBiased
        a h 4123168604160 38 39 40 41) (Nat.add (windowBiased a h 1108169195520 19 26 33 40)
        (Nat.add (windowBiased a h 1103823437824 16 24 32 40) 0))))))
    (sel (Nat.beq (rawBit occ 33) 0)
      (some (placePiece toAi ai hu occ pos neg 8589934592 0
        (fun a h => Nat.add (windowBiased a h 16106127360 30 31 32 33) (Nat.add (windowBiased a
        h 32212254720 31 32 33 34) (Nat.add (windowBiased a h 8657571840 12 19 26 33) (Nat.add
        (windowBiased a h 1108169195520 19 26 33 40) (Nat.add (windowBiased a h 8623620608 9 17
        25 33) (Nat.add (windowBiased a h 2207646875648 17 25 33 41) 0))))))))
    (sel (Nat.beq (rawBit occ 26) 0)
      (some (placePiece toAi ai hu occ pos neg 67108864 0
        (fun a h => Nat.add (windowBiased a h 125829120 23 24 25 26) (Nat.add (windowBiased a h
        251658240 24 25 26 27) (Nat.add (windowBiased a h 67637280 5 12 19 26) (Nat.add
        (windowBiased a h 8657571840 12 19 26 33) (Nat.add (windowBiased a h 1108169195520 19 26
        33 40) (Nat.add (windowBiased a h 67372036 2 10 18 26) (Nat.add (windowBiased a h
        17247241216 10 18 26 34) (Nat.add (windowBiased a h 279241031680 38 32 26 20)
        0))))))))))
    (sel (Nat.beq (rawBit occ 19) 0)
      (some (placePiece toAi ai hu occ pos neg 524288 0
        (fun a h => Nat.add (windowBiased a h 983040 16 17 18 19) (Nat.add (windowBiased a h
        1966080 17 18 19 20) (Nat.add (windowBiased a h 67637280 5 12 19 26) (Nat.add
        (windowBiased a h 8657571840 12 19 26 33) (Nat.add (windowBiased a h 1108169195520 19 26
        33 40) (Nat.add (windowBiased a h 134744072 3 11 19 27) (Nat.add (windowBiased a h
        2181570560 31 25 19 13) (Nat.add (windowBiased a h 139620515840 37 31 25 19) 0))))))))))
    (sel (Nat.beq (rawBit occ 12) 0)
      (some (placePiece toAi ai hu occ pos neg 4096 0
        (fun a h => Nat.add (windowBiased a h 7680 9 10 11 12) (Nat.add (windowBiased a h 15360
        10 11 12 13) (Nat.add (windowBiased a h 67637280 5 12 19 26) (Nat.add (windowBiased a h
        8657571840 12 19 26 33) (Nat.add (windowBiased a h 17043520 24 18 12 6) (Nat.add
        (windowBiased a h 1090785280 30 24 18 12) 0))))))))
    (sel (Nat.beq (rawBit occ 5) 0)
      (some (placePiece toAi ai hu occ pos neg 32 0
        (fun a h => Nat.add (windowBiased a h 60 2 3 4 5) (Nat.add (windowBiased a h 120 3 4 5
        6) (Nat.add (windowBiased a h 67637280 5 12 19 26) (Nat.add (windowBiased a h 8521760 23
        17 11 5) 0))))))
    none))))))

/-- The drop into column 6, written out: `dropRows` for this column and 6
rows. -/
def dropCol6 (toAi : Bool) (ai hu occ pos neg : Nat) : Option BitState :=
  (sel (Nat.beq (rawBit occ 41) 0)
      (some (placePiece toAi ai hu occ pos neg 2199023255552 0
        (fun a h => Nat.add (windowBiased a h 4123168604160 38 39 40 41) (Nat.add (windowBiased
        a h 2216338391040 20 27 34 41) (Nat.add (windowBiased a h 2207646875648 17 25 33 41)
        0)))))
    (sel (Nat.beq (rawBit occ 34) 0)
      (some (placePiece toAi ai hu occ pos neg 17179869184 0
        (fun a h => Nat.add (windowBiased a h 32212254720 31 32 33 34) (Nat.add (windowBiased a
        h 17315143680 13 20 27 34) (Nat.add (windowBiased a h 2216338391040 20 27 34 41)
        (Nat.add (windowBiased a h 17247241216 10 18 26 34) 0))))))
    (sel (Nat.beq (rawBit occ 27) 0)
      (some (placePiece toAi ai hu occ pos neg 134217728 0
        (fun a h => Nat.add (windowBiased a h 251658240 24 25 26 27) (Nat.add (windowBiased a h
        135274560 6 13 20 27) (Nat.add (windowBiased a h 17315143680 13 20 27 34) (Nat.add
        (windowBiased a h 2216338391040 20 27 34 41) (Nat.add (windowBiased a h 134744072 3 11
        19 27) 0)))))))
    (sel (Nat.beq (rawBit occ 20) 0)
      (some (placePiece toAi ai hu occ pos neg 1048576 0
        (fun a h => Nat.add (windowBiased a h 1966080 17 18 19 20) (Nat.add (windowBiased a h
        135274560 6 13 20 27) (Nat.add (windowBiased a h 17315143680 13 20 27 34) (Nat.add
        (windowBiased a h 2216338391040 20 27 34 41) (Nat.add (windowBiased a h 279241031680 38
        32 26 20) 0)))))))
    (sel (Nat.beq (rawBit occ 13) 0)
      (some (placePiece toAi ai hu occ pos neg 8192 0
        (fun a h => Nat.add (windowBiased a h 15360 10 11 12 13) (Nat.add (windowBiased a h
        135274560 6 13 20 27) (Nat.add (windowBiased a h 17315143680 13 20 27 34) (Nat.add
        (windowBiased a h 2181570560 31 25 19 13) 0))))))
    (sel (Nat.beq (rawBit occ 6) 0)
      (some (placePiece toAi ai hu occ pos neg 64 0
        (fun a h => Nat.add (windowBiased a h 120 3 4 5 6) (Nat.add (windowBiased a h 135274560
        6 13 20 27) (Nat.add (windowBiased a h 17043520 24 18 12 6) 0)))))
    none))))))

/-- The drop into the column `c` of a certificate. -/
def dropAt (toAi : Bool) (ai hu occ pos neg c : Nat) : Option BitState :=
  sel (Nat.beq c 3) (dropCol3 toAi ai hu occ pos neg)
  (sel (Nat.beq c 2) (dropCol2 toAi ai hu occ pos neg)
  (sel (Nat.beq c 4) (dropCol4 toAi ai hu occ pos neg)
  (sel (Nat.beq c 1) (dropCol1 toAi ai hu occ pos neg)
  (sel (Nat.beq c 5) (dropCol5 toAi ai hu occ pos neg)
  (sel (Nat.beq c 0) (dropCol0 toAi ai hu occ pos neg)
  (sel (Nat.beq c 6) (dropCol6 toAi ai hu occ pos neg) none))))))

/-- The test at a node whose value `vp - vn` is known, for the bound
`bp - bn`: `bound ≤ value` for a lower bound, `value ≤ bound` for an upper
bound. -/
def leafCheck (isLower : Bool) (bp bn vp vn : Nat) (cert : List Nat) : Option (List Nat) :=
  sel isLower
    (sel (Nat.ble (Nat.add bp vn) (Nat.add vp bn)) (some cert) none)
    (sel (Nat.ble (Nat.add vp bn) (Nat.add bp vn)) (some cert) none)

/-- One column of a node at which an upper bound is checked: when the column
is not full, the position after the drop must pass the check `child`, which
consumes its part of the certificate. -/
def thenCheck (x : Option BitState) (child : BitState → List Nat → Option (List Nat))
    (cert : Option (List Nat)) : Option (List Nat) :=
  match cert with
  | none => none
  | some ct =>
    match x with
    | none => some ct
    | some st => child st ct

/-- The check of a bound `bp - bn` on the value of the search without cutoff
at a node, by a certificate: the list of the columns to play at the nodes
where a lower bound is to be shown, in the order of the walk. The result is
the rest of the certificate when the bound is established, `none` otherwise.
`last` tells that the node has depth 6, `sign` that the sign is +1, `toAi`
that the piece to drop is the one of the automated player of the evaluator;
`child` is the check one level down. -/
def checkStep (last : Bool)
    (child : Bool → Bool → Bool → Nat → Nat → BitState → List Nat → Option (List Nat))
    (sign toAi isLower : Bool) (bp bn : Nat) (st : BitState) (cert : List Nat) :
    Option (List Nat) :=
  match st with
  | BitState.mk ai hu occ pos neg =>
    sel (sel (Nat.ble (Nat.add neg 1000) pos) true (Nat.ble (Nat.add pos 1000) neg))
      (sel sign (leafCheck isLower bp bn pos neg cert) (leafCheck isLower bp bn neg pos cert))
      (sel (Nat.beq (Nat.mod occ 128) 127) (leafCheck isLower bp bn 0 0 cert)
        (sel last
          (sel sign (leafCheck isLower bp bn pos neg cert)
            (leafCheck isLower bp bn neg pos cert))
          (sel isLower
            (sel (Nat.ble (Nat.add bp 10000) bn) (some cert)
              (match cert with
               | [] => none
               | c :: rest =>
                 match dropAt toAi ai hu occ pos neg c with
                 | none => none
                 | some st2 => child (not sign) (not toAi) false bn bp st2 rest))
            (sel (Nat.blt (Nat.add bp 10000) bn) none
              (thenCheck (dropCol6 toAi ai hu occ pos neg) (child (not sign) (not toAi) true bn bp)
              (thenCheck (dropCol0 toAi ai hu occ pos neg) (child (not sign) (not toAi) true bn bp)
              (thenCheck (dropCol5 toAi ai hu occ pos neg) (child (not sign) (not toAi) true bn bp)
              (thenCheck (dropCol1 toAi ai hu occ pos neg) (child (not sign) (not toAi) true bn bp)
              (thenCheck (dropCol4 toAi ai hu occ pos neg) (child (not sign) (not toAi) true bn bp)
              (thenCheck (dropCol2 toAi ai hu occ pos neg) (child (not sign) (not toAi) true bn bp)
              (thenCheck (dropCol3 toAi ai hu occ pos neg) (child (not sign) (not toAi) true bn bp)
                (some cert))))))))))))

/-- The check at depth 6, where every node is a leaf. -/
def check6 : Bool → Bool → Bool → Nat → Nat → BitState → List Nat → Option (List Nat) :=
  checkStep true (fun _ _ _ _ _ _ _ => none)

/-- The check at depth 5. -/
def check5 : Bool → Bool → Bool → Nat → Nat → BitState → List Nat → Option (List Nat) :=
  checkStep false check6

/-- The check at depth 4. -/
def check4 : Bool → Bool → Bool → Nat → Nat → BitState → List Nat → Option (List Nat) :=
  checkStep false check5

/-- The check at depth 3. -/
def check3 : Bool → Bool → Bool → Nat → Nat → BitState → List Nat → Option (List Nat) :=
  checkStep false check4

/-- The check at depth 2. -/
def check2 : Bool → Bool → Bool → Nat → Nat → BitState → List Nat → Option (List Nat) :=
  checkStep false check3

/-- The check at depth 1. -/
def check1 : Bool → Bool → Bool → Nat → Nat → BitState → List Nat → Option (List Nat) :=
  checkStep false check2

/-- The check at depth 0, the depth at which `updateAI` calls `negamax`. -/
def check0 : Bool → Bool → Bool → Nat → Nat → BitState → List Nat → Option (List Nat) :=
  checkStep false check1

/-- The position `st` of the bitboard search stands for the board string
`s`. -/
def RepresentsState (aiPlayer : Int) (s : List Char) (st : BitState) : Prop :=
  Represents aiPlayer s st.ai st.hu st.occ ((st.pos : Int) - (st.neg : Int))

/-- The check `check` is sound at depth `depth`: when it accepts a bound
`bp - bn` at a position, the value of the search without cutoff at this
position and depth obeys the bound. -/
def CheckSound (aiPlayer : Int) (depth : Nat)
    (check : Bool → Bool → Bool → Nat → Nat → BitState → List Nat → Option (List Nat)) : Prop :=
  ∀ (sign toAi isLower : Bool) (bp bn : Nat) (st : BitState) (cert rest : List Nat)
    (s : List Char) (fuel : Nat) (p : Int),
    RepresentsState aiPlayer s st → toAi = (sign == decide (aiPlayer ≠ 0)) →
    check sign toAi isLower bp bn st cert = some rest →
    plain aiPlayer fuel s (depth : Int) (signOf sign) = some p →
    if isLower = true then (bp : Int) - (bn : Int) ≤ p else p ≤ (bp : Int) - (bn : Int)

/-- The board without pieces. -/
def emptyBoard : List Char := List.replicate 42 '0'

/-- Certificate for the upper bound -46 on the value of the search after the
opening drop in column 3, for `AIPlayer = 1`. -/
def openingCert13 : List Nat :=
  [3, 2, 4, 4, 1, 5, 1, 4, 1, 2, 2, 1, 2, 2, 2, 2, 2, 4, 4, 4, 5, 4, 4, 4, 4, 5, 4, 4, 4, 4, 4,
   4, 2, 1, 2, 2, 2, 2, 2, 2, 2, 4, 5, 5, 2, 5, 1, 5, 2, 2, 1, 4, 1, 5, 1, 4, 1, 3, 4, 4, 2, 5,
   2, 4, 4, 4, 3, 2, 3, 3, 3, 3, 3, 3, 2, 4, 4, 3, 4, 4, 4, 4, 2, 1, 1, 4, 3, 1, 1, 1, 2, 5, 3,
   4, 1, 3, 3, 3, 2, 0, 3, 4, 1, 3, 3, 3, 2, 2, 3, 4, 1, 3, 3, 3, 3, 2, 2, 1, 4, 2, 2, 2, 2, 2,
   4, 4, 3, 4, 4, 4, 4, 3, 4, 3, 3, 3, 3, 3, 3, 4, 1, 2, 3, 3, 5, 3, 3, 4, 5, 2, 5, 5, 3, 5, 5,
   4, 4, 2, 3, 3, 5, 3, 3, 4, 6, 2, 3, 3, 5, 3, 3, 4, 5, 2, 6, 2, 2, 2, 2, 2, 3, 2, 3, 3, 3, 3,
   3, 3, 5, 2, 6, 2, 2, 2, 2, 2, 5, 2, 6, 2, 2, 2, 2, 2, 4, 4, 3, 3, 4, 4, 3, 3, 5, 2, 6, 2, 2,
   2, 2, 2, 4, 4, 3, 3, 4, 3, 3, 4, 2, 1, 4, 4, 0, 4, 4, 4, 4, 1, 4, 4, 0, 4, 4, 4, 4, 3, 2, 3,
   3, 3, 3, 3, 3, 2, 2, 3, 3, 2, 2, 3, 3, 1, 4, 4, 0, 4, 4, 4, 4, 2, 2, 3, 3, 3, 2, 2, 3, 1, 4,
   4, 0, 4, 4, 4, 4, 4, 2, 5, 5, 5, 5, 1, 5, 1, 3, 4, 2, 3, 3, 3, 3, 3, 5, 2, 6, 2, 2, 2, 2, 2,
   5, 2, 6, 2, 2, 2, 2, 2, 3, 4, 3, 3, 3, 3, 3, 3, 2, 5, 5, 5, 5, 1, 5, 1, 2, 1, 1, 1, 5, 1, 1,
   1, 2, 4, 1, 1, 1, 5, 1, 1, 1, 1, 4, 4, 0, 4, 4, 4, 4, 3, 2, 3, 4, 3, 3, 3, 3, 3, 2, 3, 3, 3,
   3, 3, 3, 1, 4, 4, 0, 4, 4, 4, 4, 4, 1, 1, 1, 5, 1, 1, 1, 4, 1, 1, 1, 5, 1, 1, 1]

/-- Certificate for the lower bound -46 on the value of the search after the
opening drop in column 2, for `AIPlayer = 1`. -/
def openingCert12 : List Nat :=
  [2, 1, 3, 3, 5, 4, 4, 3, 4, 4, 3, 2, 3, 3, 3, 3, 3, 3, 2, 3, 4, 3, 3, 3, 3, 3, 3, 3, 3, 1, 3,
   3, 3, 3, 3, 3, 3, 3, 5, 3, 3, 3, 3, 3, 3, 3, 3, 0, 3, 3, 3, 3, 3, 3, 3, 3, 3]

/-- Certificate for the lower bound -46 on the value of the search after the
opening drop in column 4, for `AIPlayer = 1`. -/
def openingCert14 : List Nat :=
  [4, 5, 3, 1, 3, 2, 2, 2, 3, 3, 4, 2, 3, 3, 3, 3, 3, 2, 3, 3, 2, 3, 3, 3, 3, 3, 3, 3, 3, 1, 3,
   3, 3, 3, 3, 3, 3, 3, 5, 3, 3, 3, 3, 3, 3, 3, 3, 3, 3, 3, 3, 3, 3, 3, 3, 3, 6]

/-- Certificate for the lower bound -46 on the value of the search after the
opening drop in column 1, for `AIPlayer = 1`. -/
def openingCert11 : List Nat :=
  [3, 3, 1, 2, 4, 1, 3, 1, 5, 3, 2, 3, 2, 1, 2, 2, 2, 3, 4, 2, 3, 1, 4, 4, 4, 4, 5, 5, 5, 1, 1,
   5, 1, 3, 1, 2, 4, 1, 5, 1, 1, 4, 5, 3, 5, 5, 4, 5, 3, 4, 2, 3, 5, 1, 4, 3, 6]

/-- Certificate for the lower bound -46 on the value of the search after the
opening drop in column 5, for `AIPlayer = 1`. -/
def openingCert15 : List Nat :=
  [3, 3, 5, 2, 4, 3, 5, 1, 1, 3, 2, 3, 4, 2, 5, 2, 2, 3, 4, 4, 3, 4, 5, 4, 4, 3, 1, 2, 4, 1, 5,
   1, 1, 2, 1, 1, 1, 5, 5, 5, 1, 2, 4, 1, 3, 2, 5, 0, 3, 2, 1, 1, 3, 2, 1, 3, 1]

/-- Certificate for the lower bound -46 on the value of the search after the
opening drop in column 0, for `AIPlayer = 1`. -/
def openingCert10 : List Nat :=
  [3, 3, 4, 2, 4, 1, 1, 0, 3, 3, 2, 2, 2, 2, 2, 0, 2, 3, 4, 2, 4, 4, 4, 0, 4, 4, 5, 3, 5, 5, 4,
   5, 3, 2, 4, 1, 3, 2, 5, 0, 3, 4, 2, 5, 5, 5, 0, 0, 2, 2, 4, 4, 3, 3, 3, 4, 4]

/-- Certificate for the lower bound -46 on the value of the search after the
opening drop in column 6, for `AIPlayer = 1`. -/
def openingCert16 : List Nat :=
  [3, 3, 2, 2, 4, 5, 1, 3, 6, 3, 2, 2, 2, 2, 2, 2, 6, 3, 4, 2, 4, 4, 4, 4, 6, 4, 2, 3, 5, 1, 4,
   3, 6, 2, 1, 1, 3, 2, 1, 3, 1, 2, 4, 4, 3, 3, 3, 4, 4, 2, 4, 1, 1, 6, 1, 4, 6]

/-- Certificate for the upper bound -26 on the value of the search after the
opening drop in column 3, for `AIPlayer = 0`. -/
def openingCert03 : List Nat :=
  [2, 0, 4, 4, 4, 1, 4, 1, 0, 4, 1, 1, 4, 1, 4, 1, 4, 1, 1, 4, 1, 1, 1, 1, 0, 4, 4, 4, 4, 5, 4,
   6, 1, 5, 2, 4, 1, 0, 5, 5, 1, 4, 2, 4, 4, 5, 4, 0, 1, 0, 2, 4, 1, 5, 0, 0, 6, 2, 2, 2, 4, 1,
   2, 0, 6, 6, 2, 5, 2, 1, 2, 0, 6, 2, 4, 2, 2, 2, 6, 2, 1, 2, 2, 2, 6, 2, 2, 2, 2, 2, 2, 6, 2,
   0, 2, 2, 2, 2, 6, 6, 2, 3, 2, 2, 2, 2, 2, 0, 4, 4, 2, 4, 4, 5, 0, 6, 2, 4, 2, 4, 0, 6, 0, 4,
   2, 1, 4, 5, 0, 6, 4, 4, 4, 4, 4, 0, 4, 4, 5, 4, 4, 4, 0, 0, 4, 2, 3, 4, 4, 4, 4, 4, 6, 4, 4,
   4, 0, 4, 1, 1, 5, 2, 4, 1, 5, 5, 6, 1, 2, 6, 1, 5, 6, 1, 4, 6, 1, 5, 4, 6, 1, 1, 1, 1, 1, 1,
   1, 1, 5, 1, 1, 1, 1, 5, 1, 1, 1, 5, 4, 1, 5, 5, 6, 6, 1, 1, 1, 1, 1, 1, 6, 5, 1, 0, 0, 4, 1,
   5, 0, 0, 5, 2, 0, 1, 5, 0, 2, 5, 4, 0, 1, 5, 0, 1, 1, 1, 1, 1, 5, 1, 1, 1, 5, 5, 5, 1, 0, 5,
   5, 0, 1, 5, 5, 1, 5, 0, 1, 1, 0, 0, 1, 5, 0, 0, 5, 6, 4, 2, 0, 1, 4, 4, 4, 2, 0, 6, 6, 5, 6,
   6, 0, 6, 6, 6, 6, 5, 0, 6, 1, 0, 6, 1, 5, 6, 6, 4, 5, 2, 4, 1, 0, 5, 5, 4, 6, 2, 4, 1, 5, 6,
   6, 4, 0, 2, 4, 1, 5, 6, 0, 1, 0, 2, 6, 4, 2, 5, 2, 2, 0, 6, 6, 4, 1, 5, 0, 3, 4, 0, 0, 0, 1,
   0, 0, 2, 1, 2, 4, 0, 1, 1, 1, 5, 0, 0, 1, 5, 0, 0, 2, 0, 2, 4, 1, 5, 6, 0, 2, 0, 2, 4, 1, 5,
   0, 0]

/-- Certificate for the lower bound -26 on the value of the search after the
opening drop in column 2, for `AIPlayer = 0`. -/
def openingCert02 : List Nat :=
  [2, 4, 5, 2, 5, 5, 0, 5, 5, 2, 2, 2, 2, 2, 2, 2, 2, 5, 0, 6, 6, 0, 5, 6, 6, 0, 4, 2, 5, 6, 4,
   0, 6, 4, 0, 2, 5, 0, 6, 6, 6, 0, 4, 6, 5, 6, 6, 6, 6, 5, 4, 6, 6, 0, 5, 6, 0]

/-- Certificate for the lower bound -26 on the value of the search after the
opening drop in column 4, for `AIPlayer = 0`. -/
def openingCert04 : List Nat :=
  [4, 2, 1, 1, 4, 0, 1, 1, 1, 1, 0, 0, 0, 1, 0, 0, 0, 4, 2, 4, 4, 4, 4, 4, 4, 2, 0, 1, 4, 0, 0,
   0, 0, 6, 2, 1, 4, 2, 0, 0, 0, 1, 2, 0, 0, 1, 0, 0, 0, 0, 2, 1, 4, 2, 0, 0, 0]

/-- Certificate for the lower bound -26 on the value of the search after the
opening drop in column 1, for `AIPlayer = 0`. -/
def openingCert01 : List Nat :=
  [1, 2, 4, 4, 4, 4, 5, 4, 6, 6, 4, 4, 4, 1, 4, 6, 6, 5, 2, 6, 6, 1, 2, 2, 6, 1, 2, 1, 1, 1, 1,
   1, 1, 5, 2, 4, 5, 1, 5, 5, 5, 6, 2, 6, 2, 1, 6, 2, 6, 5, 2, 4, 6, 1, 5, 6, 5]

/-- Certificate for the lower bound -26 on the value of the search after the
opening drop in column 5, for `AIPlayer = 0`. -/
def openingCert05 : List Nat :=
  [1, 2, 4, 2, 0, 4, 4, 4, 4, 0, 4, 4, 6, 1, 5, 0, 4, 6, 2, 0, 2, 1, 5, 2, 6, 1, 2, 0, 6, 1, 5,
   1, 6, 5, 2, 0, 6, 1, 5, 0, 1, 5, 2, 0, 2, 1, 5, 1, 0, 1, 2, 4, 6, 1, 5, 6, 5]

/-- Certificate for the lower bound -26 on the value of the search after the
opening drop in column 0, for `AIPlayer = 0`. -/
def openingCert00 : List Nat :=
  [6, 2, 4, 4, 4, 4, 4, 4, 4, 2, 5, 2, 5, 5, 4, 0, 6, 4, 1, 1, 4, 2, 1, 0, 6, 2, 4, 2, 4, 2, 4,
   0, 6, 4, 2, 2, 4, 2, 4, 0, 6, 0, 2, 2, 4, 2, 4, 0, 6, 6, 2, 2, 4, 2, 4, 0, 6]

/-- Certificate for the lower bound -26 on the value of the search after the
opening drop in column 6, for `AIPlayer = 0`. -/
def openingCert06 : List Nat :=
  [0, 2, 4, 4, 4, 4, 4, 4, 4, 2, 5, 2, 5, 5, 4, 0, 6, 4, 1, 1, 4, 2, 1, 0, 6, 2, 4, 2, 4, 2, 4,
   0, 6, 4, 2, 2, 4, 2, 4, 0, 6, 0, 2, 2, 4, 2, 4, 0, 6, 6, 2, 2, 4, 2, 4, 0, 6]


/-! ## Theorems -/

set_option maxRecDepth 1000000

/-! ### Win detection -/

theorem ownedBy_iff (g : Grid) (player : Player) (c r : Int) :
    ownedBy g player c r = true ↔ OwnedCell g player c r := by
  unfold ownedBy OwnedCell Grid.getSquare BOARD_WIDTH BOARD_HEIGHT
  by_cases h : 0 ≤ c ∧ c < 7 ∧ 0 ≤ r ∧ r < 6
  · rw [if_pos h]
    obtain ⟨h1, h2, h3, h4⟩ := h
    cases hb : g.bit c.toNat r.toNat with
    | none => simp
    | some b => simp [h1, h2, h3, h4]
  · rw [if_neg h]
    constructor
    · intro h'; simp at h'
    · rintro ⟨h1, h2, h3, h4, _⟩; exact absurd ⟨h1, h2, h3, h4⟩ h

theorem countDirectionLoop_spec (g : Grid) (dCol dRow : Int) (player : Player) :
    ∀ (fuel : Nat) (c r count n : Int),
      countDirectionLoop g dCol dRow player fuel c r count = some n →
      ∃ m : Nat, n = count + m ∧
        (∀ i : Nat, i < m → ownedBy g player (c + i * dCol) (r + i * dRow) = true) ∧
        ownedBy g player (c + m * dCol) (r + m * dRow) = false := by
  intro fuel
  induction fuel with
  | zero => intro c r count n h; simp [countDirectionLoop] at h
  | succ fuel ih =>
    intro c r count n h
    unfold countDirectionLoop at h
    have hout : ¬ (c ≥ 0 ∧ c < BOARD_WIDTH ∧ r ≥ 0 ∧ r < BOARD_HEIGHT) →
        ownedBy g player c r = false := by
      intro hn
      unfold ownedBy Grid.getSquare
      rw [if_neg (by intro h'; exact hn ⟨h'.1, h'.2.1, h'.2.2.1, h'.2.2.2⟩)]
    by_cases hin : c ≥ 0 ∧ c < BOARD_WIDTH ∧ r ≥ 0 ∧ r < BOARD_HEIGHT
    · rw [if_pos hin] at h
      by_cases ho : ownedBy g player c r = true
      · rw [if_pos ho] at h
        obtain ⟨m, hm, hall, hstop⟩ := ih _ _ _ _ h
        refine ⟨m + 1, by push_cast; omega, ?_, ?_⟩
        · intro i hi
          cases i with
          | zero => simpa [-zero_mul, Int.zero_mul] using ho
          | succ j =>
            have := hall j (by omega)
            have e1 : c + ((j + 1 : Nat) : Int) * dCol = c + dCol + (j : Int) * dCol := by
              push_cast; ring
            have e2 : r + ((j + 1 : Nat) : Int) * dRow = r + dRow + (j : Int) * dRow := by
              push_cast; ring
            rw [e1, e2]; exact this
        · have e1 : c + ((m + 1 : Nat) : Int) * dCol = c + dCol + (m : Int) * dCol := by
            push_cast; ring
          have e2 : r + ((m + 1 : Nat) : Int) * dRow = r + dRow + (m : Int) * dRow := by
            push_cast; ring
          rw [e1, e2]; exact hstop
      · rw [if_neg ho] at h
        refine ⟨0, by simp at h; simp [h], by intro i hi; omega, ?_⟩
        simpa [-zero_mul, Int.zero_mul] using ho
    · rw [if_neg hin] at h
      refine ⟨0, by simp at h; simp [h], by intro i hi; omega, ?_⟩
      simpa [-zero_mul, Int.zero_mul] using hout hin

theorem countDirectionLoop_some (g : Grid) (dCol dRow : Int) (player : Player) :
    ∀ (fuel : Nat) (c r count : Int),
      (∀ i : Nat, fuel ≤ i → ownedBy g player (c + i * dCol) (r + i * dRow) = false) →
      ∃ n, countDirectionLoop g dCol dRow player (fuel + 1) c r count = some n := by
  intro fuel
  induction fuel with
  | zero =>
    intro c r count h
    have h0 := h 0 (le_refl _)
    simp [-zero_mul, Int.zero_mul] at h0
    unfold countDirectionLoop
    simp [h0, -zero_mul, Int.zero_mul]
  | succ fuel ih =>
    intro c r count h
    unfold countDirectionLoop
    by_cases hin : c ≥ 0 ∧ c < BOARD_WIDTH ∧ r ≥ 0 ∧ r < BOARD_HEIGHT
    · rw [if_pos hin]
      by_cases ho : ownedBy g player c r = true
      · rw [if_pos ho]
        apply ih
        intro i hi
        have := h (i + 1) (by omega)
        have e1 : c + ((i + 1 : Nat) : Int) * dCol = c + dCol + (i : Int) * dCol := by
          push_cast; ring
        have e2 : r + ((i + 1 : Nat) : Int) * dRow = r + dRow + (i : Int) * dRow := by
          push_cast; ring
        rw [e1, e2] at this; exact this
      · rw [if_neg ho]; exact ⟨_, rfl⟩
    · rw [if_neg hin]; exact ⟨_, rfl⟩

theorem ownedBy_far (g : Grid) (player : Player) (col row dc dr : Int)
    (hc : 0 ≤ col ∧ col < 7) (hr : 0 ≤ row ∧ row < 6) (hd : UnitStep dc dr)
    (i : Nat) (hi : 6 ≤ i) :
    ownedBy g player (col + dc + i * dc) (row + dr + i * dr) = false := by
  cases hown : ownedBy g player (col + dc + i * dc) (row + dr + i * dr) with
  | false => rfl
  | true =>
    exfalso
    obtain ⟨h1, h2, h3, h4, _⟩ := (ownedBy_iff _ _ _ _).1 hown
    obtain ⟨a1, a2, a3, a4, a5⟩ := hd
    have hdc : dc = -1 ∨ dc = 0 ∨ dc = 1 := by omega
    have hdr : dr = -1 ∨ dr = 0 ∨ dr = 1 := by omega
    rcases hdc with rfl | rfl | rfl <;> rcases hdr with rfl | rfl | rfl <;> omega

theorem countDirection_spec (fuel : Nat) (g : Grid) (player : Player) (col row dc dr : Int)
    (hfuel : 7 ≤ fuel) (hc : 0 ≤ col ∧ col < 7) (hr : 0 ≤ row ∧ row < 6)
    (hd : UnitStep dc dr) :
    ∃ m : Nat, countDirection fuel g col row dc dr player = some (m : Int) ∧
      (∀ i : Nat, 1 ≤ i → i ≤ m → ownedBy g player (col + i * dc) (row + i * dr) = true) ∧
      ownedBy g player (col + (m + 1 : Nat) * dc) (row + (m + 1 : Nat) * dr) = false := by
  obtain ⟨f, rfl⟩ : ∃ f, fuel = f + 1 := ⟨fuel - 1, by omega⟩
  unfold countDirection
  obtain ⟨n, hn⟩ := countDirectionLoop_some g dc dr player f (col + dc) (row + dr) 0
    (fun i hi => ownedBy_far g player col row dc dr hc hr hd i (by omega))
  obtain ⟨m, hm, hall, hstop⟩ := countDirectionLoop_spec g dc dr player _ _ _ _ _ hn
  refine ⟨m, by rw [hn, hm]; simp, ?_, ?_⟩
  · intro i h1 hi
    obtain ⟨j, rfl⟩ : ∃ j, i = j + 1 := ⟨i - 1, by omega⟩
    have := hall j (by omega)
    have e1 : col + ((j + 1 : Nat) : Int) * dc = col + dc + (j : Int) * dc := by
      push_cast; ring
    have e2 : row + ((j + 1 : Nat) : Int) * dr = row + dr + (j : Int) * dr := by
      push_cast; ring
    rw [e1, e2]; exact this
  · have e1 : col + ((m + 1 : Nat) : Int) * dc = col + dc + (m : Int) * dc := by
      push_cast; ring
    have e2 : row + ((m + 1 : Nat) : Int) * dr = row + dr + (m : Int) * dr := by
      push_cast; ring
    rw [e1, e2]; exact hstop

/-- Along a line: with the origin inside, `a` cells inside in front of it and
`b` behind it, each run stopped by a cell outside, the runs add up to 4 or
more exactly when the origin lies in 4 consecutive cells inside. -/
theorem line_four_iff (P : Int → Prop) (a b : Nat) (h0 : P 0)
    (ha : ∀ i : Nat, 1 ≤ i → i ≤ a → P i) (hna : ¬ P ((a + 1 : Nat) : Int))
    (hb : ∀ i : Nat, 1 ≤ i → i ≤ b → P (-(i : Int))) (hnb : ¬ P (-((b + 1 : Nat) : Int))) :
    (1 + (a : Int) + (b : Int) ≥ 4) ↔
      ∃ k : Int, 0 ≤ k ∧ k ≤ 3 ∧ ∀ i : Int, 0 ≤ i → i ≤ 3 → P (i - k) := by
  have hP : ∀ j : Int, -(b : Int) ≤ j → j ≤ a → P j := by
    intro j h1 h2
    rcases lt_trichotomy j 0 with hj | hj | hj
    · have := hb (-j).toNat (by omega) (by omega)
      have e : (-(((-j).toNat : Nat) : Int)) = j := by omega
      rw [e] at this; exact this
    · rw [hj]; exact h0
    · have := ha j.toNat (by omega) (by omega)
      have e : ((j.toNat : Nat) : Int) = j := by omega
      rw [e] at this; exact this
  constructor
  · intro h
    refine ⟨min (b : Int) 3, by omega, by omega, ?_⟩
    intro i hi0 hi3
    apply hP <;> omega
  · rintro ⟨k, hk0, hk3, hall⟩
    by_contra hlt
    by_cases hkb : k ≤ b
    · -- then 3 - k > a, so the cell a + 1 is among the four
      have := hall ((a : Int) + 1 + k) (by omega) (by omega)
      have e : (a : Int) + 1 + k - k = ((a + 1 : Nat) : Int) := by push_cast; ring
      rw [e] at this; exact hna this
    · have := hall (k - ((b : Int) + 1)) (by omega) (by omega)
      have e : k - ((b : Int) + 1) - k = -((b + 1 : Nat) : Int) := by push_cast; ring
      rw [e] at this; exact hnb this

theorem axis_four_iff (fuel : Nat) (g : Grid) (player : Player) (col row dc dr : Int)
    (hfuel : 7 ≤ fuel) (hc : 0 ≤ col ∧ col < 7) (hr : 0 ≤ row ∧ row < 6)
    (hd : UnitStep dc dr) (h0 : OwnedCell g player col row) :
    ∃ a b : Int, countDirection fuel g col row dc dr player = some a ∧
      countDirection fuel g col row (-dc) (-dr) player = some b ∧
      (1 + a + b ≥ 4 ↔ InFour g player col row dc dr) := by
  have hd' : UnitStep (-dc) (-dr) := by
    obtain ⟨a1, a2, a3, a4, a5⟩ := hd
    refine ⟨by omega, by omega, by omega, by omega, by omega⟩
  obtain ⟨a, ha, hall, hstop⟩ := countDirection_spec fuel g player col row dc dr hfuel hc hr hd
  obtain ⟨b, hb, hallb, hstopb⟩ :=
    countDirection_spec fuel g player col row (-dc) (-dr) hfuel hc hr hd'
  refine ⟨a, b, ha, hb, ?_⟩
  have key := line_four_iff
    (fun j => OwnedCell g player (col + j * dc) (row + j * dr)) a b
    (by simpa [-zero_mul, Int.zero_mul] using h0)
    (fun i h1 h2 => (ownedBy_iff _ _ _ _).1 (hall i h1 h2))
    (by
      intro h
      have := (ownedBy_iff _ _ _ _).2 h
      rw [hstop] at this; exact Bool.noConfusion this)
    (by
      intro i h1 h2
      have := (ownedBy_iff _ _ _ _).1 (hallb i h1 h2)
      have e1 : col + (i : Int) * -dc = col + -(i : Int) * dc := by ring
      have e2 : row + (i : Int) * -dr = row + -(i : Int) * dr := by ring
      rw [e1, e2] at this; exact this)
    (by
      intro h
      have e1 : col + -((b + 1 : Nat) : Int) * dc = col + ((b + 1 : Nat) : Int) * -dc := by ring
      have e2 : row + -((b + 1 : Nat) : Int) * dr = row + ((b + 1 : Nat) : Int) * -dr := by ring
      replace h : OwnedCell g player (col + -((b + 1 : Nat) : Int) * dc)
          (row + -((b + 1 : Nat) : Int) * dr) := h
      rw [e1, e2] at h
      have := (ownedBy_iff _ _ _ _).2 h
      rw [hstopb] at this; exact Bool.noConfusion this)
  exact key

theorem checkWinAtLoop_spec (fuel : Nat) (g : Grid) (player : Player) (col row : Int)
    (hfuel : 7 ≤ fuel) (hc : 0 ≤ col ∧ col < 7) (hr : 0 ≤ row ∧ row < 6)
    (h0 : OwnedCell g player col row) :
    ∀ dirs : List (Int × Int), (∀ d ∈ dirs, UnitStep d.1 d.2) →
      ∃ res, checkWinAtLoop fuel g col row player dirs = some res ∧
        (res = true ↔ ∃ d ∈ dirs, InFour g player col row d.1 d.2) := by
  intro dirs
  induction dirs with
  | nil => intro _; exact ⟨false, rfl, by simp⟩
  | cons d rest ih =>
    intro hd
    obtain ⟨a, b, ha, hb, hiff⟩ :=
      axis_four_iff fuel g player col row d.1 d.2 hfuel hc hr (hd d (List.mem_cons_self _ _)) h0
    obtain ⟨res, hres, hresiff⟩ := ih (fun d' hd' => hd d' (List.mem_cons_of_mem _ hd'))
    unfold checkWinAtLoop
    rw [ha, hb]
    by_cases hge : 1 + a + b ≥ 4
    · refine ⟨true, by simp [hge], ?_⟩
      simp only [true_iff]
      exact ⟨d, List.mem_cons_self _ _, hiff.1 hge⟩
    · refine ⟨res, by simp only [if_neg hge]; exact hres, ?_⟩
      rw [hresiff]
      constructor
      · rintro ⟨d', hd', h⟩; exact ⟨d', List.mem_cons_of_mem _ hd', h⟩
      · rintro ⟨d', hd', h⟩
        rcases List.mem_cons.1 hd' with rfl | hmem
        · exact absurd (hiff.2 h) hge
        · exact ⟨d', hmem, h⟩

theorem directions_unit : ∀ d ∈ directions, UnitStep d.1 d.2 := by
  intro d hd
  simp [directions] at hd
  rcases hd with rfl | rfl | rfl | rfl <;> simp [UnitStep]

theorem checkWinAt_spec (fuel : Nat) (g : Grid) (col row : Int)
    (hfuel : 7 ≤ fuel) (hc : 0 ≤ col ∧ col < 7) (hr : 0 ≤ row ∧ row < 6) :
    ∃ res, checkWinAt fuel g col row = some res ∧ (res = true ↔ WinAt g col row) := by
  have hsq : g.getSquare col row = some (g.bit col.toNat row.toNat) := by
    unfold Grid.getSquare BOARD_WIDTH BOARD_HEIGHT
    rw [if_pos ⟨hc.1, hc.2, hr.1, hr.2⟩]
  unfold checkWinAt WinAt
  rw [hsq]
  cases hb : g.bit col.toNat row.toNat with
  | none => exact ⟨false, rfl, by simp⟩
  | some b =>
    have h0 : OwnedCell g b.owner col row := ⟨hc.1, hc.2, hr.1, hr.2, b, hb, rfl⟩
    obtain ⟨res, hres, hiff⟩ :=
      checkWinAtLoop_spec fuel g b.owner col row hfuel hc hr h0 directions directions_unit
    refine ⟨res, hres, ?_⟩
    rw [hiff]
    constructor
    · intro h; exact ⟨b, rfl, h⟩
    · rintro ⟨b', hb', h⟩
      have : b = b' := by simpa using hb'
      subst this; exact h

/-- C1: with fuel 7 or more, `checkWinAt` returns, and on every in-range cell
it returns true exactly when the cell is occupied and belongs, on at least
one of the four axes, to 4 consecutive collinear cells of its owner. So each
of the 4 cells of a run of 4 same-owner cells reports a win as the query
origin, and an occupied cell that lies in no such four on any axis reports no
win. -/
theorem checkWinAt_iff_four (fuel : Nat) (g : Grid) (hfuel : 7 ≤ fuel) :
    (∀ col row : Int, 0 ≤ col → col < 7 → 0 ≤ row → row < 6 →
      ∃ res, checkWinAt fuel g col row = some res ∧ (res = true ↔ WinAt g col row)) ∧
    (∀ (player : Player) (c0 r0 : Int), ∀ d ∈ directions,
      (∀ i : Int, 0 ≤ i → i ≤ 3 → OwnedCell g player (c0 + i * d.1) (r0 + i * d.2)) →
      ∀ j : Int, 0 ≤ j → j ≤ 3 →
        checkWinAt fuel g (c0 + j * d.1) (r0 + j * d.2) = some true) ∧
    (∀ col row : Int, 0 ≤ col → col < 7 → 0 ≤ row → row < 6 →
      (∀ b, g.getSquare col row = some (some b) →
        ∀ d ∈ directions, ¬ InFour g b.owner col row d.1 d.2) →
      checkWinAt fuel g col row = some false) := by
  refine ⟨?_, ?_, ?_⟩
  · intro col row h1 h2 h3 h4
    exact checkWinAt_spec fuel g col row hfuel ⟨h1, h2⟩ ⟨h3, h4⟩
  · intro player c0 r0 d hd hrun j hj0 hj3
    obtain ⟨h1, h2, h3, h4, b, hb, hown⟩ := hrun j hj0 hj3
    obtain ⟨res, hres, hiff⟩ :=
      checkWinAt_spec fuel g (c0 + j * d.1) (r0 + j * d.2) hfuel ⟨h1, h2⟩ ⟨h3, h4⟩
    have hwin : WinAt g (c0 + j * d.1) (r0 + j * d.2) := by
      refine ⟨b, ?_, d, hd, j, hj0, hj3, ?_⟩
      · unfold Grid.getSquare BOARD_WIDTH BOARD_HEIGHT
        rw [if_pos ⟨h1, h2, h3, h4⟩, hb]
      · intro i hi0 hi3
        have e1 : c0 + j * d.1 + (i - j) * d.1 = c0 + i * d.1 := by ring
        have e2 : r0 + j * d.2 + (i - j) * d.2 = r0 + i * d.2 := by ring
        rw [e1, e2, hown]
        exact hrun i hi0 hi3
    rw [hres, hiff.2 hwin]
  · intro col row h1 h2 h3 h4 hno
    obtain ⟨res, hres, hiff⟩ := checkWinAt_spec fuel g col row hfuel ⟨h1, h2⟩ ⟨h3, h4⟩
    cases res with
    | false => exact hres
    | true =>
      obtain ⟨b, hb, d, hd, hfour⟩ := hiff.1 rfl
      exact absurd hfour (hno b hb d hd)

/-- The claim C1 at a board whose bottom row holds four pieces of player 0 in
columns 0 to 3: the cell `(2, 5)` reports a win. -/
theorem checkWinAt_iff_four_witness :
    checkWinAt 7 bottomFour 2 5 = some true ∧
    ∃ res, checkWinAt 7 bottomFour 2 5 = some res ∧ (res = true ↔ WinAt bottomFour 2 5) :=
  ⟨by decide,
    (checkWinAt_iff_four 7 bottomFour (by decide)).1 2 5 (by decide) (by decide) (by decide)
      (by decide)⟩

theorem mem_scanOrder (cell : Nat × Nat) : cell ∈ scanOrder ↔ cell.1 < 7 ∧ cell.2 < 6 := by
  obtain ⟨c, r⟩ := cell
  simp [scanOrder, List.mem_flatMap, List.mem_map, List.mem_range]

theorem checkForWinnerLoop_spec (fuel : Nat) (g : Grid) (hfuel : 7 ≤ fuel) :
    ∀ cells : List (Nat × Nat), (∀ cell ∈ cells, cell.1 < 7 ∧ cell.2 < 6) →
      ∃ res, checkForWinnerLoop fuel g cells = some res ∧
        (((∀ cell ∈ cells, checkWinAt fuel g cell.1 cell.2 = some false) ∧ res = none) ∨
          ∃ pre cell post b, cells = pre ++ cell :: post ∧
            (∀ c ∈ pre, checkWinAt fuel g c.1 c.2 = some false) ∧
            checkWinAt fuel g cell.1 cell.2 = some true ∧
            g.bit cell.1 cell.2 = some b ∧ res = some b.owner) := by
  intro cells
  induction cells with
  | nil => intro _; exact ⟨none, rfl, Or.inl ⟨by simp, rfl⟩⟩
  | cons cell rest ih =>
    intro hin
    obtain ⟨hc, hr⟩ := hin cell (List.mem_cons_self _ _)
    obtain ⟨w, hw, hwiff⟩ := checkWinAt_spec fuel g cell.1 cell.2 hfuel
      ⟨by omega, by omega⟩ ⟨by omega, by omega⟩
    unfold checkForWinnerLoop
    rw [hw]
    cases w with
    | true =>
      obtain ⟨b, hb, _⟩ := hwiff.1 rfl
      have hbit : g.bit cell.1 cell.2 = some b := by
        unfold Grid.getSquare at hb
        split at hb
        · simpa using hb
        · exact Option.noConfusion hb
      refine ⟨some b.owner, by simp [hbit], Or.inr ⟨[], cell, rest, b, rfl, by simp, hw, hbit, rfl⟩⟩
    | false =>
      obtain ⟨res, hres, hcase⟩ := ih (fun c hc' => hin c (List.mem_cons_of_mem _ hc'))
      refine ⟨res, hres, ?_⟩
      rcases hcase with ⟨hall, hnone⟩ | ⟨pre, c, post, b, hsplit, hpre, hc', hb, hr'⟩
      · left
        refine ⟨?_, hnone⟩
        intro c hc'
        rcases List.mem_cons.1 hc' with rfl | hmem
        · exact hw
        · exact hall c hmem
      · right
        refine ⟨cell :: pre, c, post, b, by simp [hsplit], ?_, hc', hb, hr'⟩
        intro c' hcm
        rcases List.mem_cons.1 hcm with rfl | hmem
        · exact hw
        · exact hpre c' hmem

/-- C2: with fuel 7 or more, `checkForWinner` returns; the result is the null
pointer exactly when `checkWinAt` is false on every cell; otherwise it is the
owner of the first cell, in the column-major scan order, on which
`checkWinAt` is true. So whenever some cell lies in a four in a row, the
player returned owns a cell that lies in a four in a row. -/
theorem checkForWinner_first_win (fuel : Nat) (g : Grid) (hfuel : 7 ≤ fuel) :
    ∃ res, checkForWinner fuel g = some res ∧
      (res = none ↔
        ∀ col row : Nat, col < 7 → row < 6 → checkWinAt fuel g col row = some false) ∧
      (res ≠ none →
        ∃ pre cell post b, scanOrder = pre ++ cell :: post ∧
          (∀ c ∈ pre, checkWinAt fuel g c.1 c.2 = some false) ∧
          checkWinAt fuel g cell.1 cell.2 = some true ∧
          g.bit cell.1 cell.2 = some b ∧ res = some b.owner) ∧
      ((∃ col row : Nat, col < 7 ∧ row < 6 ∧ WinAt g col row) →
        ∃ (p : Player) (col row : Nat) (b : Bit), res = some p ∧ col < 7 ∧ row < 6 ∧
          g.bit col row = some b ∧ b.owner = p ∧ WinAt g col row) := by
  obtain ⟨res, hres, hcase⟩ :=
    checkForWinnerLoop_spec fuel g hfuel scanOrder (fun c hc => (mem_scanOrder c).1 hc)
  have hfirst : res ≠ none →
      ∃ pre cell post b, scanOrder = pre ++ cell :: post ∧
        (∀ c ∈ pre, checkWinAt fuel g c.1 c.2 = some false) ∧
        checkWinAt fuel g cell.1 cell.2 = some true ∧
        g.bit cell.1 cell.2 = some b ∧ res = some b.owner := by
    intro hne
    rcases hcase with ⟨_, hnone⟩ | h
    · exact absurd hnone hne
    · exact h
  have hnone : res = none ↔
      ∀ col row : Nat, col < 7 → row < 6 → checkWinAt fuel g col row = some false := by
    constructor
    · intro hn col row hc hr
      rcases hcase with ⟨hall, _⟩ | ⟨_, _, _, b, _, _, _, _, hr'⟩
      · exact hall (col, row) ((mem_scanOrder (col, row)).2 ⟨hc, hr⟩)
      · rw [hn] at hr'; exact Option.noConfusion hr'
    · intro hall
      by_contra hne
      obtain ⟨pre, cell, post, b, hsplit, _, hwin, _, _⟩ := hfirst hne
      have hmem : cell ∈ scanOrder := by rw [hsplit]; simp
      obtain ⟨hc, hr⟩ := (mem_scanOrder cell).1 hmem
      have := hall cell.1 cell.2 hc hr
      rw [hwin] at this
      simp at this
  refine ⟨res, hres, hnone, hfirst, ?_⟩
  rintro ⟨col, row, hc, hr, hwin⟩
  have hne : res ≠ none := by
    intro hn
    have hf := hnone.1 hn col row hc hr
    obtain ⟨w, hw, hwiff⟩ := checkWinAt_spec fuel g col row hfuel
      ⟨by omega, by omega⟩ ⟨by omega, by omega⟩
    rw [hw] at hf
    have : w = false := by simpa using hf
    rw [this] at hwiff
    exact Bool.noConfusion (hwiff.2 hwin)
  obtain ⟨pre, cell, post, b, hsplit, _, hcw, hb, hr'⟩ := hfirst hne
  have hmem : cell ∈ scanOrder := by rw [hsplit]; simp
  obtain ⟨hc', hrw⟩ := (mem_scanOrder cell).1 hmem
  obtain ⟨w, hw, hwiff⟩ := checkWinAt_spec fuel g cell.1 cell.2 hfuel
    ⟨by omega, by omega⟩ ⟨by omega, by omega⟩
  rw [hw] at hcw
  have hwt : w = true := by simpa using hcw
  exact ⟨b.owner, cell.1, cell.2, b, hr', hc', hrw, hb, rfl, hwiff.1 hwt⟩

/-- The claim C2 at the board whose bottom row holds four pieces of player 0:
the winner found is player 0. -/
theorem checkForWinner_first_win_witness :
    checkForWinner 7 bottomFour = some (some 0) ∧
    ∃ res, checkForWinner 7 bottomFour = some res ∧
      (res = none ↔
        ∀ col row : Nat, col < 7 → row < 6 → checkWinAt 7 bottomFour col row = some false) :=
  ⟨by decide,
    let ⟨res, h1, h2, _⟩ := checkForWinner_first_win 7 bottomFour (by decide)
    ⟨res, h1, h2⟩⟩

/-! ### Window scores -/

theorem evaluateWindow_eq_windowScore (state : List Char) (start step : Int)
    (aiChar humanChar : Char) (hne : aiChar ≠ humanChar)
    (hin : ∀ i : Nat, i < 4 →
      0 ≤ start + (i : Int) * step ∧ start + (i : Int) * step < (state.length : Int)) :
    evaluateWindow state start step aiChar humanChar =
      windowScore (piecesOf aiChar state start step) (piecesOf humanChar state start step)
        (emptiesOf aiChar humanChar state start step) := by
  have h0 := hin 0 (by decide)
  have h1 := hin 1 (by decide)
  have h2 := hin 2 (by decide)
  have h3 := hin 3 (by decide)
  have g0 : ¬ (start + ((0 : Nat) : Int) * step < 0 ∨
      start + ((0 : Nat) : Int) * step ≥ (state.length : Int)) := by omega
  have g1 : ¬ (start + ((0 + 1 : Nat) : Int) * step < 0 ∨
      start + ((0 + 1 : Nat) : Int) * step ≥ (state.length : Int)) := by omega
  have g2 : ¬ (start + ((0 + 1 + 1 : Nat) : Int) * step < 0 ∨
      start + ((0 + 1 + 1 : Nat) : Int) * step ≥ (state.length : Int)) := by omega
  have g3 : ¬ (start + ((0 + 1 + 1 + 1 : Nat) : Int) * step < 0 ∨
      start + ((0 + 1 + 1 + 1 : Nat) : Int) * step ≥ (state.length : Int)) := by omega
  have hne2 : humanChar ≠ aiChar := fun h => hne h.symm
  unfold evaluateWindow piecesOf emptiesOf windowCells windowCell
  simp only [evaluateWindowLoop, if_neg g0, if_neg g1, if_neg g2, if_neg g3,
    List.range, List.range.loop, List.map]
  generalize charAt state (start + ((0 : Nat) : Int) * step) = c0
  generalize charAt state (start + ((0 + 1 : Nat) : Int) * step) = c1
  generalize charAt state (start + ((0 + 1 + 1 : Nat) : Int) * step) = c2
  generalize charAt state (start + ((0 + 1 + 1 + 1 : Nat) : Int) * step) = c3
  have cls : ∀ c : Char, c = aiChar ∨ (c ≠ aiChar ∧ c = humanChar) ∨
      (c ≠ aiChar ∧ c ≠ humanChar) := by
    intro c
    by_cases ha : c = aiChar
    · exact Or.inl ha
    · by_cases hb : c = humanChar
      · exact Or.inr (Or.inl ⟨ha, hb⟩)
      · exact Or.inr (Or.inr ⟨ha, hb⟩)
  rcases cls c0 with h0 | ⟨h0, k0⟩ | ⟨h0, k0⟩ <;>
  rcases cls c1 with h1 | ⟨h1, k1⟩ | ⟨h1, k1⟩ <;>
  rcases cls c2 with h2 | ⟨h2, k2⟩ | ⟨h2, k2⟩ <;>
  rcases cls c3 with h3 | ⟨h3, k3⟩ | ⟨h3, k3⟩ <;>
  simp [*, windowScore, List.countP_cons]

theorem window_counts_total (state : List Char) (start step : Int) (aiChar humanChar : Char)
    (hne : aiChar ≠ humanChar) :
    piecesOf aiChar state start step + piecesOf humanChar state start step +
      emptiesOf aiChar humanChar state start step = 4 := by
  have hne2 : humanChar ≠ aiChar := fun h => hne h.symm
  unfold piecesOf emptiesOf windowCells
  simp only [List.range, List.range.loop, List.map]
  generalize windowCell state start step 0 = c0
  generalize windowCell state start step 1 = c1
  generalize windowCell state start step 2 = c2
  generalize windowCell state start step 3 = c3
  have cls : ∀ c : Char, c = aiChar ∨ (c ≠ aiChar ∧ c = humanChar) ∨
      (c ≠ aiChar ∧ c ≠ humanChar) := by
    intro c
    by_cases ha : c = aiChar
    · exact Or.inl ha
    · by_cases hb : c = humanChar
      · exact Or.inr (Or.inl ⟨ha, hb⟩)
      · exact Or.inr (Or.inr ⟨ha, hb⟩)
  rcases cls c0 with h0 | ⟨h0, k0⟩ | ⟨h0, k0⟩ <;>
  rcases cls c1 with h1 | ⟨h1, k1⟩ | ⟨h1, k1⟩ <;>
  rcases cls c2 with h2 | ⟨h2, k2⟩ | ⟨h2, k2⟩ <;>
  rcases cls c3 with h3 | ⟨h3, k3⟩ | ⟨h3, k3⟩ <;>
  simp [*, List.countP_cons]

theorem piecesOf_eq_four (ch : Char) (state : List Char) (start step : Int) :
    piecesOf ch state start step = 4 ↔ ∀ i : Nat, i < 4 → windowCell state start step i = ch := by
  unfold piecesOf
  have hlen : (windowCells state start step).length = 4 := by simp [windowCells]
  rw [← hlen, List.countP_eq_length]
  simp only [windowCells, List.mem_map, List.mem_range, decide_eq_true_eq]
  constructor
  · intro h i hi; exact h _ ⟨i, by simpa using hi, rfl⟩
  · rintro h c ⟨i, hi, rfl⟩; exact h i (by simpa using hi)

theorem windowScore_bound (fav opp emp : Nat) :
    -1000 ≤ windowScore fav opp emp ∧ windowScore fav opp emp ≤ 1000 := by
  unfold windowScore
  split_ifs <;> omega

/-- C5: for a window whose 4 indices all lie inside the string (and two
different player symbols), `evaluateWindow` returns 0 when the window holds a
favorable and an opponent piece; otherwise 1000 for 4 favorable pieces, 50 for
3 favorable and 1 empty, 10 for 2 favorable and 2 empty, -1000 for 4 opponent
pieces, -100 for 3 opponent and 1 empty, -10 for 2 opponent and 2 empty, and 0
for every other distribution. It returns 1000 exactly when all 4 cells are
favorable and -1000 exactly when all 4 cells are the opponent's. -/
theorem evaluateWindow_table (state : List Char) (start step : Int)
    (aiChar humanChar : Char) (hne : aiChar ≠ humanChar)
    (hin : ∀ i : Nat, i < 4 →
      0 ≤ start + (i : Int) * step ∧ start + (i : Int) * step < (state.length : Int)) :
    (piecesOf aiChar state start step ≥ 1 ∧ piecesOf humanChar state start step ≥ 1 →
      evaluateWindow state start step aiChar humanChar = 0) ∧
    (¬ (piecesOf aiChar state start step ≥ 1 ∧ piecesOf humanChar state start step ≥ 1) →
      (piecesOf aiChar state start step = 4 →
        evaluateWindow state start step aiChar humanChar = 1000) ∧
      (piecesOf aiChar state start step = 3 ∧
          emptiesOf aiChar humanChar state start step = 1 →
        evaluateWindow state start step aiChar humanChar = 50) ∧
      (piecesOf aiChar state start step = 2 ∧
          emptiesOf aiChar humanChar state start step = 2 →
        evaluateWindow state start step aiChar humanChar = 10) ∧
      (piecesOf humanChar state start step = 4 →
        evaluateWindow state start step aiChar humanChar = -1000) ∧
      (piecesOf humanChar state start step = 3 ∧
          emptiesOf aiChar humanChar state start step = 1 →
        evaluateWindow state start step aiChar humanChar = -100) ∧
      (piecesOf humanChar state start step = 2 ∧
          emptiesOf aiChar humanChar state start step = 2 →
        evaluateWindow state start step aiChar humanChar = -10) ∧
      (piecesOf aiChar state start step ≠ 4 ∧
          ¬ (piecesOf aiChar state start step = 3 ∧
            emptiesOf aiChar humanChar state start step = 1) ∧
          ¬ (piecesOf aiChar state start step = 2 ∧
            emptiesOf aiChar humanChar state start step = 2) ∧
          piecesOf humanChar state start step ≠ 4 ∧
          ¬ (piecesOf humanChar state start step = 3 ∧
            emptiesOf aiChar humanChar state start step = 1) ∧
          ¬ (piecesOf humanChar state start step = 2 ∧
            emptiesOf aiChar humanChar state start step = 2) →
        evaluateWindow state start step aiChar humanChar = 0)) ∧
    (evaluateWindow state start step aiChar humanChar = 1000 ↔
      ∀ i : Nat, i < 4 → windowCell state start step i = aiChar) ∧
    (evaluateWindow state start step aiChar humanChar = -1000 ↔
      ∀ i : Nat, i < 4 → windowCell state start step i = humanChar) := by
  have heq := evaluateWindow_eq_windowScore state start step aiChar humanChar hne hin
  have htot := window_counts_total state start step aiChar humanChar hne
  rw [← piecesOf_eq_four, ← piecesOf_eq_four, heq]
  generalize piecesOf aiChar state start step = fav at *
  generalize piecesOf humanChar state start step = opp at *
  generalize emptiesOf aiChar humanChar state start step = emp at *
  unfold windowScore
  refine ⟨?_, ?_, ?_, ?_⟩
  · intro h; rw [if_pos h]
  · intro h
    rw [if_neg h]
    refine ⟨?_, ?_, ?_, ?_, ?_, ?_, ?_⟩ <;> intro h' <;> split_ifs <;> omega
  · split_ifs <;> constructor <;> intro hh <;> first | omega | contradiction
  · split_ifs <;> constructor <;> intro hh <;> first | omega | contradiction

/-- The claim C5 at the empty board, for the horizontal window that starts
at index 0: no piece, score 0. -/
theorem evaluateWindow_table_witness :
    evaluateWindow (List.replicate 42 '0') 0 1 '2' '1' = 0 ∧
    (evaluateWindow (List.replicate 42 '0') 0 1 '2' '1' = 1000 ↔
      ∀ i : Nat, i < 4 → windowCell (List.replicate 42 '0') 0 1 i = '2') :=
  ⟨by decide,
    (evaluateWindow_table (List.replicate 42 '0') 0 1 '2' '1' (by decide)
      (by intro i hi; simp; omega)).2.2.1⟩

/-! ### The position score as a sum over windows -/

theorem foldl_add_eq_sum {α : Type} (f : α → Int) (l : List α) (score : Int) :
    l.foldl (fun s a => s + f a) score = score + (l.map f).sum := by
  induction l generalizing score with
  | nil => simp
  | cons a rest ih => simp [List.foldl, ih, add_assoc]

theorem windowLoops_eq_sum (state : List Char) (aiChar humanChar : Char)
    (outer inner : List Nat) (start : Nat → Nat → Int) (step : Int) (score : Int) :
    windowLoops state aiChar humanChar outer inner start step score =
      score + ((outer.flatMap fun a => inner.map fun b => (start a b, step)).map
        fun w => evaluateWindow state w.1 w.2 aiChar humanChar).sum := by
  unfold windowLoops
  induction outer generalizing score with
  | nil => simp
  | cons a rest ih =>
    rw [List.foldl_cons, ih, foldl_add_eq_sum]
    simp [List.flatMap_cons, List.map_append, List.sum_append, List.map_map, Function.comp_def,
      add_assoc]

theorem centerBonus_eq (state : List Char) (aiChar humanChar : Char) (hne : aiChar ≠ humanChar)
    (rows : List Nat) (score : Int) :
    rows.foldl (fun (score : Int) (row : Nat) =>
      if charAt state ((row : Int) * BOARD_WIDTH + 3) = aiChar then score + 6
      else if charAt state ((row : Int) * BOARD_WIDTH + 3) = humanChar then score - 6
      else score) score =
    score +
      (6 * ((rows.map fun (row : Nat) => charAt state ((row : Int) * BOARD_WIDTH + 3)).countP
          fun c => c = aiChar) -
       6 * ((rows.map fun (row : Nat) => charAt state ((row : Int) * BOARD_WIDTH + 3)).countP
          fun c => c = humanChar)) := by
  have hne2 : humanChar ≠ aiChar := fun h => hne h.symm
  induction rows generalizing score with
  | nil => simp [-mul_zero, -sub_self, Int.mul_zero, Int.sub_self]
  | cons r rest ih =>
    rw [List.foldl_cons, ih]
    by_cases h1 : charAt state ((r : Int) * BOARD_WIDTH + 3) = aiChar
    · simp [h1, List.countP_cons, hne, -mul_zero, -sub_self]; ring
    · by_cases h2 : charAt state ((r : Int) * BOARD_WIDTH + 3) = humanChar
      · simp [h2, List.countP_cons, hne2, -mul_zero, -sub_self]; ring
      · simp [h1, h2, List.countP_cons, -mul_zero, -sub_self]

theorem aiCharOf_ne_humanCharOf (aiPlayer : Int) : aiCharOf aiPlayer ≠ humanCharOf aiPlayer := by
  unfold aiCharOf humanCharOf
  by_cases h : aiPlayer = 0 <;> simp [h]

theorem evaluatePosition_eq_sum (aiPlayer : Int) (state : List Char) :
    evaluatePosition aiPlayer state =
      (6 * ((centerCells.map fun c => charAt state (cellIndex c)).countP
            fun c => c = aiCharOf aiPlayer) -
        6 * ((centerCells.map fun c => charAt state (cellIndex c)).countP
            fun c => c = humanCharOf aiPlayer)) +
      (sourceWindows.map fun w =>
        evaluateWindow state w.1 w.2 (aiCharOf aiPlayer) (humanCharOf aiPlayer)).sum := by
  unfold evaluatePosition
  simp only [windowLoops_eq_sum]
  unfold centerBonus
  rw [centerBonus_eq state _ _ (aiCharOf_ne_humanCharOf aiPlayer)]
  have hc : (List.range 6).map (fun row : Nat => charAt state ((row : Int) * BOARD_WIDTH + 3)) =
      centerCells.map fun c => charAt state (cellIndex c) := by
    simp [centerCells, cellIndex, BOARD_WIDTH, List.map_map, Function.comp_def]
  rw [hc]
  unfold sourceWindows
  simp only [List.map_append, List.sum_append]
  ring

theorem sourceWindows_in_range :
    ∀ w ∈ sourceWindows, ∀ i : Nat, i < 4 →
      0 ≤ w.1 + (i : Int) * w.2 ∧ w.1 + (i : Int) * w.2 < 42 := by
  decide

theorem evaluateWindow_eq_indicesScore (state : List Char) (aiChar humanChar : Char)
    (hne : aiChar ≠ humanChar) (hlen : state.length = 42) :
    ∀ w ∈ sourceWindows, evaluateWindow state w.1 w.2 aiChar humanChar =
      indicesScore state aiChar humanChar (windowIndices w) := by
  intro w hw
  rw [evaluateWindow_eq_windowScore state w.1 w.2 aiChar humanChar hne
    (fun i hi => by rw [hlen]; exact sourceWindows_in_range w hw i hi)]
  simp [indicesScore, piecesOf, emptiesOf, windowCells, windowIndices, List.map_map,
    Function.comp_def, windowCell]

theorem sourceWindows_perm_geometric :
    (sourceWindows.map windowIndices).Perm (geometricWindows.map fun w => w.map cellIndex) := by
  decide

theorem evaluatePosition_eq_referenceScore (aiPlayer : Int) (state : List Char)
    (hlen : state.length = 42) :
    evaluatePosition aiPlayer state = referenceScore aiPlayer state := by
  rw [evaluatePosition_eq_sum]
  unfold referenceScore
  congr 1
  have h1 : (sourceWindows.map fun w =>
      evaluateWindow state w.1 w.2 (aiCharOf aiPlayer) (humanCharOf aiPlayer)) =
      (sourceWindows.map windowIndices).map
        (indicesScore state (aiCharOf aiPlayer) (humanCharOf aiPlayer)) := by
    rw [List.map_map]
    apply List.map_congr_left
    intro w hw
    exact evaluateWindow_eq_indicesScore state _ _ (aiCharOf_ne_humanCharOf aiPlayer) hlen w hw
  have h2 : (geometricWindows.map fun w =>
      indicesScore state (aiCharOf aiPlayer) (humanCharOf aiPlayer) (w.map cellIndex)) =
      (geometricWindows.map fun w => w.map cellIndex).map
        (indicesScore state (aiCharOf aiPlayer) (humanCharOf aiPlayer)) := by
    rw [List.map_map]; rfl
  rw [h1, h2]
  exact (sourceWindows_perm_geometric.map _).sum_eq

/-- C6: on every 42-cell state `evaluatePosition` equals the reference sum:
+6 per favorable and -6 per opponent piece in column 3 plus the window score
of every geometric window. There are 24 horizontal, 21 vertical, 12 down-right
and 12 up-right geometric windows, 69 in all, pairwise different as sets of
cells; the 69 windows the loops enumerate read exactly the cells of the
geometric windows, each once (so no window wraps around a row edge), and all
their indices lie in [0, 42). -/
theorem evaluatePosition_reference (aiPlayer : Int) (state : List Char)
    (hlen : state.length = 42) :
    evaluatePosition aiPlayer state = referenceScore aiPlayer state ∧
    (axisWindows (1, 0)).length = 24 ∧ (axisWindows (0, 1)).length = 21 ∧
    (axisWindows (1, 1)).length = 12 ∧ (axisWindows (1, -1)).length = 12 ∧
    geometricWindows.length = 69 ∧ sourceWindows.length = 69 ∧
    geometricWindows.Pairwise (fun a b => ¬ ∀ x ∈ a, x ∈ b) ∧
    (sourceWindows.map windowIndices).Perm (geometricWindows.map fun w => w.map cellIndex) ∧
    (∀ w ∈ sourceWindows, ∀ i : Nat, i < 4 →
      0 ≤ w.1 + (i : Int) * w.2 ∧ w.1 + (i : Int) * w.2 < (state.length : Int)) := by
  refine ⟨evaluatePosition_eq_referenceScore aiPlayer state hlen, by decide, by decide,
    by decide, by decide, by decide, by decide, by decide, sourceWindows_perm_geometric, ?_⟩
  intro w hw i hi
  rw [hlen]
  exact sourceWindows_in_range w hw i hi

/-- The claim C6 at the empty board: the score is the reference sum, 0. -/
theorem evaluatePosition_reference_witness :
    evaluatePosition 1 (List.replicate 42 '0') = 0 ∧
    evaluatePosition 1 (List.replicate 42 '0') = referenceScore 1 (List.replicate 42 '0') :=
  ⟨by decide, (evaluatePosition_reference 1 (List.replicate 42 '0') (by decide)).1⟩

/-! ### The board string: reads, writes and the lowest empty row -/

theorem charAt_zero_inRange (state : List Char) (idx : Int) (h : charAt state idx = '0') :
    0 ≤ idx ∧ idx.toNat < state.length := by
  unfold charAt at h
  by_cases hneg : idx < 0
  · rw [if_pos hneg] at h; exact absurd h (by decide)
  · rw [if_neg hneg] at h
    refine ⟨by omega, ?_⟩
    by_contra hlen
    rw [List.getD_eq_default _ _ (by omega)] at h
    exact absurd h (by decide)

theorem setChar_restore (state : List Char) (idx : Int) (ch : Char)
    (h : charAt state idx = '0') :
    setChar (setChar state idx ch) idx '0' = state := by
  obtain ⟨h0, hlt⟩ := charAt_zero_inRange state idx h
  have hneg : ¬ idx < 0 := by omega
  unfold charAt at h
  rw [if_neg hneg, List.getD_eq_getElem _ _ hlt] at h
  unfold setChar
  rw [if_neg hneg, if_neg hneg, List.set_set]
  apply List.ext_getElem
  · simp
  · intro n h1 h2
    by_cases hn : idx.toNat = n
    · subst hn; simp [h]
    · simp [List.getElem_set_ne hn]

theorem charAt_setChar_ne (state : List Char) (idx idx2 : Int) (ch : Char) (hne : idx ≠ idx2) :
    charAt (setChar state idx ch) idx2 = charAt state idx2 := by
  unfold charAt setChar
  by_cases h1 : idx < 0
  · simp [h1]
  · by_cases h2 : idx2 < 0
    · simp [h2]
    · have hn : idx.toNat ≠ idx2.toNat := by omega
      simp only [if_neg h1, if_neg h2, List.getD_eq_getElem?_getD]
      rw [List.getElem?_set_ne hn]

theorem charAt_setChar_self (state : List Char) (idx : Int) (ch : Char)
    (h0 : 0 ≤ idx) (hlt : idx.toNat < state.length) :
    charAt (setChar state idx ch) idx = ch := by
  unfold charAt setChar
  have hneg : ¬ idx < 0 := by omega
  simp [hneg, hlt]

theorem lowestEmptyRowLoop_spec (column : Int) (state : List Char) :
    ∀ n : Nat,
      (lowestEmptyRowLoop column state n = -1 ∧
        ∀ k : Nat, k < n → charAt state ((k : Int) * BOARD_WIDTH + column) ≠ '0') ∨
      (∃ r : Nat, lowestEmptyRowLoop column state n = (r : Int) ∧ r < n ∧
        charAt state ((r : Int) * BOARD_WIDTH + column) = '0' ∧
        ∀ k : Nat, r < k → k < n → charAt state ((k : Int) * BOARD_WIDTH + column) ≠ '0') := by
  intro n
  induction n with
  | zero => left; exact ⟨rfl, by intro k hk; omega⟩
  | succ n ih =>
    unfold lowestEmptyRowLoop
    by_cases h : charAt state ((n : Int) * BOARD_WIDTH + column) = '0'
    · right
      exact ⟨n, by rw [if_pos h], by omega, h, by intro k h1 h2; omega⟩
    · rw [if_neg h]
      rcases ih with ⟨h1, h2⟩ | ⟨r, h1, h2, h3, h4⟩
      · left
        refine ⟨h1, ?_⟩
        intro k hk
        by_cases hkn : k = n
        · subst hkn; exact h
        · exact h2 k (by omega)
      · right
        refine ⟨r, h1, by omega, h3, ?_⟩
        intro k hk1 hk2
        by_cases hkn : k = n
        · subst hkn; exact h
        · exact h4 k hk1 (by omega)

theorem getLowestEmptyRowFromState_spec (column : Int) (state : List Char) :
    (getLowestEmptyRowFromState column state = -1 ∧
      ∀ k : Nat, k < 6 → charAt state ((k : Int) * BOARD_WIDTH + column) ≠ '0') ∨
    (∃ r : Nat, getLowestEmptyRowFromState column state = (r : Int) ∧ r < 6 ∧
      charAt state ((r : Int) * BOARD_WIDTH + column) = '0' ∧
      ∀ k : Nat, r < k → k < 6 → charAt state ((k : Int) * BOARD_WIDTH + column) ≠ '0') :=
  lowestEmptyRowLoop_spec column state 6

theorem getLowestEmptyRowFromState_empty (column : Int) (state : List Char)
    (h : getLowestEmptyRowFromState column state ≥ 0) :
    charAt state (getLowestEmptyRowFromState column state * BOARD_WIDTH + column) = '0' := by
  rcases getLowestEmptyRowFromState_spec column state with ⟨h1, _⟩ | ⟨r, h1, _, h3, _⟩
  · rw [h1] at h; omega
  · rw [h1]; exact h3

/-! ### negamax leaves the board as it found it -/

theorem negamaxLoop_state (child : List Char → Int → Int → Option (Int × List Char))
    (playerColor beta : Int)
    (hchild : ∀ st a b r st2, child st a b = some (r, st2) → st2 = st) :
    ∀ (cols : List Int) (state : List Char) (bestVal alpha v : Int) (st : List Char),
      negamaxLoop child playerColor beta cols state bestVal alpha = some (v, st) →
      st = state := by
  intro cols
  induction cols with
  | nil =>
    intro state bestVal alpha v st h
    simp [negamaxLoop] at h
    exact h.2.symm
  | cons col rest ih =>
    intro state bestVal alpha v st h
    unfold negamaxLoop at h
    simp only at h
    by_cases hrow : getLowestEmptyRowFromState col state ≥ 0
    · rw [if_pos hrow] at h
      have hempty := getLowestEmptyRowFromState_empty col state hrow
      cases hc : child (setChar state (getLowestEmptyRowFromState col state * BOARD_WIDTH + col)
          (if playerColor = 1 then '2' else '1')) (-beta) (-alpha) with
      | none => rw [hc] at h; exact Option.noConfusion h
      | some res =>
        obtain ⟨r, st2⟩ := res
        rw [hc] at h
        simp only at h
        have hst2 := hchild _ _ _ _ _ hc
        rw [hst2, setChar_restore state _ _ hempty] at h
        by_cases hcut : max alpha (-r) ≥ beta
        · rw [if_pos hcut] at h
          simp at h
          exact h.2.symm
        · rw [if_neg hcut] at h
          exact ih _ _ _ _ _ h
    · rw [if_neg hrow] at h
      exact ih _ _ _ _ _ h

theorem negamax_succ (aiPlayer : Int) (fuel : Nat) (state : List Char)
    (depth alpha beta playerColor : Int) :
    negamax aiPlayer (fuel + 1) state depth alpha beta playerColor =
      if evaluatePosition aiPlayer state ≥ 1000 ∨ evaluatePosition aiPlayer state ≤ -1000 then
        some (playerColor * evaluatePosition aiPlayer state, state)
      else if (!hasMove state) = true then some (0, state)
      else if depth ≥ 6 then some (playerColor * evaluatePosition aiPlayer state, state)
      else
        negamaxLoop
          (fun st a b => negamax aiPlayer fuel st (depth + 1) a b (-playerColor))
          playerColor beta order state (-10000) alpha := rfl

theorem negamax_state (aiPlayer : Int) :
    ∀ (fuel : Nat) (state : List Char) (depth alpha beta playerColor v : Int) (st : List Char),
      negamax aiPlayer fuel state depth alpha beta playerColor = some (v, st) → st = state := by
  intro fuel
  induction fuel with
  | zero => intro state depth alpha beta playerColor v st h; simp [negamax] at h
  | succ fuel ih =>
    intro state depth alpha beta playerColor v st h
    rw [negamax_succ] at h
    split_ifs at h with h1 h2 h3
    · simp at h; exact h.2.symm
    · simp at h; exact h.2.symm
    · simp at h; exact h.2.symm
    · exact negamaxLoop_state _ _ _ (fun st a b r st2 hc => ih _ _ _ _ _ _ _ hc) _ _ _ _ _ _ h

/-! ### negamax returns; bounds on the value of a node -/

theorem negamaxLoop_spec (child : List Char → Int → Int → Option (Int × List Char))
    (playerColor beta : Int)
    (hchild : ∀ st a b, ∃ r, child st a b = some (r, st)) :
    ∀ (cols : List Int) (state : List Char) (bestVal alpha : Int),
      ∃ v, negamaxLoop child playerColor beta cols state bestVal alpha = some (v, state) ∧
        bestVal ≤ v ∧
        (alpha < beta → ∀ c ∈ cols, NotFull state c → ∀ r,
          (∀ a b, child (dropInto state c (if playerColor = 1 then '2' else '1')) a b =
            some (r, dropInto state c (if playerColor = 1 then '2' else '1'))) →
          -r ≤ v ∨ beta ≤ v) := by
  intro cols
  induction cols with
  | nil =>
    intro state bestVal alpha
    exact ⟨bestVal, rfl, le_refl _, by intro _ c hc; simp at hc⟩
  | cons col rest ih =>
    intro state bestVal alpha
    unfold negamaxLoop
    simp only
    by_cases hrow : getLowestEmptyRowFromState col state ≥ 0
    · rw [if_pos hrow]
      have hempty := getLowestEmptyRowFromState_empty col state hrow
      obtain ⟨r1, hr1⟩ := hchild (setChar state
        (getLowestEmptyRowFromState col state * BOARD_WIDTH + col)
        (if playerColor = 1 then '2' else '1')) (-beta) (-alpha)
      rw [hr1]
      simp only
      rw [setChar_restore state _ _ hempty]
      by_cases hcut : max alpha (-r1) ≥ beta
      · rw [if_pos hcut]
        refine ⟨max bestVal (-r1), rfl, le_max_left _ _, ?_⟩
        intro hab c hc hnf r hr
        rcases List.mem_cons.1 hc with rfl | hmem
        · have := hr (-beta) (-alpha)
          unfold dropInto at this
          rw [hr1] at this
          have hrr : r1 = r := by simpa using this
          left; rw [← hrr]; exact le_max_right _ _
        · right
          have : beta ≤ -r1 := by
            rcases le_max_iff.1 hcut with h | h
            · omega
            · exact h
          exact le_trans this (le_max_right _ _)
      · rw [if_neg hcut]
        obtain ⟨v, hv, hbest, hall⟩ := ih state (max bestVal (-r1)) (max alpha (-r1))
        refine ⟨v, hv, le_trans (le_max_left _ _) hbest, ?_⟩
        intro hab c hc hnf r hr
        rcases List.mem_cons.1 hc with rfl | hmem
        · have := hr (-beta) (-alpha)
          unfold dropInto at this
          rw [hr1] at this
          have hrr : r1 = r := by simpa using this
          left; rw [← hrr]; exact le_trans (le_max_right _ _) hbest
        · exact hall (by omega) c hmem hnf r hr
    · rw [if_neg hrow]
      obtain ⟨v, hv, hbest, hall⟩ := ih state bestVal alpha
      refine ⟨v, hv, hbest, ?_⟩
      intro hab c hc hnf r hr
      rcases List.mem_cons.1 hc with rfl | hmem
      · exact absurd hnf hrow
      · exact hall hab c hmem hnf r hr

theorem negamax_total (aiPlayer : Int) :
    ∀ (fuel : Nat) (state : List Char) (depth alpha beta playerColor : Int),
      1 ≤ fuel → 6 - depth < (fuel : Int) →
      ∃ v, negamax aiPlayer fuel state depth alpha beta playerColor = some (v, state) := by
  intro fuel
  induction fuel with
  | zero => intro state depth alpha beta playerColor h; omega
  | succ fuel ih =>
    intro state depth alpha beta playerColor _ hd
    rw [negamax_succ]
    split_ifs with h1 h2 h3
    · exact ⟨_, rfl⟩
    · exact ⟨_, rfl⟩
    · exact ⟨_, rfl⟩
    · have hchild : ∀ st a b, ∃ r,
          (fun st a b => negamax aiPlayer fuel st (depth + 1) a b (-playerColor)) st a b =
            some (r, st) := by
        intro st a b
        exact ih st (depth + 1) a b (-playerColor) (by omega) (by push_cast at hd ⊢; omega)
      obtain ⟨v, hv, _⟩ := negamaxLoop_spec _ playerColor beta hchild order state (-10000) alpha
      exact ⟨v, hv⟩

theorem negamax_terminal (aiPlayer : Int) (fuel : Nat) (state : List Char)
    (depth alpha beta playerColor : Int) (hfuel : 1 ≤ fuel)
    (h : evaluatePosition aiPlayer state ≥ 1000 ∨ evaluatePosition aiPlayer state ≤ -1000) :
    negamax aiPlayer fuel state depth alpha beta playerColor =
      some (playerColor * evaluatePosition aiPlayer state, state) := by
  obtain ⟨f, rfl⟩ : ∃ f, fuel = f + 1 := ⟨fuel - 1, by omega⟩
  rw [negamax_succ, if_pos h]

theorem moveValue_spec (aiPlayer : Int) (fuel : Nat) (state : List Char) (col : Int)
    (hfuel : 7 ≤ fuel) :
    negamax aiPlayer fuel (dropInto state col (aiCharOf aiPlayer)) 0 (-10000) 10000
      HUMAN_PLAYER =
      some (-moveValue aiPlayer fuel state col, dropInto state col (aiCharOf aiPlayer)) := by
  obtain ⟨v, hv⟩ := negamax_total aiPlayer fuel (dropInto state col (aiCharOf aiPlayer)) 0
    (-10000) 10000 HUMAN_PLAYER (by omega) (by omega)
  unfold moveValue
  rw [hv]
  simp [-neg_neg, Int.neg_neg]

/-! ### The move loop of updateAI -/

theorem updateAILoop_spec (aiPlayer : Int) (fuel : Nat) (state : List Char) (hfuel : 7 ≤ fuel) :
    ∀ (cols : List Int) (bestCol bestVal : Int),
      ∃ b, updateAILoop aiPlayer fuel cols state bestCol bestVal = some (b, state) ∧
        ((b = bestCol ∧
            ∀ c ∈ cols, NotFull state c → moveValue aiPlayer fuel state c ≤ bestVal) ∨
          (∃ pre post, cols = pre ++ b :: post ∧ NotFull state b ∧
            bestVal < moveValue aiPlayer fuel state b ∧
            (∀ c ∈ pre, NotFull state c →
              moveValue aiPlayer fuel state c < moveValue aiPlayer fuel state b) ∧
            (∀ c ∈ post, NotFull state c →
              moveValue aiPlayer fuel state c ≤ moveValue aiPlayer fuel state b))) := by
  intro cols
  induction cols with
  | nil =>
    intro bestCol bestVal
    exact ⟨bestCol, rfl, Or.inl ⟨rfl, by intro c hc; simp at hc⟩⟩
  | cons col rest ih =>
    intro bestCol bestVal
    unfold updateAILoop
    simp only
    by_cases hrow : getLowestEmptyRowFromState col state ≥ 0
    · rw [if_pos hrow]
      have hempty := getLowestEmptyRowFromState_empty col state hrow
      have hmv := moveValue_spec aiPlayer fuel state col hfuel
      unfold dropInto at hmv
      rw [hmv]
      simp only
      rw [setChar_restore state _ _ hempty, Int.neg_neg]
      by_cases hgt : moveValue aiPlayer fuel state col > bestVal
      · rw [if_pos hgt]
        obtain ⟨b, hb, hcase⟩ := ih col (moveValue aiPlayer fuel state col)
        refine ⟨b, hb, Or.inr ?_⟩
        rcases hcase with ⟨hbc, hall⟩ | ⟨pre, post, hsplit, hnf, hlt, hpre, hpost⟩
        · subst hbc
          exact ⟨[], rest, rfl, hrow, hgt, by intro c hc; simp at hc, hall⟩
        · refine ⟨col :: pre, post, by rw [hsplit]; rfl, hnf, lt_trans hgt hlt, ?_, hpost⟩
          intro c hc hcnf
          rcases List.mem_cons.1 hc with rfl | hmem
          · exact hlt
          · exact hpre c hmem hcnf
      · rw [if_neg hgt]
        obtain ⟨b, hb, hcase⟩ := ih bestCol bestVal
        refine ⟨b, hb, ?_⟩
        rcases hcase with ⟨hbc, hall⟩ | ⟨pre, post, hsplit, hnf, hlt, hpre, hpost⟩
        · left
          refine ⟨hbc, ?_⟩
          intro c hc hcnf
          rcases List.mem_cons.1 hc with rfl | hmem
          · omega
          · exact hall c hmem hcnf
        · right
          refine ⟨col :: pre, post, by rw [hsplit]; rfl, hnf, hlt, ?_, hpost⟩
          intro c hc hcnf
          rcases List.mem_cons.1 hc with rfl | hmem
          · omega
          · exact hpre c hmem hcnf
    · rw [if_neg hrow]
      obtain ⟨b, hb, hcase⟩ := ih bestCol bestVal
      refine ⟨b, hb, ?_⟩
      rcases hcase with ⟨hbc, hall⟩ | ⟨pre, post, hsplit, hnf, hlt, hpre, hpost⟩
      · left
        refine ⟨hbc, ?_⟩
        intro c hc hcnf
        rcases List.mem_cons.1 hc with rfl | hmem
        · exact absurd hcnf hrow
        · exact hall c hmem hcnf
      · right
        refine ⟨col :: pre, post, by rw [hsplit]; rfl, hnf, hlt, ?_, hpost⟩
        intro c hc hcnf
        rcases List.mem_cons.1 hc with rfl | hmem
        · exact absurd hcnf hrow
        · exact hpre c hmem hcnf

theorem updateAI_spec (aiPlayer : Int) (fuel : Nat) (state : List Char) (hfuel : 7 ≤ fuel) :
    ∃ b, updateAI aiPlayer fuel state = some b ∧
      ((b = -1 ∧
          ∀ c ∈ order, NotFull state c → moveValue aiPlayer fuel state c ≤ -10000) ∨
        (∃ pre post, order = pre ++ b :: post ∧ NotFull state b ∧
          -10000 < moveValue aiPlayer fuel state b ∧
          (∀ c ∈ pre, NotFull state c →
            moveValue aiPlayer fuel state c < moveValue aiPlayer fuel state b) ∧
          (∀ c ∈ post, NotFull state c →
            moveValue aiPlayer fuel state c ≤ moveValue aiPlayer fuel state b))) := by
  obtain ⟨b, hb, hcase⟩ := updateAILoop_spec aiPlayer fuel state hfuel order (-1) (-10000)
  refine ⟨b, ?_, hcase⟩
  unfold updateAI
  rw [hb]
  rfl

/-! ### The grid: lowest empty row, draw, gravity -/

theorem getSquare_inRange (g : Grid) (x y : Nat) (hx : x < 7) (hy : y < 6) :
    g.getSquare (x : Int) (y : Int) = some (g.bit x y) := by
  unfold Grid.getSquare BOARD_WIDTH BOARD_HEIGHT
  rw [if_pos ⟨by omega, by omega, by omega, by omega⟩]
  simp

theorem getSquare_outside (g : Grid) (col : Int) (y : Int) (h : ¬ (0 ≤ col ∧ col < 7)) :
    g.getSquare col y = none := by
  unfold Grid.getSquare BOARD_WIDTH
  rw [if_neg (by intro h2; exact h ⟨h2.1, h2.2.1⟩)]

theorem getLowestEmptyRowLoop_spec (g : Grid) (x : Nat) (hx : x < 7) :
    ∀ n : Nat, n ≤ 6 →
      (getLowestEmptyRowLoop g (x : Int) n = -1 ∧ ∀ k : Nat, k < n → g.bit x k ≠ none) ∨
      (∃ r : Nat, getLowestEmptyRowLoop g (x : Int) n = (r : Int) ∧ r < n ∧ g.bit x r = none ∧
        ∀ k : Nat, r < k → k < n → g.bit x k ≠ none) := by
  intro n
  induction n with
  | zero => intro _; left; exact ⟨rfl, by intro k hk; omega⟩
  | succ n ih =>
    intro hn
    unfold getLowestEmptyRowLoop
    rw [getSquare_inRange g x n hx (by omega)]
    cases hb : g.bit x n with
    | none =>
      right
      exact ⟨n, rfl, by omega, hb, by intro k h1 h2; omega⟩
    | some b =>
      simp only
      rcases ih (by omega) with ⟨h1, h2⟩ | ⟨r, h1, h2, h3, h4⟩
      · left
        refine ⟨h1, ?_⟩
        intro k hk
        by_cases hkn : k = n
        · subst hkn; rw [hb]; simp
        · exact h2 k (by omega)
      · right
        refine ⟨r, h1, by omega, h3, ?_⟩
        intro k hk1 hk2
        by_cases hkn : k = n
        · subst hkn; rw [hb]; simp
        · exact h4 k hk1 (by omega)

theorem getLowestEmptyRowLoop_outside (g : Grid) (col : Int) (h : ¬ (0 ≤ col ∧ col < 7)) :
    ∀ n : Nat, getLowestEmptyRowLoop g col n = -1 := by
  intro n
  induction n with
  | zero => rfl
  | succ n ih =>
    unfold getLowestEmptyRowLoop
    rw [getSquare_outside g col _ h]
    exact ih

theorem getLowestEmptyRow_spec (g : Grid) (x : Nat) (hx : x < 7) :
    (getLowestEmptyRow g (x : Int) = -1 ∧ ∀ k : Nat, k < 6 → g.bit x k ≠ none) ∨
    (∃ r : Nat, getLowestEmptyRow g (x : Int) = (r : Int) ∧ r < 6 ∧ g.bit x r = none ∧
      ∀ k : Nat, r < k → k < 6 → g.bit x k ≠ none) :=
  getLowestEmptyRowLoop_spec g x hx 6 (le_refl _)

theorem checkForDrawLoop_iff (g : Grid) :
    ∀ cols : List Nat, (∀ x ∈ cols, x < 7) →
      (checkForDrawLoop g cols = true ↔ ∀ x ∈ cols, ∀ y : Nat, y < 6 → g.bit x y ≠ none) := by
  intro cols
  induction cols with
  | nil => intro _; simp [checkForDrawLoop]
  | cons col rest ih =>
    intro hin
    have hcol := hin col (List.mem_cons_self _ _)
    have ih2 := ih (fun x hx => hin x (List.mem_cons_of_mem _ hx))
    unfold checkForDrawLoop
    rcases getLowestEmptyRow_spec g col hcol with ⟨h1, h2⟩ | ⟨r, h1, h2, h3, _⟩
    · rw [h1, if_neg (by omega), ih2]
      constructor
      · intro h x hx
        rcases List.mem_cons.1 hx with rfl | hmem
        · exact h2
        · exact h x hmem
      · intro h x hx
        exact h x (List.mem_cons_of_mem _ hx)
    · rw [h1, if_pos (by omega)]
      constructor
      · intro h; exact Bool.noConfusion h
      · intro h
        exact absurd h3 (h col (List.mem_cons_self _ _) r h2)

theorem checkForDraw_iff_full (g : Grid) :
    checkForDraw g = true ↔ ∀ x y : Nat, x < 7 → y < 6 → g.bit x y ≠ none := by
  unfold checkForDraw
  rw [checkForDrawLoop_iff g (List.range 7) (fun x hx => List.mem_range.1 hx)]
  constructor
  · intro h x y hx hy; exact h x (List.mem_range.2 hx) y hy
  · intro h x hx y hy; exact h x y (List.mem_range.1 hx) hy

theorem gravity_top_occupied (g : Grid) (hgrav : GridGravity g) (x : Nat) (hx : x < 7)
    (h0 : g.bit x 0 ≠ none) : ∀ y : Nat, y < 6 → g.bit x y ≠ none := by
  intro y
  induction y with
  | zero => intro _; exact h0
  | succ y ih => intro hy; exact hgrav x y hx (by omega) (ih (by omega))

/-- C12: `checkForDraw` is true exactly when no column has an empty cell; on
a grid that obeys gravity this is the case exactly when the top cell (row 0)
of every column is occupied. On a fully occupied grid on which no cell lies in
a four in a row, `checkForDraw` is true and `checkForWinner` finds no winner
(for every fuel of 7 or more). -/
theorem checkForDraw_iff (g : Grid) :
    (checkForDraw g = true ↔ ∀ x y : Nat, x < 7 → y < 6 → g.bit x y ≠ none) ∧
    (GridGravity g → (checkForDraw g = true ↔ ∀ x : Nat, x < 7 → g.bit x 0 ≠ none)) ∧
    (∀ fuel : Nat, 7 ≤ fuel →
      (∀ x y : Nat, x < 7 → y < 6 → g.bit x y ≠ none) →
      (∀ col row : Nat, col < 7 → row < 6 → ¬ WinAt g col row) →
      checkForDraw g = true ∧ checkForWinner fuel g = some none) := by
  refine ⟨checkForDraw_iff_full g, ?_, ?_⟩
  · intro hgrav
    rw [checkForDraw_iff_full]
    constructor
    · intro h x hx; exact h x 0 hx (by omega)
    · intro h x y hx hy; exact gravity_top_occupied g hgrav x hx (h x hx) y hy
  · intro fuel hfuel hfull hnowin
    refine ⟨(checkForDraw_iff_full g).2 hfull, ?_⟩
    obtain ⟨res, hres, hcase⟩ :=
      checkForWinnerLoop_spec fuel g hfuel scanOrder (fun c hc => (mem_scanOrder c).1 hc)
    rcases hcase with ⟨_, hnone⟩ | ⟨pre, cell, post, b, hsplit, _, hwin, _, _⟩
    · unfold checkForWinner; rw [hres, hnone]
    · exfalso
      have hmem : cell ∈ scanOrder := by rw [hsplit]; simp
      obtain ⟨hc, hr⟩ := (mem_scanOrder cell).1 hmem
      obtain ⟨w, hw, hwiff⟩ := checkWinAt_spec fuel g cell.1 cell.2 hfuel
        ⟨by omega, by omega⟩ ⟨by omega, by omega⟩
      rw [hw] at hwin
      have hwt : w = true := by simpa using hwin
      exact hnowin cell.1 cell.2 hc hr (hwiff.1 hwt)

/-- The claim C12 at the grid loaded from `drawnBoard`: it is full, no cell
reports a win, the draw is reported and no winner is found. -/
theorem checkForDraw_iff_witness :
    checkForDraw (setStateString emptyGrid drawnBoard) = true ∧
    checkForWinner 7 (setStateString emptyGrid drawnBoard) = some none ∧
    (checkForDraw (setStateString emptyGrid drawnBoard) = true ↔
      ∀ x y : Nat, x < 7 → y < 6 → (setStateString emptyGrid drawnBoard).bit x y ≠ none) :=
  ⟨by decide, by decide, (checkForDraw_iff (setStateString emptyGrid drawnBoard)).1⟩

/-! ### Round trip of the board string -/

theorem stateString_length (g : Grid) : (stateString g).length = 42 := by
  simp [stateString]

theorem charAt_ofNat (s : List Char) (i : Nat) (h : i < s.length) :
    charAt s (i : Int) = s[i] := by
  unfold charAt
  rw [if_neg (by omega)]
  simp [h]

/-- C13: for every string `s` of exactly 42 symbols over '0', '1', '2',
`setStateString s` followed by `stateString` gives back `s`, whatever the
grid held before. -/
theorem stateString_setStateString (g : Grid) (s : List Char) (hlen : s.length = 42)
    (hsym : ∀ c ∈ s, c = '0' ∨ c = '1' ∨ c = '2') :
    stateString (setStateString g s) = s := by
  apply List.ext_getElem
  · rw [stateString_length, hlen]
  · intro i h1 h2
    have hi : i < 42 := by rw [stateString_length] at h1; exact h1
    have hx : i % 7 < 7 := Nat.mod_lt _ (by decide)
    have hy : i / 7 < 6 := by omega
    have hidx : ((i / 7 : Nat) : Int) * BOARD_WIDTH + ((i % 7 : Nat) : Int) = (i : Int) := by
      unfold BOARD_WIDTH
      have := Nat.div_add_mod i 7
      omega
    have hc := hsym s[i] (List.getElem_mem h2)
    unfold stateString setStateString
    rw [if_neg (by omega)]
    simp only [List.getElem_map, List.getElem_range]
    rw [if_pos ⟨hx, hy⟩, hidx, charAt_ofNat s i h2]
    rcases hc with h | h | h <;> rw [h] <;> decide

/-- The claim C13 at the board `winInThree`. -/
theorem stateString_setStateString_witness :
    stateString (setStateString emptyGrid winInThree) = winInThree :=
  stateString_setStateString emptyGrid winInThree (by decide) (by decide)

/-! ### Gravity -/

theorem actionForEmptyHolder_gravity (g g2 : Grid) (column : Int) (p : Nat)
    (hgrav : GridGravity g) (h : actionForEmptyHolder g column p = some g2) :
    GridGravity g2 := by
  unfold actionForEmptyHolder at h
  simp only at h
  by_cases hcol : 0 ≤ column ∧ column < 7
  · obtain ⟨x, hx, rfl⟩ : ∃ x : Nat, x < 7 ∧ column = (x : Int) :=
      ⟨column.toNat, by omega, by omega⟩
    rcases getLowestEmptyRow_spec g x hx with ⟨h1, _⟩ | ⟨r, h1, hr, _, hbelow⟩
    · rw [h1] at h; simp at h
    · rw [h1] at h
      rw [if_neg (by omega), getSquare_inRange g x r hx hr] at h
      simp only [Option.some.injEq, Int.toNat_ofNat] at h
      subst h
      intro a b ha hb hocc
      unfold Grid.setBit at hocc ⊢
      simp only at hocc ⊢
      by_cases hnew : a = x ∧ b + 1 = r
      · rw [if_pos hnew]; simp
      · rw [if_neg hnew]
        by_cases hcell : a = x ∧ b = r
        · obtain ⟨rfl, rfl⟩ := hcell
          exact hbelow (b + 1) (by omega) (by omega)
        · rw [if_neg hcell] at hocc
          exact hgrav a b ha hb hocc
  · unfold getLowestEmptyRow at h
    rw [getLowestEmptyRowLoop_outside g column hcol 6] at h
    simp at h

theorem playDrops_gravity :
    ∀ (moves : List (Int × Nat)) (g g2 : Grid), GridGravity g →
      playDrops moves g = some g2 → GridGravity g2 := by
  intro moves
  induction moves with
  | nil =>
    intro g g2 hg h
    simp [playDrops] at h
    subst h; exact hg
  | cons move rest ih =>
    intro g g2 hg h
    unfold playDrops at h
    cases ha : actionForEmptyHolder g move.1 move.2 with
    | none => rw [ha] at h; exact Option.noConfusion h
    | some g1 =>
      rw [ha] at h
      exact ih g1 g2 (actionForEmptyHolder_gravity g g1 _ _ hg ha) h

theorem emptyGrid_gravity : GridGravity emptyGrid := by
  intro x y _ _ h
  exact absurd rfl h

theorem playGame_gravity :
    ∀ (moves : List Int) (g g2 : Grid) (p : Nat), GridGravity g →
      playGame moves g p = some g2 → GridGravity g2 := by
  intro moves
  induction moves with
  | nil =>
    intro g g2 p hg h
    simp [playGame] at h
    subst h; exact hg
  | cons column rest ih =>
    intro g g2 p hg h
    unfold playGame at h
    cases ha : actionForEmptyHolder g column p with
    | none => rw [ha] at h; exact Option.noConfusion h
    | some g1 =>
      rw [ha] at h
      exact ih g1 g2 (1 - p) (actionForEmptyHolder_gravity g g1 _ _ hg ha) h

theorem gravityConsistent_iff (state : List Char) :
    gravityConsistent state = true ↔
      ∀ col row : Nat, col < 7 → row < 5 →
        charAt state ((row : Int) * 7 + (col : Int)) ≠ '0' →
        charAt state (((row : Int) + 1) * 7 + (col : Int)) ≠ '0' := by
  unfold gravityConsistent
  simp only [List.all_eq_true, List.mem_range, Bool.or_eq_true, decide_eq_true_eq, bne_iff_ne,
    ne_eq]
  constructor
  · intro h col row hc hr hocc
    rcases h col hc row hr with h1 | h1
    · exact absurd h1 hocc
    · exact h1
  · intro h col hc row hr
    by_cases h0 : charAt state ((row : Int) * 7 + (col : Int)) = '0'
    · exact Or.inl h0
    · exact Or.inr (h col row hc hr h0)

theorem dropInto_gravity (state : List Char) (c : Nat) (piece : Char) (hc : c < 7)
    (hpiece : piece ≠ '0') (hgrav : gravityConsistent state = true)
    (hnf : NotFull state (c : Int)) :
    gravityConsistent (dropInto state (c : Int) piece) = true := by
  rw [gravityConsistent_iff] at hgrav ⊢
  unfold NotFull at hnf
  rcases getLowestEmptyRowFromState_spec (c : Int) state with ⟨h1, _⟩ | ⟨r, h1, hr, h3, hbelow⟩
  · rw [h1] at hnf; omega
  · unfold BOARD_WIDTH at h3 hbelow
    obtain ⟨hi0, hilt⟩ := charAt_zero_inRange state _ h3
    unfold dropInto BOARD_WIDTH
    rw [h1]
    intro col row hcol hrow hocc
    by_cases hsame : ((row : Int) + 1) * 7 + (col : Int) = (r : Int) * 7 + (c : Int)
    · rw [← hsame, charAt_setChar_self _ _ _ (by omega) (by rw [hsame]; exact hilt)]
      exact hpiece
    · rw [charAt_setChar_ne _ _ _ _ (fun e => hsame e.symm)]
      by_cases hcell : (row : Int) * 7 + (col : Int) = (r : Int) * 7 + (c : Int)
      · have hcr : col = c ∧ row = r := by omega
        obtain ⟨rfl, rfl⟩ := hcr
        have := hbelow (row + 1) (by omega) (by omega)
        have e : ((row + 1 : Nat) : Int) = (row : Int) + 1 := by push_cast; ring
        rw [e] at this; exact this
      · rw [charAt_setChar_ne _ _ _ _ (fun e => hcell e.symm)] at hocc
        exact hgrav col row hcol hrow hocc

/-- C14: every grid reached from the empty grid by a sequence of drops that
`actionForEmptyHolder` accepts (whoever drops, and in particular with the
players taking turns) obeys gravity: whenever a square is occupied, every
square below it in the same column is occupied. A drop lands on the row the
lowest-empty-row lookup returns and is refused when the lookup returns a
negative row. The drops of the search on the board string keep gravity too. -/
theorem gravity_invariant :
    (∀ (moves : List (Int × Nat)) (g : Grid), playDrops moves emptyGrid = some g →
      ∀ x y y2 : Nat, x < 7 → y ≤ y2 → y2 < 6 → g.bit x y ≠ none → g.bit x y2 ≠ none) ∧
    (∀ (moves : List Int) (g : Grid) (p : Nat), playGame moves emptyGrid p = some g →
      GridGravity g) ∧
    (∀ (g : Grid) (column : Int) (p : Nat),
      (getLowestEmptyRow g column < 0 → actionForEmptyHolder g column p = none) ∧
      (∀ g2, actionForEmptyHolder g column p = some g2 →
        g2 = g.setBit column.toNat (getLowestEmptyRow g column).toNat (PieceForPlayer p))) ∧
    (∀ (state : List Char) (c : Nat) (piece : Char), c < 7 → piece ≠ '0' →
      gravityConsistent state = true → NotFull state (c : Int) →
      gravityConsistent (dropInto state (c : Int) piece) = true) := by
  refine ⟨?_, ?_, ?_, ?_⟩
  · intro moves g h x y y2 hx hle hy2 hocc
    have hgrav := playDrops_gravity moves emptyGrid g emptyGrid_gravity h
    obtain ⟨d, rfl⟩ : ∃ d, y2 = y + d := ⟨y2 - y, by omega⟩
    clear hle
    induction d with
    | zero => exact hocc
    | succ d ih => exact hgrav x (y + d) hx (by omega) (ih (by omega))
  · intro moves g p h
    exact playGame_gravity moves emptyGrid g p emptyGrid_gravity h
  · intro g column p
    constructor
    · intro h
      unfold actionForEmptyHolder
      simp only
      rw [if_pos h]
    · intro g2 h
      unfold actionForEmptyHolder at h
      simp only at h
      split_ifs at h
      cases hs : g.getSquare column (getLowestEmptyRow g column) with
      | none => rw [hs] at h; exact Option.noConfusion h
      | some sq =>
        rw [hs] at h
        simp only [Option.some.injEq] at h
        exact h.symm
  · intro state c piece hc hpiece hgrav hnf
    exact dropInto_gravity state c piece hc hpiece hgrav hnf

/-- The claim C14 at the game `quietMoves`: the board reached obeys gravity,
on the grid and as a string. -/
theorem gravity_invariant_witness :
    (boardAfter quietMoves).map gravityConsistent = some true ∧
    ∀ (g : Grid), playGame quietMoves emptyGrid 0 = some g → GridGravity g :=
  ⟨by decide, fun g h => gravity_invariant.2.1 quietMoves g 0 h⟩

/-! ### The leaves of negamax -/

theorem hasMove_iff (state : List Char) :
    hasMove state = true ↔ ∃ col : Nat, col < 7 ∧ isColumnFull (col : Int) state = false := by
  unfold hasMove
  rw [List.any_eq_true]
  constructor
  · rintro ⟨col, hc, h⟩
    exact ⟨col, List.mem_range.1 hc, by simpa using h⟩
  · rintro ⟨col, hc, h⟩
    exact ⟨col, List.mem_range.2 hc, by simp [h]⟩

/-- C15: with fuel 1 or more, and `score = evaluatePosition state`:
(1) if `score >= 1000` or `score <= -1000`, `negamax` returns `sign * score`,
whatever the depth and the columns; (2) otherwise, if the top cell of every
column is occupied, it returns 0; (3) otherwise, if `depth >= 6`, it returns
`sign * score`. In each case the board is handed back as it was. -/
theorem negamax_leaf (aiPlayer : Int) (fuel : Nat) (state : List Char)
    (depth alpha beta sign : Int) (hfuel : 1 ≤ fuel) :
    ((evaluatePosition aiPlayer state ≥ 1000 ∨ evaluatePosition aiPlayer state ≤ -1000) →
      negamax aiPlayer fuel state depth alpha beta sign =
        some (sign * evaluatePosition aiPlayer state, state)) ∧
    (¬ (evaluatePosition aiPlayer state ≥ 1000 ∨ evaluatePosition aiPlayer state ≤ -1000) →
      (∀ col : Nat, col < 7 → isColumnFull (col : Int) state = true) →
      negamax aiPlayer fuel state depth alpha beta sign = some (0, state)) ∧
    (¬ (evaluatePosition aiPlayer state ≥ 1000 ∨ evaluatePosition aiPlayer state ≤ -1000) →
      (∃ col : Nat, col < 7 ∧ isColumnFull (col : Int) state = false) →
      depth ≥ 6 →
      negamax aiPlayer fuel state depth alpha beta sign =
        some (sign * evaluatePosition aiPlayer state, state)) := by
  obtain ⟨f, rfl⟩ : ∃ f, fuel = f + 1 := ⟨fuel - 1, by omega⟩
  refine ⟨?_, ?_, ?_⟩
  · intro h
    rw [negamax_succ, if_pos h]
  · intro h hfull
    have hm : hasMove state = false := by
      cases hh : hasMove state with
      | false => rfl
      | true =>
        obtain ⟨col, hc, hcol⟩ := (hasMove_iff state).1 hh
        rw [hfull col hc] at hcol
        exact Bool.noConfusion hcol
    rw [negamax_succ, if_neg h, if_pos (by simp [hm])]
  · intro h hmove hdepth
    have hm : hasMove state = true := (hasMove_iff state).2 hmove
    rw [negamax_succ, if_neg h, if_neg (by simp [hm]), if_pos hdepth]

/-- The claim C15 at the full board `drawnBoard`: the score is not a win, no
column has a free top cell, the result is 0. -/
theorem negamax_leaf_witness :
    evaluatePosition 1 drawnBoard = 0 ∧
    negamax 1 1 drawnBoard 0 (-10000) 10000 1 = some (0, drawnBoard) :=
  ⟨by decide,
    (negamax_leaf 1 1 drawnBoard 0 (-10000) 10000 1 (by decide)).2.1 (by decide) (by decide)⟩

/-! ### Speculative moves are undone -/

/-- C16: whenever `negamax` returns, the board it hands back is the board it
was called with, also when a cutoff ends the move loop early, and it does
return when the fuel is 1 or more and exceeds `6 - depth`. A write at an empty
cell followed by the write of '0' at the same cell restores the board. With
fuel 7 or more the working copy of `updateAI` is unchanged after the trials of
any list of columns. -/
theorem negamax_restores_board (aiPlayer : Int) (fuel : Nat) (state : List Char)
    (depth alpha beta sign : Int) :
    (∀ v st, negamax aiPlayer fuel state depth alpha beta sign = some (v, st) → st = state) ∧
    (1 ≤ fuel → 6 - depth < (fuel : Int) →
      ∃ v, negamax aiPlayer fuel state depth alpha beta sign = some (v, state)) ∧
    (∀ (idx : Int) (ch : Char), charAt state idx = '0' →
      setChar (setChar state idx ch) idx '0' = state) ∧
    (7 ≤ fuel → ∀ (cols : List Int) (bestCol bestVal : Int),
      ∃ b, updateAILoop aiPlayer fuel cols state bestCol bestVal = some (b, state)) := by
  refine ⟨?_, ?_, ?_, ?_⟩
  · intro v st h
    exact negamax_state aiPlayer fuel state depth alpha beta sign v st h
  · intro h1 h2
    exact negamax_total aiPlayer fuel state depth alpha beta sign h1 h2
  · intro idx ch h
    exact setChar_restore state idx ch h
  · intro hfuel cols bestCol bestVal
    obtain ⟨b, hb, _⟩ := updateAILoop_spec aiPlayer fuel state hfuel cols bestCol bestVal
    exact ⟨b, hb⟩

/-- The claim C16 at the board `twoOpen`: the search returns the board
unchanged. -/
theorem negamax_restores_board_witness :
    (negamax 1 7 twoOpen 0 (-10000) 10000 1).map Prod.snd = some twoOpen ∧
    ∃ v, negamax 1 7 twoOpen 0 (-10000) 10000 1 = some (v, twoOpen) :=
  ⟨by decide,
    (negamax_restores_board 1 7 twoOpen 0 (-10000) 10000 1).2.1 (by decide) (by decide)⟩

/-! ### The piece negamax drops -/

/-- C17: the code at `AIPlayer = 0`, where the automated player has symbol
'1'. A child that reads the cell written by the move loop (index 38, the
bottom of column 3 on the empty board) reports: at sign +1 the cell holds the
symbol of the opponent and not that of the automated player; at sign -1 it
holds the symbol of the automated player and not that of the opponent. At
`AIPlayer = 1` the two symbols are the right way round. -/
theorem negamax_piece_colour :
    (negamaxLoop (fun st _ _ => some (if charAt st 38 = aiCharOf 0 then 1 else 0, st))
        1 10000 [3] (List.replicate 42 '0') (-10000) (-10000)).map Prod.fst = some 0 ∧
    (negamaxLoop (fun st _ _ => some (if charAt st 38 = humanCharOf 0 then 1 else 0, st))
        1 10000 [3] (List.replicate 42 '0') (-10000) (-10000)).map Prod.fst = some (-1) ∧
    (negamaxLoop (fun st _ _ => some (if charAt st 38 = humanCharOf 0 then 1 else 0, st))
        (-1) 10000 [3] (List.replicate 42 '0') (-10000) (-10000)).map Prod.fst = some 0 ∧
    (negamaxLoop (fun st _ _ => some (if charAt st 38 = aiCharOf 0 then 1 else 0, st))
        (-1) 10000 [3] (List.replicate 42 '0') (-10000) (-10000)).map Prod.fst = some (-1) ∧
    (negamaxLoop (fun st _ _ => some (if charAt st 38 = aiCharOf 1 then 1 else 0, st))
        1 10000 [3] (List.replicate 42 '0') (-10000) (-10000)).map Prod.fst = some (-1) ∧
    (negamaxLoop (fun st _ _ => some (if charAt st 38 = humanCharOf 1 then 1 else 0, st))
        (-1) 10000 [3] (List.replicate 42 '0') (-10000) (-10000)).map Prod.fst = some (-1) := by
  decide

/-! ### The start value of bestVal -/

theorem mirror_length (s : List Char) : (mirror s).length = 42 := by
  simp [mirror]

theorem charAt_mirror (s : List Char) (i : Int) (h0 : 0 ≤ i) (h1 : i < 42) :
    charAt (mirror s) i = charAt s (mirrorIndex i) := by
  obtain ⟨n, rfl⟩ : ∃ n : Nat, i = (n : Int) := ⟨i.toNat, by omega⟩
  have hn : n < 42 := by omega
  rw [charAt_ofNat (mirror s) n (by rw [mirror_length]; exact hn)]
  simp [mirror]

theorem indicesScore_mirror (s : List Char) (aiChar humanChar : Char) (idxs : List Int)
    (hin : ∀ i ∈ idxs, 0 ≤ i ∧ i < 42) :
    indicesScore (mirror s) aiChar humanChar idxs =
      indicesScore s aiChar humanChar (idxs.map mirrorIndex) := by
  have hmap : idxs.map (charAt (mirror s)) = (idxs.map mirrorIndex).map (charAt s) := by
    rw [List.map_map]
    apply List.map_congr_left
    intro i hi
    exact charAt_mirror s i (hin i hi).1 (hin i hi).2
  unfold indicesScore
  rw [hmap]

theorem indicesScore_oriented (s : List Char) (aiChar humanChar : Char) (idxs : List Int) :
    indicesScore s aiChar humanChar (oriented idxs) = indicesScore s aiChar humanChar idxs := by
  unfold oriented
  split_ifs
  · unfold indicesScore
    simp only [List.map_reverse, List.countP_reverse]
  · rfl

theorem mirrored_windows_perm :
    (sourceWindows.map fun w => oriented ((windowIndices w).map mirrorIndex)).Perm
      (sourceWindows.map fun w => oriented (windowIndices w)) := by
  decide

theorem windowIndices_in_range :
    ∀ w ∈ sourceWindows, ∀ i ∈ windowIndices w, 0 ≤ i ∧ i < 42 := by
  decide

theorem windows_sum_mirror (s : List Char) (aiChar humanChar : Char) (hne : aiChar ≠ humanChar)
    (hlen : s.length = 42) :
    (sourceWindows.map fun w => evaluateWindow (mirror s) w.1 w.2 aiChar humanChar).sum =
      (sourceWindows.map fun w => evaluateWindow s w.1 w.2 aiChar humanChar).sum := by
  have h1 : (sourceWindows.map fun w => evaluateWindow (mirror s) w.1 w.2 aiChar humanChar) =
      (sourceWindows.map fun w => oriented ((windowIndices w).map mirrorIndex)).map
        (indicesScore s aiChar humanChar) := by
    rw [List.map_map]
    apply List.map_congr_left
    intro w hw
    rw [evaluateWindow_eq_indicesScore (mirror s) aiChar humanChar hne (mirror_length s) w hw,
      indicesScore_mirror s aiChar humanChar _ (windowIndices_in_range w hw)]
    simp only [Function.comp_apply]
    rw [indicesScore_oriented]
  have h2 : (sourceWindows.map fun w => evaluateWindow s w.1 w.2 aiChar humanChar) =
      (sourceWindows.map fun w => oriented (windowIndices w)).map
        (indicesScore s aiChar humanChar) := by
    rw [List.map_map]
    apply List.map_congr_left
    intro w hw
    rw [evaluateWindow_eq_indicesScore s aiChar humanChar hne hlen w hw]
    simp only [Function.comp_apply]
    rw [indicesScore_oriented]
  rw [h1, h2]
  exact (mirrored_windows_perm.map _).sum_eq

theorem center_mirror (s : List Char) :
    (centerCells.map fun c => charAt (mirror s) (cellIndex c)) =
      (centerCells.map fun c => charAt s (cellIndex c)) := by
  apply List.map_congr_left
  intro c hc
  have hcell : 0 ≤ cellIndex c ∧ cellIndex c < 42 ∧ mirrorIndex (cellIndex c) = cellIndex c := by
    revert c
    decide
  rw [charAt_mirror s _ hcell.1 hcell.2.1, hcell.2.2]

/-- C20: for every 42-cell state, the mirror image (the cell of column `c`
holds what the cell of column `6 - c` of the same row held) has the same
`evaluatePosition` score. -/
theorem evaluatePosition_mirror (aiPlayer : Int) (s : List Char) (hlen : s.length = 42) :
    (∀ col row : Nat, col < 7 → row < 6 →
      charAt (mirror s) ((row : Int) * 7 + (col : Int)) =
        charAt s ((row : Int) * 7 + (6 - (col : Int)))) ∧
    evaluatePosition aiPlayer (mirror s) = evaluatePosition aiPlayer s := by
  constructor
  · intro col row hc hr
    rw [charAt_mirror s _ (by omega) (by omega)]
    have e : mirrorIndex ((row : Int) * 7 + (col : Int)) = (row : Int) * 7 + (6 - (col : Int)) := by
      unfold mirrorIndex
      omega
    rw [e]
  · rw [evaluatePosition_eq_sum, evaluatePosition_eq_sum, center_mirror,
      windows_sum_mirror s _ _ (aiCharOf_ne_humanCharOf aiPlayer) hlen]

/-- The claim C20 at the board `winInThree`, which is not its own mirror
image. -/
theorem evaluatePosition_mirror_witness :
    mirror winInThree ≠ winInThree ∧
    evaluatePosition 1 (mirror winInThree) = evaluatePosition 1 winInThree :=
  ⟨by decide, (evaluatePosition_mirror 1 winInThree (by decide)).2⟩

/-! ### Alpha-beta pruning against the search without cutoff -/

theorem plain_succ (aiPlayer : Int) (fuel : Nat) (state : List Char) (depth playerColor : Int) :
    plain aiPlayer (fuel + 1) state depth playerColor =
      if evaluatePosition aiPlayer state ≥ 1000 ∨ evaluatePosition aiPlayer state ≤ -1000 then
        some (playerColor * evaluatePosition aiPlayer state)
      else if (!hasMove state) = true then some 0
      else if depth ≥ 6 then some (playerColor * evaluatePosition aiPlayer state)
      else
        plainLoop (fun st => plain aiPlayer fuel st (depth + 1) (-playerColor))
          playerColor order state (-10000) := rfl

theorem plainLoop_ge (child : List Char → Option Int) (playerColor : Int)
    (hchild : ∀ st, ∃ p, child st = some p) :
    ∀ (cols : List Int) (state : List Char) (bestVal : Int),
      ∃ p, plainLoop child playerColor cols state bestVal = some p ∧ bestVal ≤ p := by
  intro cols
  induction cols with
  | nil => intro state bestVal; exact ⟨bestVal, rfl, le_refl _⟩
  | cons col rest ih =>
    intro state bestVal
    unfold plainLoop
    by_cases hrow : getLowestEmptyRowFromState col state ≥ 0
    · rw [if_pos hrow]
      obtain ⟨p1, hp1⟩ := hchild (dropInto state col (if playerColor = 1 then '2' else '1'))
      rw [hp1]
      obtain ⟨p, hp, hle⟩ := ih state (max bestVal (-p1))
      exact ⟨p, hp, le_trans (le_max_left _ _) hle⟩
    · rw [if_neg hrow]
      exact ih state bestVal

theorem plain_total (aiPlayer : Int) :
    ∀ (fuel : Nat) (state : List Char) (depth playerColor : Int),
      1 ≤ fuel → 6 - depth < (fuel : Int) →
      ∃ p, plain aiPlayer fuel state depth playerColor = some p := by
  intro fuel
  induction fuel with
  | zero => intro state depth playerColor h; omega
  | succ fuel ih =>
    intro state depth playerColor _ hd
    rw [plain_succ]
    split_ifs with h1 h2 h3
    · exact ⟨_, rfl⟩
    · exact ⟨_, rfl⟩
    · exact ⟨_, rfl⟩
    · obtain ⟨p, hp, _⟩ := plainLoop_ge
        (fun st => plain aiPlayer fuel st (depth + 1) (-playerColor)) playerColor
        (fun st => ih st (depth + 1) (-playerColor) (by omega) (by push_cast at hd ⊢; omega))
        order state (-10000)
      exact ⟨p, hp⟩

theorem negamaxLoop_windowBound (cN : List Char → Int → Int → Option (Int × List Char))
    (cP : List Char → Option Int) (playerColor alpha beta : Int)
    (hN : ∀ st a b, ∃ r, cN st a b = some (r, st))
    (hP : ∀ st, ∃ p, cP st = some p)
    (hInv : ∀ st a b r p, a < b → cN st a b = some (r, st) → cP st = some p →
      WindowBound r p a b) :
    ∀ (cols : List Int) (state : List Char) (b a pb : Int),
      a < beta → alpha ≤ a → a ≤ max alpha b → pb ≤ b → (alpha < b → pb = b) →
      ∃ r p, negamaxLoop cN playerColor beta cols state b a = some (r, state) ∧
        plainLoop cP playerColor cols state pb = some p ∧ WindowBound r p alpha beta := by
  intro cols
  induction cols with
  | nil =>
    intro state b a pb h1 h0 h2 h3 h4
    refine ⟨b, pb, rfl, rfl, ?_, ?_, ?_⟩
    · intro _; exact h3
    · intro hb
      have : alpha < b := by omega
      rw [h4 this]
    · intro hb _; exact (h4 hb).symm
  | cons col rest ih =>
    intro state b a pb h1 h0 h2 h3 h4
    unfold negamaxLoop plainLoop
    simp only
    by_cases hrow : getLowestEmptyRowFromState col state ≥ 0
    · rw [if_pos hrow, if_pos hrow]
      have hempty := getLowestEmptyRowFromState_empty col state hrow
      obtain ⟨r1, hr1⟩ := hN (dropInto state col (if playerColor = 1 then '2' else '1'))
        (-beta) (-a)
      obtain ⟨p1, hp1⟩ := hP (dropInto state col (if playerColor = 1 then '2' else '1'))
      have hwb := hInv _ (-beta) (-a) r1 p1 (by omega) hr1 hp1
      obtain ⟨w1, w2, w3⟩ := hwb
      unfold dropInto at hr1
      rw [hr1, hp1]
      simp only
      rw [setChar_restore state _ _ hempty]
      by_cases hcut : max a (-r1) ≥ beta
      · rw [if_pos hcut]
        have hv : beta ≤ -r1 := by
          rcases max_cases a (-r1) with ⟨e, _⟩ | ⟨e, _⟩ <;> omega
        have he : -r1 ≤ -p1 := by
          have := w1 (by omega)
          omega
        obtain ⟨p, hp, hple⟩ := plainLoop_ge cP playerColor hP rest state (max pb (-p1))
        refine ⟨max b (-r1), p, rfl, hp, ?_, ?_, ?_⟩
        · intro hle
          rcases max_cases b (-r1) with ⟨e, _⟩ | ⟨e, _⟩ <;> omega
        · intro _
          have hpb : pb ≤ p := le_trans (le_max_left _ _) hple
          have hpe : -p1 ≤ p := le_trans (le_max_right _ _) hple
          rcases max_cases b (-r1) with ⟨e, hh⟩ | ⟨e, hh⟩
          · rw [e]
            have : alpha < b := by omega
            rw [← h4 this]; exact hpb
          · rw [e]; omega
        · intro _ hlt
          rcases max_cases b (-r1) with ⟨e, _⟩ | ⟨e, _⟩ <;> omega
      · rw [if_neg hcut]
        have hvlt : -r1 < beta := by
          rcases max_cases a (-r1) with ⟨e, _⟩ | ⟨e, _⟩ <;> omega
        have he : -p1 ≤ -r1 := by
          by_cases hva : -r1 ≤ a
          · have := w2 (by omega)
            omega
          · have := w3 (by omega) (by omega)
            omega
        apply ih state (max b (-r1)) (max a (-r1)) (max pb (-p1))
        · rcases max_cases a (-r1) with ⟨e, _⟩ | ⟨e, _⟩ <;> omega
        · exact le_trans h0 (le_max_left _ _)
        · rcases max_cases a (-r1) with ⟨e1, _⟩ | ⟨e1, _⟩ <;>
          rcases max_cases b (-r1) with ⟨e2, _⟩ | ⟨e2, _⟩ <;>
          rcases max_cases alpha b with ⟨e3, _⟩ | ⟨e3, _⟩ <;>
          rcases max_cases alpha (max b (-r1)) with ⟨e4, _⟩ | ⟨e4, _⟩ <;> omega
        · rcases max_cases b (-r1) with ⟨e2, _⟩ | ⟨e2, _⟩ <;>
          rcases max_cases pb (-p1) with ⟨e5, _⟩ | ⟨e5, _⟩ <;> omega
        · intro hab
          rcases max_cases b (-r1) with ⟨e2, hh⟩ | ⟨e2, hh⟩
          · rw [e2] at hab ⊢
            have := h4 hab
            rcases max_cases pb (-p1) with ⟨e5, _⟩ | ⟨e5, _⟩ <;> omega
          · rw [e2] at hab ⊢
            have hav : a < -r1 := by
              rcases max_cases alpha b with ⟨e3, _⟩ | ⟨e3, _⟩ <;> omega
            have := w3 (by omega) (by omega)
            rcases max_cases pb (-p1) with ⟨e5, _⟩ | ⟨e5, _⟩ <;> omega
    · rw [if_neg hrow, if_neg hrow]
      exact ih state b a pb h1 h0 h2 h3 h4

theorem negamax_windowBound (aiPlayer : Int) :
    ∀ (fuel : Nat) (state : List Char) (depth alpha beta playerColor : Int),
      1 ≤ fuel → 6 - depth < (fuel : Int) → alpha < beta →
      ∃ r p, negamax aiPlayer fuel state depth alpha beta playerColor = some (r, state) ∧
        plain aiPlayer fuel state depth playerColor = some p ∧ WindowBound r p alpha beta := by
  intro fuel
  induction fuel with
  | zero => intro state depth alpha beta playerColor h; omega
  | succ fuel ih =>
    intro state depth alpha beta playerColor _ hd hab
    have hsame : ∀ x : Int, WindowBound x x alpha beta :=
      fun x => ⟨fun _ => le_refl _, fun _ => le_refl _, fun _ _ => rfl⟩
    rw [negamax_succ, plain_succ]
    split_ifs with h1 h2 h3
    · exact ⟨_, _, rfl, rfl, hsame _⟩
    · exact ⟨_, _, rfl, rfl, hsame _⟩
    · exact ⟨_, _, rfl, rfl, hsame _⟩
    · have hf : 1 ≤ fuel := by omega
      have hd2 : 6 - (depth + 1) < (fuel : Int) := by push_cast at hd ⊢; omega
      apply negamaxLoop_windowBound
        (fun st a b => negamax aiPlayer fuel st (depth + 1) a b (-playerColor))
        (fun st => plain aiPlayer fuel st (depth + 1) (-playerColor)) playerColor alpha beta
        (fun st a b => negamax_total aiPlayer fuel st (depth + 1) a b (-playerColor) hf hd2)
        (fun st => plain_total aiPlayer fuel st (depth + 1) (-playerColor) hf hd2)
      · intro st a b r p hlt hr hp
        obtain ⟨r2, p2, hr2, hp2, hwb⟩ := ih st (depth + 1) a b (-playerColor) hf hd2 hlt
        rw [hr] at hr2
        rw [hp] at hp2
        have e1 : r = r2 := by simpa using hr2
        have e2 : p = p2 := by simpa using hp2
        rw [e1, e2]; exact hwb
      · exact hab
      · exact le_refl _
      · exact le_max_left _ _
      · exact le_refl _
      · intro _; rfl

/-- C19: with fuel 1 or more that exceeds `6 - depth`, `negamax` and the
search without cutoff `plain` both return, and for every window
`alpha < beta`: if the value of `plain` lies strictly inside the window,
`negamax` returns that value. So the call of `updateAI`, with the window
(-10000, 10000) at depth 0, returns the value of `plain` whenever that value
lies strictly between -10000 and 10000. -/
theorem negamax_eq_plain (aiPlayer : Int) (fuel : Nat) (state : List Char)
    (depth alpha beta sign : Int) (hfuel : 1 ≤ fuel) (hdepth : 6 - depth < (fuel : Int))
    (hab : alpha < beta) :
    ∃ p, plain aiPlayer fuel state depth sign = some p ∧
      (alpha < p → p < beta →
        negamax aiPlayer fuel state depth alpha beta sign = some (p, state)) ∧
      (7 ≤ fuel → ∀ q, plain aiPlayer fuel state 0 sign = some q → -10000 < q → q < 10000 →
        negamax aiPlayer fuel state 0 (-10000) 10000 sign = some (q, state)) := by
  obtain ⟨r, p, hr, hp, w1, w2, w3⟩ :=
    negamax_windowBound aiPlayer fuel state depth alpha beta sign hfuel hdepth hab
  refine ⟨p, hp, ?_, ?_⟩
  · intro h1 h2
    have hrp : r = p := by
      by_cases hra : r ≤ alpha
      · have := w1 hra; omega
      · by_cases hrb : beta ≤ r
        · have := w2 hrb; omega
        · exact w3 (by omega) (by omega)
    rw [hr, hrp]
  · intro h7 q hq h1 h2
    obtain ⟨r0, p0, hr0, hp0, v1, v2, v3⟩ :=
      negamax_windowBound aiPlayer fuel state 0 (-10000) 10000 sign hfuel (by omega)
        (by decide)
    rw [hq] at hp0
    have e : q = p0 := by simpa using hp0
    have hrp : r0 = p0 := by
      by_cases hra : r0 ≤ -10000
      · have := v1 hra; omega
      · by_cases hrb : 10000 ≤ r0
        · have := v2 hrb; omega
        · exact v3 (by omega) (by omega)
    rw [hr0, hrp, e]

/-- The claim C19 at the board `twoOpen`, the opponent to move: the value
without cutoff is 2000 and `negamax` returns it. -/
theorem negamax_eq_plain_witness :
    plain 1 7 twoOpen 0 (-1) = some 2000 ∧
    ∃ p, plain 1 7 twoOpen 0 (-1) = some p ∧
      (-10000 < p → p < 10000 →
        negamax 1 7 twoOpen 0 (-10000) 10000 (-1) = some (p, twoOpen)) :=
  ⟨by decide,
    let ⟨p, h1, h2, _⟩ :=
      negamax_eq_plain 1 7 twoOpen 0 (-10000) 10000 (-1) (by decide) (by decide) (by decide)
    ⟨p, h1, h2⟩⟩

/-! ### The column the move selector returns -/

theorem moveValue_eq_score (aiPlayer : Int) (fuel : Nat) (state : List Char) (col : Int)
    (hfuel : 1 ≤ fuel)
    (h : evaluatePosition aiPlayer (dropInto state col (aiCharOf aiPlayer)) ≥ 1000 ∨
      evaluatePosition aiPlayer (dropInto state col (aiCharOf aiPlayer)) ≤ -1000) :
    moveValue aiPlayer fuel state col =
      evaluatePosition aiPlayer (dropInto state col (aiCharOf aiPlayer)) := by
  unfold moveValue
  rw [negamax_terminal aiPlayer fuel _ 0 (-10000) 10000 HUMAN_PLAYER hfuel h]
  simp [HUMAN_PLAYER, -neg_neg, -neg_mul, Int.neg_neg, Int.neg_mul]

theorem updateAI_maximal (aiPlayer : Int) (fuel : Nat) (state : List Char)
    (hfuel : 7 ≤ fuel)
    (hex : ∃ c ∈ order, NotFull state c ∧ -10000 < moveValue aiPlayer fuel state c) :
    ∃ b pre post, updateAI aiPlayer fuel state = some b ∧ order = pre ++ b :: post ∧
      NotFull state b ∧
      (∀ c ∈ order, NotFull state c →
        moveValue aiPlayer fuel state c ≤ moveValue aiPlayer fuel state b) ∧
      (∀ c ∈ pre, NotFull state c →
        moveValue aiPlayer fuel state c < moveValue aiPlayer fuel state b) := by
  obtain ⟨b, hb, hcase⟩ := updateAI_spec aiPlayer fuel state hfuel
  rcases hcase with ⟨_, hall⟩ | ⟨pre, post, hsplit, hnf, _, hpre, hpost⟩
  · obtain ⟨c, hc, hcnf, hcv⟩ := hex
    have := hall c hc hcnf
    omega
  · refine ⟨b, pre, post, hb, hsplit, hnf, ?_, hpre⟩
    intro c hc hcnf
    rw [hsplit] at hc
    rcases List.mem_append.1 hc with h | h
    · exact le_of_lt (hpre c h hcnf)
    · rcases List.mem_cons.1 h with rfl | h2
      · exact le_refl _
      · exact hpost c h2 hcnf

/-- C7, amended: with fuel 7 or more `updateAI` returns, and on every board
on which some non-full column has a value above -10000 the column returned is
not full, has the greatest value among the non-full columns, and every
non-full column before it in the order 3, 2, 4, 1, 5, 0, 6 has a strictly
smaller value. The value of a column is minus what `negamax` returns on the
board with the piece of the automated player dropped there. -/
theorem updateAI_first_maximal (aiPlayer : Int) (fuel : Nat) (state : List Char)
    (hfuel : 7 ≤ fuel)
    (hex : ∃ c ∈ order, NotFull state c ∧ -10000 < moveValue aiPlayer fuel state c) :
    ∃ b pre post, updateAI aiPlayer fuel state = some b ∧ order = pre ++ b :: post ∧
      NotFull state b ∧
      (∀ c ∈ order, NotFull state c →
        moveValue aiPlayer fuel state c ≤ moveValue aiPlayer fuel state b) ∧
      (∀ c ∈ pre, NotFull state c →
        moveValue aiPlayer fuel state c < moveValue aiPlayer fuel state b) ∧
      (∀ c ∈ order, negamax aiPlayer fuel (dropInto state c (aiCharOf aiPlayer)) 0 (-10000)
          10000 HUMAN_PLAYER =
        some (-moveValue aiPlayer fuel state c, dropInto state c (aiCharOf aiPlayer))) := by
  obtain ⟨b, pre, post, hb, hsplit, hnf, hmax, hpre⟩ :=
    updateAI_maximal aiPlayer fuel state hfuel hex
  exact ⟨b, pre, post, hb, hsplit, hnf, hmax, hpre,
    fun c _ => moveValue_spec aiPlayer fuel state c hfuel⟩

/-- C8, amended: with fuel 7 or more `updateAI` returns; it returns -1 exactly
when no non-full column has a value above -10000, which is the case when
every column is full; every other result is a column index in [0, 7) that is
not full. -/
theorem updateAI_no_move_iff (aiPlayer : Int) (fuel : Nat) (state : List Char)
    (hfuel : 7 ≤ fuel) :
    ∃ b, updateAI aiPlayer fuel state = some b ∧
      (b = -1 ↔ ∀ c ∈ order, NotFull state c → moveValue aiPlayer fuel state c ≤ -10000) ∧
      ((∀ c ∈ order, ¬ NotFull state c) → b = -1) ∧
      (b ≠ -1 → 0 ≤ b ∧ b < 7 ∧ NotFull state b) := by
  obtain ⟨b, hb, hcase⟩ := updateAI_spec aiPlayer fuel state hfuel
  have hmem : ∀ x ∈ order, 0 ≤ x ∧ x < 7 := by decide
  refine ⟨b, hb, ?_, ?_, ?_⟩
  · constructor
    · intro hb1
      rcases hcase with ⟨_, hall⟩ | ⟨pre, post, hsplit, _, _, _, _⟩
      · exact hall
      · have hbm : b ∈ order := by rw [hsplit]; simp
        have := hmem b hbm
        omega
    · intro hall
      rcases hcase with ⟨hb1, _⟩ | ⟨pre, post, hsplit, hnf, hlt, _, _⟩
      · exact hb1
      · have hbm : b ∈ order := by rw [hsplit]; simp
        have := hall b hbm hnf
        omega
  · intro hfull
    rcases hcase with ⟨hb1, _⟩ | ⟨pre, post, hsplit, hnf, _, _, _⟩
    · exact hb1
    · have hbm : b ∈ order := by rw [hsplit]; simp
      exact absurd hnf (hfull b hbm)
  · intro hne
    rcases hcase with ⟨hb1, _⟩ | ⟨pre, post, hsplit, hnf, _, _, _⟩
    · exact absurd hb1 hne
    · have hbm : b ∈ order := by rw [hsplit]; simp
      exact ⟨(hmem b hbm).1, (hmem b hbm).2, hnf⟩

/-- C9, amended: with fuel 7 or more, on every board with a non-full column
`c` whose drop gives a board that the evaluator scores at 1000 or more, the
value of `c` is that score and `updateAI` returns a non-full column whose
value is at least that score, so 1000 or more. -/
theorem updateAI_takes_signalled_win (aiPlayer : Int) (fuel : Nat) (state : List Char)
    (c : Int) (hfuel : 7 ≤ fuel) (hc : c ∈ order) (hnf : NotFull state c)
    (hsig : evaluatePosition aiPlayer (dropInto state c (aiCharOf aiPlayer)) ≥ 1000) :
    ∃ b, updateAI aiPlayer fuel state = some b ∧ b ∈ order ∧ NotFull state b ∧
      moveValue aiPlayer fuel state c =
        evaluatePosition aiPlayer (dropInto state c (aiCharOf aiPlayer)) ∧
      moveValue aiPlayer fuel state c ≤ moveValue aiPlayer fuel state b ∧
      1000 ≤ moveValue aiPlayer fuel state b := by
  have hv := moveValue_eq_score aiPlayer fuel state c (by omega) (Or.inl hsig)
  obtain ⟨b, pre, post, hb, hsplit, hbnf, hmax, _⟩ :=
    updateAI_maximal aiPlayer fuel state hfuel ⟨c, hc, hnf, by omega⟩
  have hbm : b ∈ order := by rw [hsplit]; simp
  have hle := hmax c hc hnf
  exact ⟨b, hb, hbm, hbnf, hv, hle, by omega⟩

/-! ### Blocking -/

theorem order_mem_range : ∀ x ∈ order, ∃ n : Nat, n < 7 ∧ x = (n : Int) := by
  intro x hx
  simp [order] at hx
  rcases hx with rfl | rfl | rfl | rfl | rfl | rfl | rfl
  · exact ⟨3, by decide, rfl⟩
  · exact ⟨2, by decide, rfl⟩
  · exact ⟨4, by decide, rfl⟩
  · exact ⟨1, by decide, rfl⟩
  · exact ⟨5, by decide, rfl⟩
  · exact ⟨0, by decide, rfl⟩
  · exact ⟨6, by decide, rfl⟩

theorem lowestEmptyRowLoop_congr (column : Int) (s1 s2 : List Char) :
    ∀ n : Nat,
      (∀ k : Nat, k < n → charAt s1 ((k : Int) * BOARD_WIDTH + column) =
        charAt s2 ((k : Int) * BOARD_WIDTH + column)) →
      lowestEmptyRowLoop column s1 n = lowestEmptyRowLoop column s2 n := by
  intro n
  induction n with
  | zero => intro _; rfl
  | succ n ih =>
    intro h
    unfold lowestEmptyRowLoop
    rw [h n (by omega), ih (fun k hk => h k (by omega))]

theorem getLowestEmptyRowFromState_dropInto_ne (state : List Char) (c d : Nat) (piece : Char)
    (hc : c < 7) (hd : d < 7) (hne : c ≠ d) :
    getLowestEmptyRowFromState (c : Int) (dropInto state (d : Int) piece) =
      getLowestEmptyRowFromState (c : Int) state := by
  unfold getLowestEmptyRowFromState
  apply lowestEmptyRowLoop_congr
  intro k hk
  unfold dropInto
  apply charAt_setChar_ne
  unfold BOARD_WIDTH
  rcases getLowestEmptyRowFromState_spec (d : Int) state with ⟨h1, _⟩ | ⟨r, h1, hr, _, _⟩
  · rw [h1]; omega
  · rw [h1]; omega

theorem top_cell_empty (state : List Char) (c : Nat) (hc : c < 7)
    (hgrav : gravityConsistent state = true) (hnf : NotFull state (c : Int)) :
    charAt state (c : Int) = '0' := by
  have hg : ∀ row : Nat, row < 5 →
      charAt state (((row : Int) + 1) * 7 + (c : Int)) = '0' →
      charAt state ((row : Int) * 7 + (c : Int)) = '0' := by
    intro row hrow h1
    unfold gravityConsistent at hgrav
    rw [List.all_eq_true] at hgrav
    have h2 := hgrav c (List.mem_range.2 hc)
    rw [List.all_eq_true] at h2
    have h3 := h2 row (List.mem_range.2 hrow)
    simp only [Bool.or_eq_true, decide_eq_true_eq, bne_iff_ne, ne_eq] at h3
    rcases h3 with h3 | h3
    · exact h3
    · exact absurd h1 h3
  have hdown : ∀ r : Nat, r < 6 → charAt state ((r : Int) * 7 + (c : Int)) = '0' →
      charAt state ((0 : Int) * 7 + (c : Int)) = '0' := by
    intro r
    induction r with
    | zero => intro _ h; simpa [-zero_mul, Int.zero_mul] using h
    | succ r ih =>
      intro hr h
      apply ih (by omega)
      apply hg r (by omega)
      have e : ((r + 1 : Nat) : Int) = (r : Int) + 1 := by push_cast; ring
      rw [e] at h; exact h
  unfold NotFull at hnf
  rcases getLowestEmptyRowFromState_spec (c : Int) state with ⟨h1, _⟩ | ⟨r, _, hr, h3, _⟩
  · rw [h1] at hnf; omega
  · have := hdown r hr (by simpa [BOARD_WIDTH, -zero_mul, Int.zero_mul] using h3)
    simpa [-zero_mul, Int.zero_mul] using this

theorem hasMove_of_top_empty (state : List Char) (c : Nat) (hc : c < 7)
    (h : charAt state (c : Int) = '0') : hasMove state = true := by
  unfold hasMove
  rw [List.any_eq_true]
  exact ⟨c, List.mem_range.2 hc, by simp [isColumnFull, h]⟩

theorem moveValue_le_of_reply (aiPlayer : Int) (fuel : Nat) (state : List Char) (c d : Nat)
    (hai : aiPlayer ≠ 0) (hfuel : 7 ≤ fuel) (hgrav : gravityConsistent state = true)
    (hc : c < 7) (hd : d < 7) (hne : c ≠ d) (hnf : NotFull state (c : Int))
    (h1 : evaluatePosition aiPlayer (dropInto state (d : Int) (aiCharOf aiPlayer)) < 1000)
    (h2 : evaluatePosition aiPlayer
      (dropInto (dropInto state (d : Int) (aiCharOf aiPlayer)) (c : Int)
        (humanCharOf aiPlayer)) ≤ -1000) :
    moveValue aiPlayer fuel state (d : Int) ≤ -1000 := by
  obtain ⟨f, rfl⟩ : ∃ f, fuel = f + 1 := ⟨fuel - 1, by omega⟩
  have hhum : humanCharOf aiPlayer = '1' := by simp [humanCharOf, hai]
  rw [hhum] at h2
  generalize hsd : dropInto state (d : Int) (aiCharOf aiPlayer) = sd at h1 h2
  by_cases hterm : evaluatePosition aiPlayer sd ≤ -1000
  · have := moveValue_eq_score aiPlayer (f + 1) state (d : Int) (by omega)
      (Or.inr (by rw [hsd]; exact hterm))
    rw [this, hsd]; exact hterm
  · have hnfd : NotFull sd (c : Int) := by
      unfold NotFull
      rw [← hsd, getLowestEmptyRowFromState_dropInto_ne state c d _ hc hd hne]
      exact hnf
    have htop : charAt sd (c : Int) = '0' := by
      have h0 := top_cell_empty state c hc hgrav hnf
      rw [← hsd]
      unfold dropInto
      rw [charAt_setChar_ne]
      · exact h0
      · unfold BOARD_WIDTH
        rcases getLowestEmptyRowFromState_spec (d : Int) state with ⟨e, _⟩ | ⟨r, e, hr, _, _⟩
        · rw [e]; omega
        · rw [e]; omega
    have hmove := hasMove_of_top_empty sd c hc htop
    have hchild : ∀ st a b, ∃ r,
        (fun st a b => negamax aiPlayer f st ((0 : Int) + 1) a b (-HUMAN_PLAYER)) st a b =
          some (r, st) := by
      intro st a b
      exact negamax_total aiPlayer f st (0 + 1) a b (-HUMAN_PLAYER) (by omega) (by omega)
    obtain ⟨v, hv, _, hall⟩ :=
      negamaxLoop_spec _ HUMAN_PLAYER 10000 hchild order sd (-10000) (-10000)
    have hcm : (c : Int) ∈ order := by
      have : c = 0 ∨ c = 1 ∨ c = 2 ∨ c = 3 ∨ c = 4 ∨ c = 5 ∨ c = 6 := by omega
      rcases this with rfl | rfl | rfl | rfl | rfl | rfl | rfl <;> simp [order]
    have hpiece : (if HUMAN_PLAYER = 1 then '2' else '1') = '1' := by decide
    have hbound := hall (by decide) (c : Int) hcm hnfd
      (-HUMAN_PLAYER * evaluatePosition aiPlayer (dropInto sd (c : Int) '1'))
      (by
        intro a b
        rw [hpiece]
        exact negamax_terminal aiPlayer f _ (0 + 1) a b (-HUMAN_PLAYER) (by omega) (Or.inr h2))
    have hneg : negamax aiPlayer (f + 1) sd 0 (-10000) 10000 HUMAN_PLAYER = some (v, sd) := by
      rw [negamax_succ, if_neg (by omega), if_neg (by simp [hmove]), if_neg (by decide)]
      exact hv
    unfold moveValue
    rw [hsd, hneg]
    simp only [HUMAN_PLAYER] at hbound
    simp only
    omega

theorem updateAI_eq_of_others_low (aiPlayer : Int) (fuel : Nat) (state : List Char) (c : Int)
    (hfuel : 7 ≤ fuel) (hc : c ∈ order) (hnf : NotFull state c)
    (hval : -1000 < moveValue aiPlayer fuel state c)
    (hlow : ∀ d ∈ order, d ≠ c → NotFull state d → moveValue aiPlayer fuel state d ≤ -1000) :
    updateAI aiPlayer fuel state = some c := by
  obtain ⟨b, pre, post, hb, hsplit, hbnf, hmax, _⟩ :=
    updateAI_maximal aiPlayer fuel state hfuel ⟨c, hc, hnf, by omega⟩
  have hbm : b ∈ order := by rw [hsplit]; simp
  by_cases hbc : b = c
  · rw [hb, hbc]
  · have h1 := hlow b hbm hbc hbnf
    have h2 := hmax c hc hnf
    omega

/-- C10, amended: the automated player plays symbol '2' and the fuel is 7 or
more. On every gravity-consistent board with a non-full column `c`: if, for
every other non-full column `d`, the evaluator scores the board after the
drop of the automated player in `d` below 1000 and the board after the reply
of the opponent in `c` at -1000 or less, and the value of `c` is above -1000,
then `updateAI` returns `c`. -/
theorem updateAI_blocks (aiPlayer : Int) (fuel : Nat) (state : List Char) (c : Int)
    (hai : aiPlayer ≠ 0) (hfuel : 7 ≤ fuel) (hgrav : gravityConsistent state = true)
    (hc : c ∈ order) (hnf : NotFull state c)
    (hsent : ∀ d ∈ order, d ≠ c → NotFull state d →
      evaluatePosition aiPlayer (dropInto state d (aiCharOf aiPlayer)) < 1000 ∧
      evaluatePosition aiPlayer
        (dropInto (dropInto state d (aiCharOf aiPlayer)) c (humanCharOf aiPlayer)) ≤ -1000)
    (hval : -1000 < moveValue aiPlayer fuel state c) :
    updateAI aiPlayer fuel state = some c := by
  apply updateAI_eq_of_others_low aiPlayer fuel state c hfuel hc hnf hval
  intro d hd hdc hdnf
  obtain ⟨cn, hcn, rfl⟩ := order_mem_range c hc
  obtain ⟨dn, hdn, rfl⟩ := order_mem_range d hd
  obtain ⟨h1, h2⟩ := hsent (dn : Int) hd hdc hdnf
  exact moveValue_le_of_reply aiPlayer fuel state cn dn hai hfuel hgrav hcn hdn
    (by intro h; apply hdc; rw [h]) hnf h1 h2

/-! ### Bitboards against the board string -/

theorem bitAt_eq (x i : Nat) : bitAt x i = if x.testBit i then 1 else 0 := by
  unfold bitAt
  rw [Nat.shiftRight_eq_div_pow, Nat.testBit_to_div_mod]
  by_cases h : x / 2 ^ i % 2 = 1
  · simp [h]
  · have : x / 2 ^ i % 2 = 0 := by omega
    simp [this]

theorem testBit_enc (p : Char → Bool) :
    ∀ (s : List Char) (i : Nat), (enc p s).testBit i = (s[i]?.map p).getD false := by
  intro s
  induction s with
  | nil => intro i; simp [enc]
  | cons c cs ih =>
    intro i
    cases i with
    | zero =>
      unfold enc
      rw [Nat.testBit_zero]
      by_cases hp : p c = true
      · simp [hp]
      · simp [hp]
    | succ i =>
      unfold enc
      rw [Nat.testBit_succ]
      have hdiv : ((if p c = true then 1 else 0) + 2 * enc p cs) / 2 = enc p cs := by
        by_cases hp : p c = true
        · simp [hp]; omega
        · simp [hp]
      rw [hdiv, ih]
      simp

theorem testBit_enc_charAt (p : Char → Bool) (s : List Char) (i : Nat) (hi : i < s.length) :
    (enc p s).testBit i = p (charAt s (i : Int)) := by
  rw [testBit_enc, charAt_ofNat s i hi]
  simp [hi]

theorem bitAt_enc (p : Char → Bool) (s : List Char) (i : Nat) (hi : i < s.length) :
    bitAt (enc p s) i = if p (charAt s (i : Int)) then 1 else 0 := by
  rw [bitAt_eq, testBit_enc_charAt p s i hi]

theorem enc_set (p : Char → Bool) (ch : Char) :
    ∀ (s : List Char) (i : Nat) (hi : i < s.length),
      enc p (s.set i ch) + (if p s[i] then 2 ^ i else 0) =
        enc p s + (if p ch then 2 ^ i else 0) := by
  intro s
  induction s with
  | nil => intro i hi; simp at hi
  | cons c cs ih =>
    intro i hi
    cases i with
    | zero =>
      simp only [List.set_cons_zero, enc, List.getElem_cons_zero, pow_zero]
      omega
    | succ i =>
      have hi2 : i < cs.length := by simpa using hi
      have := ih i hi2
      simp only [List.set_cons_succ, enc, List.getElem_cons_succ, pow_succ]
      by_cases h1 : p cs[i] = true <;> by_cases h2 : p ch = true <;>
        simp only [h1, h2, if_true, if_false, Bool.false_eq_true] at this ⊢ <;> omega

theorem enc_setChar (p : Char → Bool) (s : List Char) (i : Nat) (ch : Char)
    (hi : i < s.length) (hold : p (charAt s (i : Int)) = false) :
    enc p (setChar s (i : Int) ch) = enc p s + (if p ch then 2 ^ i else 0) := by
  have h := enc_set p ch s i hi
  rw [charAt_ofNat s i hi] at hold
  rw [hold] at h
  unfold setChar
  rw [if_neg (by omega)]
  simpa using h

/-- For a mask of four different bits: `x` meets the mask nowhere exactly when
none of the four bits of `x` is set. -/
theorem and_mask_eq_zero (x a b c d : Nat) :
    x &&& (2 ^ a ||| 2 ^ b ||| 2 ^ c ||| 2 ^ d) = 0 ↔
      bitAt x a + bitAt x b + bitAt x c + bitAt x d = 0 := by
  constructor
  · intro h
    have hbit : ∀ j, (x.testBit j && (2 ^ a ||| 2 ^ b ||| 2 ^ c ||| 2 ^ d).testBit j) = false := by
      intro j
      rw [← Nat.testBit_and, h, Nat.zero_testBit]
    have ha := hbit a
    have hb := hbit b
    have hc := hbit c
    have hd := hbit d
    simp only [Nat.testBit_or, Nat.testBit_two_pow_self, Bool.or_true, Bool.true_or,
      Bool.and_true] at ha hb hc hd
    simp [bitAt_eq, ha, hb, hc, hd]
  · intro h
    have ha : x.testBit a = false := by
      by_contra hne
      have : bitAt x a = 1 := by rw [bitAt_eq]; simp at hne; simp [hne]
      omega
    have hb : x.testBit b = false := by
      by_contra hne
      have : bitAt x b = 1 := by rw [bitAt_eq]; simp at hne; simp [hne]
      omega
    have hc : x.testBit c = false := by
      by_contra hne
      have : bitAt x c = 1 := by rw [bitAt_eq]; simp at hne; simp [hne]
      omega
    have hd : x.testBit d = false := by
      by_contra hne
      have : bitAt x d = 1 := by rw [bitAt_eq]; simp at hne; simp [hne]
      omega
    apply Nat.eq_of_testBit_eq
    intro j
    rw [Nat.testBit_and, Nat.zero_testBit]
    simp only [Nat.testBit_or, Nat.testBit_two_pow]
    by_cases e1 : a = j
    · subst e1; simp [ha]
    · by_cases e2 : b = j
      · subst e2; simp [hb]
      · by_cases e3 : c = j
        · subst e3; simp [hc]
        · by_cases e4 : d = j
          · subst e4; simp [hd]
          · simp [e1, e2, e3, e4]

theorem cnt4_enc (p : Char → Bool) (s : List Char) (w : Int × Int) (hw : w ∈ sourceWindows)
    (hlen : s.length = 42) :
    cnt4 (enc p s) (fastWindowOf w) = (windowCells s w.1 w.2).countP p := by
  have hr := sourceWindows_in_range w hw
  have h0 := hr 0 (by decide)
  have h1 := hr 1 (by decide)
  have h2 := hr 2 (by decide)
  have h3 := hr 3 (by decide)
  simp only [Nat.cast_zero, Nat.cast_one, Nat.cast_ofNat, Int.zero_mul, Int.one_mul, Int.add_zero]
    at h0 h1 h2 h3
  have c0 : ((w.1).toNat : Int) = w.1 := by omega
  have c1 : ((w.1 + w.2).toNat : Int) = w.1 + w.2 := by omega
  have c2 : ((w.1 + 2 * w.2).toNat : Int) = w.1 + 2 * w.2 := by omega
  have c3 : ((w.1 + 3 * w.2).toNat : Int) = w.1 + 3 * w.2 := by omega
  unfold cnt4 fastWindowOf
  simp only
  rw [bitAt_enc p s _ (by omega), bitAt_enc p s _ (by omega), bitAt_enc p s _ (by omega),
    bitAt_enc p s _ (by omega), c0, c1, c2, c3]
  unfold windowCells windowCell
  simp only [List.range, List.range.loop, List.map, List.countP_cons, List.countP_nil,
    Nat.cast_zero, Nat.cast_one, Nat.cast_ofNat, Int.zero_mul, Int.one_mul, Int.add_zero, Int.zero_add]
  omega

theorem windowScore_ai (a h e : Nat) (h0 : h = 0) (htot : a + e = 4) :
    windowScore a h e =
      if a = 4 then 1000 else if a = 3 then 50 else if a = 2 then 10 else 0 := by
  unfold windowScore
  split_ifs <;> omega

theorem windowScore_hu (a h e : Nat) (a0 : a = 0) (htot : h + e = 4) :
    windowScore a h e =
      if h = 4 then -1000 else if h = 3 then -100 else if h = 2 then -10 else 0 := by
  unfold windowScore
  split_ifs <;> omega

theorem windowScore_mixed (a h e : Nat) (ha : a ≠ 0) (hh : h ≠ 0) :
    windowScore a h e = 0 := by
  unfold windowScore
  rw [if_pos (by omega)]

theorem fastWindow_eq_windowScore (ai hu : Nat) (w : FastWindow) (a h e : Nat)
    (hma : ai &&& w.1 = 0 ↔ cnt4 ai w = 0) (hmh : hu &&& w.1 = 0 ↔ cnt4 hu w = 0)
    (ha : cnt4 ai w = a) (hh : cnt4 hu w = h) (htot : a + h + e = 4) :
    fastWindow ai hu w = windowScore a h e := by
  unfold fastWindow
  rw [ha] at hma
  rw [hh] at hmh
  rw [ha, hh]
  by_cases h1 : ai &&& w.1 = 0
  · have a0 := hma.1 h1
    rw [if_pos h1]
    by_cases h2 : hu &&& w.1 = 0
    · have h0 := hmh.1 h2
      rw [if_pos h2, windowScore_ai a h e h0 (by omega), if_neg (by omega), if_neg (by omega),
        if_neg (by omega)]
    · rw [if_neg h2, windowScore_hu a h e a0 (by omega)]
  · have a0 : a ≠ 0 := fun e0 => h1 (hma.2 e0)
    rw [if_neg h1]
    by_cases h2 : hu &&& w.1 = 0
    · have h0 := hmh.1 h2
      rw [if_pos h2, windowScore_ai a h e h0 (by omega)]
    · have h0 : h ≠ 0 := fun e0 => h2 (hmh.2 e0)
      rw [if_neg h2, windowScore_mixed a h e a0 h0]

theorem and_fastWindowOf (x : Nat) (w : Int × Int) :
    x &&& (fastWindowOf w).1 = 0 ↔ cnt4 x (fastWindowOf w) = 0 := by
  unfold cnt4 fastWindowOf
  simp only
  exact and_mask_eq_zero x _ _ _ _

theorem fastWindow_eq (s : List Char) (aiChar humanChar : Char) (hne : aiChar ≠ humanChar)
    (hlen : s.length = 42) (w : Int × Int) (hw : w ∈ sourceWindows) :
    fastWindow (enc (fun c => decide (c = aiChar)) s) (enc (fun c => decide (c = humanChar)) s)
        (fastWindowOf w) =
      evaluateWindow s w.1 w.2 aiChar humanChar := by
  rw [evaluateWindow_eq_windowScore s w.1 w.2 aiChar humanChar hne
    (fun i hi => by rw [hlen]; exact sourceWindows_in_range w hw i hi)]
  exact fastWindow_eq_windowScore _ _ _ _ _ _ (and_fastWindowOf _ w) (and_fastWindowOf _ w)
    (cnt4_enc (fun c => decide (c = aiChar)) s w hw hlen)
    (cnt4_enc (fun c => decide (c = humanChar)) s w hw hlen)
    (window_counts_total s w.1 w.2 aiChar humanChar hne)

/-! ### The score after one more piece -/

theorem sum_map_filter_sub {α : Type} (P : α → Bool) (f g : α → Int) :
    ∀ l : List α, (∀ w ∈ l, P w = false → g w = f w) →
      (l.map g).sum = (l.map f).sum + ((l.filter P).map fun w => g w - f w).sum := by
  intro l
  induction l with
  | nil => intro _; simp
  | cons a rest ih =>
    intro h
    have ih2 := ih (fun w hw => h w (List.mem_cons_of_mem _ hw))
    by_cases hp : P a = true
    · simp only [List.map_cons, List.sum_cons, List.filter_cons_of_pos hp, ih2]
      ring
    · have hp2 : P a = false := by simpa using hp
      have := h a (List.mem_cons_self _ _) hp2
      simp only [List.map_cons, List.sum_cons, List.filter_cons_of_neg hp, ih2, this]
      ring

theorem setChar_length (s : List Char) (idx : Int) (ch : Char) :
    (setChar s idx ch).length = s.length := by
  unfold setChar
  split_ifs <;> simp

theorem evaluateWindow_setChar_ne (s : List Char) (idx : Int) (ch aiChar humanChar : Char)
    (hne : aiChar ≠ humanChar) (hlen : s.length = 42) (w : Int × Int) (hw : w ∈ sourceWindows)
    (hnot : decide (idx ∈ windowIndices w) = false) :
    evaluateWindow (setChar s idx ch) w.1 w.2 aiChar humanChar =
      evaluateWindow s w.1 w.2 aiChar humanChar := by
  rw [evaluateWindow_eq_indicesScore (setChar s idx ch) aiChar humanChar hne
      (by rw [setChar_length]; exact hlen) w hw,
    evaluateWindow_eq_indicesScore s aiChar humanChar hne hlen w hw]
  have hmap : (windowIndices w).map (charAt (setChar s idx ch)) =
      (windowIndices w).map (charAt s) := by
    apply List.map_congr_left
    intro i hi
    apply charAt_setChar_ne
    intro e
    rw [e] at hnot
    simp [hi] at hnot
  unfold indicesScore
  rw [hmap]

theorem windows_sum_setChar (s : List Char) (idx : Int) (ch aiChar humanChar : Char)
    (hne : aiChar ≠ humanChar) (hlen : s.length = 42) :
    (sourceWindows.map fun w =>
        evaluateWindow (setChar s idx ch) w.1 w.2 aiChar humanChar).sum =
      (sourceWindows.map fun w => evaluateWindow s w.1 w.2 aiChar humanChar).sum +
        ((windowsThrough idx).map fun w =>
          evaluateWindow (setChar s idx ch) w.1 w.2 aiChar humanChar -
            evaluateWindow s w.1 w.2 aiChar humanChar).sum := by
  unfold windowsThrough
  exact sum_map_filter_sub (fun w => decide (idx ∈ windowIndices w))
    (fun w => evaluateWindow s w.1 w.2 aiChar humanChar)
    (fun w => evaluateWindow (setChar s idx ch) w.1 w.2 aiChar humanChar) sourceWindows
    (fun w hw hnot => evaluateWindow_setChar_ne s idx ch aiChar humanChar hne hlen w hw hnot)

theorem evaluatePosition_eq_center_add (aiPlayer : Int) (s : List Char) :
    evaluatePosition aiPlayer s =
      centerTerm (aiCharOf aiPlayer) (humanCharOf aiPlayer) s +
      (sourceWindows.map fun w =>
        evaluateWindow s w.1 w.2 (aiCharOf aiPlayer) (humanCharOf aiPlayer)).sum := by
  rw [evaluatePosition_eq_sum]
  rfl

theorem centerTerm_setChar (aiChar humanChar : Char) (s : List Char) (r c : Nat) (ch : Char)
    (hr : r < 6) (hc : c < 7) (hlen : s.length = 42) (hne : aiChar ≠ humanChar)
    (ha : aiChar ≠ '0') (hh : humanChar ≠ '0')
    (hold : charAt s ((r : Int) * 7 + (c : Int)) = '0') :
    centerTerm aiChar humanChar (setChar s ((r : Int) * 7 + (c : Int)) ch) =
      centerTerm aiChar humanChar s +
        (if c = 3 then (if ch = aiChar then 6 else if ch = humanChar then -6 else 0) else 0) := by
  have hread : ∀ r2 : Nat, r2 < 6 →
      charAt (setChar s ((r : Int) * 7 + (c : Int)) ch) ((r2 : Int) * 7 + 3) =
        if r2 = r ∧ c = 3 then ch else charAt s ((r2 : Int) * 7 + 3) := by
    intro r2 hr2
    by_cases hsame : r2 = r ∧ c = 3
    · obtain ⟨rfl, rfl⟩ := hsame
      rw [if_pos ⟨rfl, rfl⟩]
      have := charAt_setChar_self s ((r2 : Int) * 7 + ((3 : Nat) : Int)) ch (by omega)
        (by omega)
      simpa [-zero_mul, Int.zero_mul] using this
    · rw [if_neg hsame]
      apply charAt_setChar_ne
      omega
  have hold3 : c = 3 → charAt s ((r : Int) * 7 + 3) = '0' := by
    intro e; subst e; simpa [-zero_mul, Int.zero_mul] using hold
  unfold centerTerm centerCells cellIndex
  simp only [List.range, List.range.loop, List.map, List.countP_cons, List.countP_nil,
    Nat.cast_zero, Nat.cast_one, Nat.cast_ofNat, Int.zero_mul, Int.zero_add, Nat.cast_add]
  have h0 := hread 0 (by decide)
  have h1 := hread 1 (by decide)
  have h2 := hread 2 (by decide)
  have h3 := hread 3 (by decide)
  have h4 := hread 4 (by decide)
  have h5 := hread 5 (by decide)
  simp only [Nat.cast_zero, Nat.cast_one, Nat.cast_ofNat, Int.zero_mul, Int.zero_add, Int.one_mul]
    at h0 h1 h2 h3 h4 h5
  norm_num at h0 h1 h2 h3 h4 h5 ⊢
  rw [h0, h1, h2, h3, h4, h5]
  by_cases hc3 : c = 3
  · have hz := hold3 hc3
    have r6 : r = 0 ∨ r = 1 ∨ r = 2 ∨ r = 3 ∨ r = 4 ∨ r = 5 := by omega
    rcases r6 with rfl | rfl | rfl | rfl | rfl | rfl <;>
      norm_num at hz <;>
      simp [hc3, hz, ha.symm, hh.symm, -zero_mul, Int.zero_mul] <;>
      by_cases e1 : ch = aiChar <;> by_cases e2 : ch = humanChar <;>
      simp [e1, e2, hne, Ne.symm hne, -zero_mul, Int.zero_mul] <;> ring
  · simp [hc3, -zero_mul, Int.zero_mul]

/-! ### One drop on the bitboards -/

theorem throughTable_fin :
    ∀ r : Fin 6, ∀ c : Fin 7,
      (throughTable.getD r.val []).getD c.val [] =
        (windowsThrough ((r.val : Int) * 7 + (c.val : Int))).map fastWindowOf := by
  decide!

theorem throughTable_getD (r : Nat) (hr : r < 6) (c : Nat) (hc : c < 7) :
    (throughTable.getD r []).getD c [] =
      (windowsThrough ((r : Int) * 7 + (c : Int))).map fastWindowOf :=
  throughTable_fin ⟨r, hr⟩ ⟨c, hc⟩

theorem aiCharOf_ne_zero (aiPlayer : Int) : aiCharOf aiPlayer ≠ '0' := by
  unfold aiCharOf
  by_cases h : aiPlayer = 0 <;> simp [h]

theorem humanCharOf_ne_zero (aiPlayer : Int) : humanCharOf aiPlayer ≠ '0' := by
  unfold humanCharOf
  by_cases h : aiPlayer = 0 <;> simp [h]

theorem bitAt_occ_eq_zero (s : List Char) (i : Nat) (hi : i < s.length) :
    bitAt (enc (fun c => c != '0') s) i = 0 ↔ charAt s (i : Int) = '0' := by
  rw [bitAt_enc _ s i hi]
  by_cases h : charAt s (i : Int) = '0'
  · simp [h]
  · simp [h]

theorem lowestFast_spec (s : List Char) (c : Nat) (hc : c < 7) (hlen : s.length = 42) :
    ∀ n : Nat, n ≤ 6 →
      (lowestFast (enc (fun c => c != '0') s) c n = none ∧
        lowestEmptyRowLoop (c : Int) s n = -1) ∨
      (∃ r : Nat, r < n ∧ lowestFast (enc (fun c => c != '0') s) c n = some r ∧
        lowestEmptyRowLoop (c : Int) s n = (r : Int)) := by
  intro n
  induction n with
  | zero => intro _; left; exact ⟨rfl, rfl⟩
  | succ n ih =>
    intro hn
    unfold lowestFast lowestEmptyRowLoop
    have hbit := bitAt_occ_eq_zero s (n * 7 + c) (by omega)
    have hcast : ((n * 7 + c : Nat) : Int) = (n : Int) * BOARD_WIDTH + (c : Int) := by
      unfold BOARD_WIDTH; push_cast; ring
    rw [hcast] at hbit
    by_cases h : charAt s ((n : Int) * BOARD_WIDTH + (c : Int)) = '0'
    · right
      exact ⟨n, by omega, by rw [if_pos (hbit.2 h)], by rw [if_pos h]⟩
    · rw [if_neg (fun e => h (hbit.1 e)), if_neg h]
      rcases ih (by omega) with h1 | ⟨r, hr, h1, h2⟩
      · left; exact h1
      · right; exact ⟨r, by omega, h1, h2⟩

theorem hasMoveFast_eq (s : List Char) (hlen : s.length = 42) :
    hasMoveFast (enc (fun c => c != '0') s) = hasMove s := by
  unfold hasMoveFast hasMove
  rw [Bool.eq_iff_iff, List.any_eq_true, List.any_eq_true]
  have key : ∀ c : Nat, c ∈ List.range 7 →
      ((bitAt (enc (fun c => c != '0') s) c == 0) = true ↔
        (!isColumnFull (c : Int) s) = true) := by
    intro c hc
    have hc7 : c < 7 := List.mem_range.1 hc
    have hbit := bitAt_occ_eq_zero s c (by omega)
    unfold isColumnFull
    by_cases h : charAt s (c : Int) = '0'
    · simp [h, hbit.2 h]
    · have : bitAt (enc (fun c => c != '0') s) c ≠ 0 := fun e => h (hbit.1 e)
      simp [h, this]
  constructor
  · rintro ⟨c, hc, h⟩
    exact ⟨c, hc, (key c hc).1 h⟩
  · rintro ⟨c, hc, h⟩
    exact ⟨c, hc, (key c hc).2 h⟩

theorem fastDelta_eq (ai hu ai2 hu2 : Nat) (ws : List FastWindow) :
    fastDelta ai hu ai2 hu2 ws =
      (ws.map fun w => fastWindow ai2 hu2 w - fastWindow ai hu w).sum := by
  unfold fastDelta
  rw [foldl_add_eq_sum]
  simp

theorem fastDrop_spec (aiPlayer : Int) (s : List Char) (ai hu occ : Nat) (score : Int)
    (toAi : Bool) (c : Nat) (hc : c < 7) (piece : Char)
    (hpiece : piece = if toAi then aiCharOf aiPlayer else humanCharOf aiPlayer)
    (hrep : Represents aiPlayer s ai hu occ score) :
    (fastDrop toAi ai hu occ score c = none → ¬ NotFull s (c : Int)) ∧
    (∀ a h o sc, fastDrop toAi ai hu occ score c = some (a, h, o, sc) →
      NotFull s (c : Int) ∧ Represents aiPlayer (dropInto s (c : Int) piece) a h o sc) := by
  obtain ⟨hlen, hai, hhu, hocc, hscore⟩ := hrep
  have hne := aiCharOf_ne_humanCharOf aiPlayer
  have ha0 := aiCharOf_ne_zero aiPlayer
  have hh0 := humanCharOf_ne_zero aiPlayer
  unfold fastDrop NotFull getLowestEmptyRowFromState
  rcases lowestFast_spec s c hc hlen 6 (le_refl _) with ⟨h1, h2⟩ | ⟨r, hr, h1, h2⟩
  · rw [hocc, h1, h2]
    exact ⟨fun _ => by omega, fun a h o sc e => by simp at e⟩
  · rw [hocc, h1, h2]
    refine ⟨fun e => by simp at e, ?_⟩
    intro a h o sc e
    simp only [Option.some.injEq, Prod.mk.injEq] at e
    obtain ⟨ea, eh, eo, esc⟩ := e
    refine ⟨by omega, ?_⟩
    have hidx : (r : Int) * BOARD_WIDTH + (c : Int) = ((r * 7 + c : Nat) : Int) := by
      unfold BOARD_WIDTH; push_cast; ring
    have hempty : charAt s ((r * 7 + c : Nat) : Int) = '0' := by
      have := getLowestEmptyRowFromState_empty (c : Int) s
        (by unfold getLowestEmptyRowFromState; rw [h2]; omega)
      unfold getLowestEmptyRowFromState at this
      rw [h2, hidx] at this
      exact this
    have hdrop : dropInto s (c : Int) piece = setChar s ((r * 7 + c : Nat) : Int) piece := by
      unfold dropInto getLowestEmptyRowFromState
      rw [h2, hidx]
    have hlt : r * 7 + c < s.length := by omega
    have hlen2 : (setChar s ((r * 7 + c : Nat) : Int) piece).length = 42 := by
      rw [setChar_length]; exact hlen
    have hpa : piece = aiCharOf aiPlayer ↔ toAi = true := by
      rw [hpiece]
      cases toAi with
      | true => simp
      | false => simp; exact fun e => hne e.symm
    have hph : piece = humanCharOf aiPlayer ↔ toAi = false := by
      rw [hpiece]
      cases toAi with
      | true => simp; exact hne
      | false => simp
    have hp0 : piece ≠ '0' := by
      rw [hpiece]
      cases toAi with
      | true => simpa using ha0
      | false => simpa using hh0
    have e1 : enc (fun c => decide (c = aiCharOf aiPlayer)) (setChar s ((r * 7 + c : Nat) : Int)
        piece) = a := by
      rw [enc_setChar _ s _ piece hlt (by rw [hempty]; simpa using ha0.symm), ← ea, ← hai]
      cases toAi with
      | true => simp [hpa.2 rfl]
      | false =>
        have : ¬ piece = aiCharOf aiPlayer := fun e => by simpa using hpa.1 e
        simp [this]
    have e2 : enc (fun c => decide (c = humanCharOf aiPlayer))
        (setChar s ((r * 7 + c : Nat) : Int) piece) = h := by
      rw [enc_setChar _ s _ piece hlt (by rw [hempty]; simpa using hh0.symm), ← eh, ← hhu]
      cases toAi with
      | true =>
        have : ¬ piece = humanCharOf aiPlayer := fun e => by simpa using hph.1 e
        simp [this]
      | false => simp [hph.2 rfl]
    have e3 : enc (fun c => c != '0') (setChar s ((r * 7 + c : Nat) : Int) piece) = o := by
      rw [enc_setChar _ s _ piece hlt (by rw [hempty]; simp), ← eo, ← hocc]
      simp [hp0]
    rw [hdrop]
    refine ⟨hlen2, e1.symm, e2.symm, e3.symm, ?_⟩
    rw [← esc, evaluatePosition_eq_center_add aiPlayer (setChar _ _ _),
      windows_sum_setChar s _ piece _ _ hne hlen, hscore,
      evaluatePosition_eq_center_add aiPlayer s]
    have hcen := centerTerm_setChar (aiCharOf aiPlayer) (humanCharOf aiPlayer) s r c piece
      (by omega) hc hlen hne ha0 hh0 (by
        have : (r : Int) * 7 + (c : Int) = ((r * 7 + c : Nat) : Int) := by push_cast; ring
        rw [this]; exact hempty)
    have hcast : (r : Int) * 7 + (c : Int) = ((r * 7 + c : Nat) : Int) := by push_cast; ring
    rw [hcast] at hcen
    rw [hcen, throughTable_getD r (by omega) c hc, fastDelta_eq, List.map_map, hcast]
    have hcenter : (if c = 3 then
        (if piece = aiCharOf aiPlayer then (6 : Int)
          else if piece = humanCharOf aiPlayer then -6 else 0) else 0) =
        (if c = 3 then (if toAi = true then (6 : Int) else -6) else 0) := by
      cases toAi with
      | true => simp [hpa.2 rfl]
      | false =>
        have : ¬ piece = aiCharOf aiPlayer := fun e => by simpa using hpa.1 e
        simp [this, hph.2 rfl, hne.symm]
    rw [hcenter]
    have hsum : ((windowsThrough ((r * 7 + c : Nat) : Int)).map
        ((fun w => fastWindow (if toAi = true then ai + 2 ^ (r * 7 + c) else ai)
            (if toAi = true then hu else hu + 2 ^ (r * 7 + c)) w - fastWindow ai hu w) ∘
          fastWindowOf)).sum =
        ((windowsThrough ((r * 7 + c : Nat) : Int)).map fun w =>
          evaluateWindow (setChar s ((r * 7 + c : Nat) : Int) piece) w.1 w.2
              (aiCharOf aiPlayer) (humanCharOf aiPlayer) -
            evaluateWindow s w.1 w.2 (aiCharOf aiPlayer) (humanCharOf aiPlayer)).sum := by
      congr 1
      apply List.map_congr_left
      intro w hw
      have hws : w ∈ sourceWindows := by
        unfold windowsThrough at hw
        exact (List.mem_filter.1 hw).1
      simp only [Function.comp_apply]
      rw [ea, eh, ← e1, ← e2, hai, hhu,
        fastWindow_eq _ _ _ hne hlen2 w hws, fastWindow_eq _ _ _ hne hlen w hws]
    rw [hsum]
    ring

/-! ### The written-out drop against the bitboard drop -/

theorem dropCol0_eq (toAi : Bool) (ai hu occ pos neg : Nat) :
    dropCol0 toAi ai hu occ pos neg = dropRows toAi ai hu occ pos neg 0 6 := rfl

theorem dropCol1_eq (toAi : Bool) (ai hu occ pos neg : Nat) :
    dropCol1 toAi ai hu occ pos neg = dropRows toAi ai hu occ pos neg 1 6 := rfl

theorem dropCol2_eq (toAi : Bool) (ai hu occ pos neg : Nat) :
    dropCol2 toAi ai hu occ pos neg = dropRows toAi ai hu occ pos neg 2 6 := rfl

theorem dropCol3_eq (toAi : Bool) (ai hu occ pos neg : Nat) :
    dropCol3 toAi ai hu occ pos neg = dropRows toAi ai hu occ pos neg 3 6 := rfl

theorem dropCol4_eq (toAi : Bool) (ai hu occ pos neg : Nat) :
    dropCol4 toAi ai hu occ pos neg = dropRows toAi ai hu occ pos neg 4 6 := rfl

theorem dropCol5_eq (toAi : Bool) (ai hu occ pos neg : Nat) :
    dropCol5 toAi ai hu occ pos neg = dropRows toAi ai hu occ pos neg 5 6 := rfl

theorem dropCol6_eq (toAi : Bool) (ai hu occ pos neg : Nat) :
    dropCol6 toAi ai hu occ pos neg = dropRows toAi ai hu occ pos neg 6 6 := rfl

@[simp] theorem sel_true {α : Type} (x y : α) : sel true x y = x := rfl

@[simp] theorem sel_false {α : Type} (x y : α) : sel false x y = y := rfl

theorem sel_beq {α : Type} (x n : Nat) (a b : α) :
    sel (Nat.beq x n) a b = if x = n then a else b := by
  by_cases h : x = n
  · rw [if_pos h, h, Nat.beq_refl]
    rfl
  · rw [if_neg h]
    have : Nat.beq x n = false := by
      cases hb : Nat.beq x n with
      | false => rfl
      | true => exact absurd (Nat.eq_of_beq_eq_true hb) h
    rw [this]
    rfl

theorem sel_ble {α : Type} (x n : Nat) (a b : α) :
    sel (Nat.ble x n) a b = if x ≤ n then a else b := by
  by_cases h : x ≤ n
  · rw [if_pos h, Nat.ble_eq_true_of_le h]
    rfl
  · rw [if_neg h]
    have : Nat.ble x n = false := by
      cases hb : Nat.ble x n with
      | false => rfl
      | true => exact absurd (Nat.le_of_ble_eq_true hb) h
    rw [this]
    rfl

theorem rawBit_eq (x i : Nat) : rawBit x i = bitAt x i := rfl

theorem rawCount_eq (x : Nat) (w : FastWindow) :
    rawCount x w.2.1 w.2.2.1 w.2.2.2.1 w.2.2.2.2 = cnt4 x w := rfl

theorem windowBiased_eq (ai hu : Nat) (w : FastWindow) :
    ((windowBiased ai hu w.1 w.2.1 w.2.2.1 w.2.2.2.1 w.2.2.2.2 : Nat) : Int) =
      fastWindow ai hu w + 1000 := by
  unfold windowBiased fastWindow oppBiased favBiased
  rw [rawCount_eq, rawCount_eq]
  simp only [sel_beq]
  have e1 : Nat.land ai w.1 = ai &&& w.1 := rfl
  have e2 : Nat.land hu w.1 = hu &&& w.1 := rfl
  rw [e1, e2]
  by_cases h1 : ai &&& w.1 = 0
  · rw [if_pos h1, if_pos h1]
    by_cases h2 : hu &&& w.1 = 0
    · rw [if_pos h2, if_pos h2]
      rfl
    · rw [if_neg h2, if_neg h2]
      by_cases c4 : cnt4 hu w = 4
      · rw [if_pos c4, if_pos c4]; rfl
      · rw [if_neg c4, if_neg c4]
        by_cases c3 : cnt4 hu w = 3
        · rw [if_pos c3, if_pos c3]; rfl
        · rw [if_neg c3, if_neg c3]
          by_cases c2 : cnt4 hu w = 2
          · rw [if_pos c2, if_pos c2]; rfl
          · rw [if_neg c2, if_neg c2]; rfl
  · rw [if_neg h1, if_neg h1]
    by_cases h2 : hu &&& w.1 = 0
    · rw [if_pos h2, if_pos h2]
      by_cases c4 : cnt4 ai w = 4
      · rw [if_pos c4, if_pos c4]; rfl
      · rw [if_neg c4, if_neg c4]
        by_cases c3 : cnt4 ai w = 3
        · rw [if_pos c3, if_pos c3]; rfl
        · rw [if_neg c3, if_neg c3]
          by_cases c2 : cnt4 ai w = 2
          · rw [if_pos c2, if_pos c2]; rfl
          · rw [if_neg c2, if_neg c2]; rfl
    · rw [if_neg h2, if_neg h2]
      rfl

theorem sumBiased_sub (ai hu ai2 hu2 : Nat) (ws : List FastWindow) :
    ((sumBiased ai2 hu2 ws : Nat) : Int) - ((sumBiased ai hu ws : Nat) : Int) =
      fastDelta ai hu ai2 hu2 ws := by
  rw [fastDelta_eq]
  induction ws with
  | nil => rfl
  | cons w ws ih =>
    unfold sumBiased
    have e : ∀ a b : Nat, Nat.add a b = a + b := fun _ _ => rfl
    rw [e, e, List.map_cons, List.sum_cons, ← ih]
    push_cast
    rw [windowBiased_eq, windowBiased_eq]
    ring

theorem dropRows_eq (toAi : Bool) (ai hu occ pos neg c : Nat) :
    ∀ n : Nat, dropRows toAi ai hu occ pos neg c n =
      (lowestFast occ c n).map fun r =>
        placePiece toAi ai hu occ pos neg (2 ^ (r * 7 + c)) (if c = 3 then 6 else 0)
          (fun a h => sumBiased a h ((throughTable.getD r []).getD c [])) := by
  intro n
  induction n with
  | zero => rfl
  | succ n ih =>
    unfold dropRows lowestFast
    rw [sel_beq, rawBit_eq, ih]
    by_cases h : bitAt occ (n * 7 + c) = 0
    · rw [if_pos h, if_pos h]; rfl
    · rw [if_neg h, if_neg h]

theorem dropRows_refines (toAi : Bool) (ai hu occ pos neg c : Nat) :
    (fastDrop toAi ai hu occ ((pos : Int) - (neg : Int)) c = none →
      dropRows toAi ai hu occ pos neg c 6 = none) ∧
    (∀ a h o sc, fastDrop toAi ai hu occ ((pos : Int) - (neg : Int)) c = some (a, h, o, sc) →
      ∃ st, dropRows toAi ai hu occ pos neg c 6 = some st ∧ st.ai = a ∧ st.hu = h ∧
        st.occ = o ∧ ((st.pos : Int) - (st.neg : Int)) = sc) := by
  rw [dropRows_eq]
  unfold fastDrop
  cases hl : lowestFast occ c 6 with
  | none => exact ⟨fun _ => rfl, fun a h o sc e => by simp at e⟩
  | some r =>
    refine ⟨fun e => by simp at e, ?_⟩
    intro a h o sc e
    simp only [Option.some.injEq, Prod.mk.injEq] at e
    obtain ⟨ea, eh, eo, esc⟩ := e
    refine ⟨_, rfl, ?_⟩
    have e : ∀ a b : Nat, Nat.add a b = a + b := fun _ _ => rfl
    cases toAi with
    | true =>
      simp only [if_true] at ea eh esc
      refine ⟨ea, eh, eo, ?_⟩
      rw [← esc, ← sumBiased_sub ai hu (ai + 2 ^ (r * 7 + c)) hu]
      show (((Nat.add (Nat.add pos (if c = 3 then 6 else 0))
          (sumBiased (Nat.add ai (2 ^ (r * 7 + c))) hu ((throughTable.getD r []).getD c [])) :
            Nat) : Int) -
        ((Nat.add neg (sumBiased ai hu ((throughTable.getD r []).getD c [])) : Nat) : Int)) = _
      rw [e, e, e, e]
      push_cast
      by_cases h3 : c = 3
      · simp only [h3, if_true]; ring
      · simp only [h3, if_false]; ring
    | false =>
      simp only [Bool.false_eq_true, if_false] at ea eh esc
      refine ⟨ea, eh, eo, ?_⟩
      rw [← esc, ← sumBiased_sub ai hu ai (hu + 2 ^ (r * 7 + c))]
      show (((Nat.add pos
          (sumBiased ai (Nat.add hu (2 ^ (r * 7 + c))) ((throughTable.getD r []).getD c [])) :
            Nat) : Int) -
        ((Nat.add (Nat.add neg (if c = 3 then 6 else 0))
          (sumBiased ai hu ((throughTable.getD r []).getD c [])) : Nat) : Int)) = _
      rw [e, e, e, e]
      push_cast
      by_cases h3 : c = 3
      · simp only [h3, if_true]; ring
      · simp only [h3, if_false]; ring

theorem dropRows_spec (aiPlayer : Int) (s : List Char) (st : BitState) (toAi : Bool) (c : Nat)
    (hc : c < 7) (piece : Char)
    (hpiece : piece = if toAi then aiCharOf aiPlayer else humanCharOf aiPlayer)
    (hrep : RepresentsState aiPlayer s st) :
    (dropRows toAi st.ai st.hu st.occ st.pos st.neg c 6 = none → ¬ NotFull s (c : Int)) ∧
    (∀ st2, dropRows toAi st.ai st.hu st.occ st.pos st.neg c 6 = some st2 →
      NotFull s (c : Int) ∧ RepresentsState aiPlayer (dropInto s (c : Int) piece) st2) := by
  have hspec := fastDrop_spec aiPlayer s st.ai st.hu st.occ _ toAi c hc piece hpiece hrep
  have href := dropRows_refines toAi st.ai st.hu st.occ st.pos st.neg c
  cases hd : fastDrop toAi st.ai st.hu st.occ ((st.pos : Int) - (st.neg : Int)) c with
  | none =>
    have hnone := href.1 hd
    refine ⟨fun _ => hspec.1 hd, ?_⟩
    intro st2 e
    rw [hnone] at e
    simp at e
  | some q =>
    obtain ⟨a, h, o, sc⟩ := q
    obtain ⟨st3, e3, ea, eh, eo, esc⟩ := href.2 a h o sc hd
    obtain ⟨hnf, hrep2⟩ := hspec.2 a h o sc hd
    refine ⟨fun e => by rw [e3] at e; simp at e, ?_⟩
    intro st2 e
    rw [e3] at e
    simp only [Option.some.injEq] at e
    subst e
    refine ⟨hnf, ?_⟩
    unfold RepresentsState
    rw [ea, eh, eo, esc]
    exact hrep2

/-! ### Soundness of the certificate check -/

theorem plainLoop_mono (child : List Char → Option Int) (playerColor : Int) :
    ∀ (cols : List Int) (state : List Char) (bestVal p : Int),
      plainLoop child playerColor cols state bestVal = some p → bestVal ≤ p := by
  intro cols
  induction cols with
  | nil =>
    intro state bestVal p h
    unfold plainLoop at h
    simp only [Option.some.injEq] at h
    omega
  | cons col rest ih =>
    intro state bestVal p h
    unfold plainLoop at h
    by_cases hrow : getLowestEmptyRowFromState col state ≥ 0
    · rw [if_pos hrow] at h
      cases hch : child (dropInto state col (if playerColor = 1 then '2' else '1')) with
      | none => rw [hch] at h; simp at h
      | some r =>
        rw [hch] at h
        have := ih state _ p h
        omega
    · rw [if_neg hrow] at h
      exact ih state bestVal p h

theorem plainLoop_lower (child : List Char → Option Int) (playerColor : Int) :
    ∀ (cols : List Int) (state : List Char) (bestVal p : Int) (col : Int),
      plainLoop child playerColor cols state bestVal = some p → col ∈ cols →
      getLowestEmptyRowFromState col state ≥ 0 →
      ∃ r, child (dropInto state col (if playerColor = 1 then '2' else '1')) = some r ∧
        -r ≤ p := by
  intro cols
  induction cols with
  | nil => intro state bestVal p col _ hmem; simp at hmem
  | cons c rest ih =>
    intro state bestVal p col h hmem hfree
    unfold plainLoop at h
    by_cases hrow : getLowestEmptyRowFromState c state ≥ 0
    · rw [if_pos hrow] at h
      cases hch : child (dropInto state c (if playerColor = 1 then '2' else '1')) with
      | none => rw [hch] at h; simp at h
      | some r =>
        rw [hch] at h
        rcases List.mem_cons.1 hmem with e | hin
        · subst e
          refine ⟨r, hch, ?_⟩
          have := plainLoop_mono child playerColor rest state _ p h
          omega
        · exact ih state _ p col h hin hfree
    · rw [if_neg hrow] at h
      rcases List.mem_cons.1 hmem with e | hin
      · subst e; exact absurd hfree hrow
      · exact ih state bestVal p col h hin hfree

theorem plainLoop_upper (child : List Char → Option Int) (playerColor : Int) (bound : Int) :
    ∀ (cols : List Int) (state : List Char) (bestVal p : Int),
      plainLoop child playerColor cols state bestVal = some p → bestVal ≤ bound →
      (∀ col ∈ cols, getLowestEmptyRowFromState col state ≥ 0 →
        ∀ r, child (dropInto state col (if playerColor = 1 then '2' else '1')) = some r →
          -r ≤ bound) →
      p ≤ bound := by
  intro cols
  induction cols with
  | nil =>
    intro state bestVal p h hb _
    unfold plainLoop at h
    simp only [Option.some.injEq] at h
    omega
  | cons c rest ih =>
    intro state bestVal p h hb hall
    unfold plainLoop at h
    by_cases hrow : getLowestEmptyRowFromState c state ≥ 0
    · rw [if_pos hrow] at h
      cases hch : child (dropInto state c (if playerColor = 1 then '2' else '1')) with
      | none => rw [hch] at h; simp at h
      | some r =>
        rw [hch] at h
        have hr := hall c (List.mem_cons_self _ _) hrow r hch
        exact ih state _ p h (by omega)
          (fun col hcol => hall col (List.mem_cons_of_mem _ hcol))
    · rw [if_neg hrow] at h
      exact ih state bestVal p h hb (fun col hcol => hall col (List.mem_cons_of_mem _ hcol))

theorem signOf_not (sign : Bool) : signOf (!sign) = -signOf sign := by
  cases sign <;> rfl

theorem signOf_mul (sign : Bool) (score : Int) :
    signOf sign * score = if sign = true then score else -score := by
  cases sign with
  | true => exact Int.one_mul score
  | false =>
    show (-1 : Int) * score = -score
    rw [Int.neg_mul, Int.one_mul]

theorem order_eq_cast : order = ([3, 2, 4, 1, 5, 0, 6] : List Nat).map fun (c : Nat) => (c : Int) := by
  unfold order
  simp


theorem piece_of_sign (aiPlayer : Int) (sign : Bool) :
    (if signOf sign = 1 then '2' else '1') =
      if (sign == decide (aiPlayer ≠ 0)) = true then aiCharOf aiPlayer
      else humanCharOf aiPlayer := by
  unfold signOf aiCharOf humanCharOf
  by_cases h : aiPlayer = 0 <;> cases sign <;> simp [h]

theorem dropAt_eq (toAi : Bool) (ai hu occ pos neg c : Nat) :
    dropAt toAi ai hu occ pos neg c =
      if c < 7 then dropRows toAi ai hu occ pos neg c 6 else none := by
  unfold dropAt
  simp only [sel_beq, dropCol0_eq, dropCol1_eq, dropCol2_eq, dropCol3_eq, dropCol4_eq,
    dropCol5_eq, dropCol6_eq]
  by_cases h3 : c = 3
  · subst h3; rfl
  by_cases h2 : c = 2
  · subst h2; rfl
  by_cases h4 : c = 4
  · subst h4; rfl
  by_cases h1 : c = 1
  · subst h1; rfl
  by_cases h5 : c = 5
  · subst h5; rfl
  by_cases h0 : c = 0
  · subst h0; rfl
  by_cases h6 : c = 6
  · subst h6; rfl
  rw [if_neg h3, if_neg h2, if_neg h4, if_neg h1, if_neg h5, if_neg h0, if_neg h6,
    if_neg (by omega)]

theorem hasMoveFast_mod (occ : Nat) :
    hasMoveFast occ = !(Nat.beq (Nat.mod occ 128) 127) := by
  have e : Nat.mod occ 128 = occ % 128 := rfl
  rw [e]
  unfold hasMoveFast bitAt
  simp only [List.range, List.range.loop, List.any, Nat.shiftRight_eq_div_pow]
  by_cases h : occ % 128 = 127
  · have hb : Nat.beq (occ % 128) 127 = true := by rw [h]; rfl
    rw [hb]
    simp
    omega
  · have hb : Nat.beq (occ % 128) 127 = false := by
      cases hx : Nat.beq (occ % 128) 127 with
      | false => rfl
      | true => exact absurd (Nat.eq_of_beq_eq_true hx) h
    rw [hb]
    have : (occ / 2 ^ 0) % 2 = 0 ∨ (occ / 2 ^ 1) % 2 = 0 ∨ (occ / 2 ^ 2) % 2 = 0 ∨
        (occ / 2 ^ 3) % 2 = 0 ∨ (occ / 2 ^ 4) % 2 = 0 ∨ (occ / 2 ^ 5) % 2 = 0 ∨
        (occ / 2 ^ 6) % 2 = 0 := by omega
    simp only [Bool.not_false, Bool.or_eq_true, beq_iff_eq, Bool.or_false]
    tauto

theorem leafCheck_sound (isLower : Bool) (bp bn vp vn : Nat) (cert rest : List Nat)
    (h : leafCheck isLower bp bn vp vn cert = some rest) :
    if isLower = true then (bp : Int) - (bn : Int) ≤ (vp : Int) - (vn : Int)
    else (vp : Int) - (vn : Int) ≤ (bp : Int) - (bn : Int) := by
  unfold leafCheck at h
  have e : ∀ a b : Nat, Nat.add a b = a + b := fun _ _ => rfl
  simp only [sel_ble, e] at h
  cases isLower with
  | true =>
    simp only [sel_true, if_true] at h ⊢
    by_cases hb : bp + vn ≤ vp + bn
    · omega
    · rw [if_neg hb] at h; simp at h
  | false =>
    simp only [sel_false, Bool.false_eq_true, if_false] at h ⊢
    by_cases hb : vp + bn ≤ bp + vn
    · omega
    · rw [if_neg hb] at h; simp at h

theorem thenCheck_some (x : Option BitState) (child : BitState → List Nat → Option (List Nat))
    (cert : Option (List Nat)) (r : List Nat) (h : thenCheck x child cert = some r) :
    ∃ ct, cert = some ct ∧ ∀ st, x = some st → child st ct = some r := by
  unfold thenCheck at h
  cases cert with
  | none => simp at h
  | some ct =>
    refine ⟨ct, rfl, ?_⟩
    intro st hx
    rw [hx] at h
    exact h

theorem upper_chain (toAi : Bool) (ai hu occ pos neg : Nat)
    (child : BitState → List Nat → Option (List Nat)) (cert rest : List Nat)
    (h : thenCheck (dropCol6 toAi ai hu occ pos neg) child
      (thenCheck (dropCol0 toAi ai hu occ pos neg) child
      (thenCheck (dropCol5 toAi ai hu occ pos neg) child
      (thenCheck (dropCol1 toAi ai hu occ pos neg) child
      (thenCheck (dropCol4 toAi ai hu occ pos neg) child
      (thenCheck (dropCol2 toAi ai hu occ pos neg) child
      (thenCheck (dropCol3 toAi ai hu occ pos neg) child (some cert))))))) = some rest) :
    ∀ c ∈ ([3, 2, 4, 1, 5, 0, 6] : List Nat), ∀ st,
      dropRows toAi ai hu occ pos neg c 6 = some st → ∃ ct r, child st ct = some r := by
  obtain ⟨c6, e6, k6⟩ := thenCheck_some _ _ _ _ h
  obtain ⟨c0, e0, k0⟩ := thenCheck_some _ _ _ _ e6
  obtain ⟨c5, e5, k5⟩ := thenCheck_some _ _ _ _ e0
  obtain ⟨c1, e1, k1⟩ := thenCheck_some _ _ _ _ e5
  obtain ⟨c4, e4, k4⟩ := thenCheck_some _ _ _ _ e1
  obtain ⟨c2, e2, k2⟩ := thenCheck_some _ _ _ _ e4
  obtain ⟨c3, _, k3⟩ := thenCheck_some _ _ _ _ e2
  intro c hc st hst
  simp only [List.mem_cons, List.mem_singleton, List.not_mem_nil, or_false] at hc
  rcases hc with rfl | rfl | rfl | rfl | rfl | rfl | rfl
  · exact ⟨_, _, k3 st (by rw [dropCol3_eq]; exact hst)⟩
  · exact ⟨_, _, k2 st (by rw [dropCol2_eq]; exact hst)⟩
  · exact ⟨_, _, k4 st (by rw [dropCol4_eq]; exact hst)⟩
  · exact ⟨_, _, k1 st (by rw [dropCol1_eq]; exact hst)⟩
  · exact ⟨_, _, k5 st (by rw [dropCol5_eq]; exact hst)⟩
  · exact ⟨_, _, k0 st (by rw [dropCol0_eq]; exact hst)⟩
  · exact ⟨_, _, k6 st (by rw [dropCol6_eq]; exact hst)⟩

theorem checkStep_sound (aiPlayer : Int) (depth : Nat) (last : Bool)
    (hlast : last = decide (depth ≥ 6))
    (child : Bool → Bool → Bool → Nat → Nat → BitState → List Nat → Option (List Nat))
    (hchild : last = false → CheckSound aiPlayer (depth + 1) child) :
    CheckSound aiPlayer depth (checkStep last child) := by
  intro sign toAi isLower bp bn st cert rest s fuel p hrep htoAi h hp
  obtain ⟨ai, hu, occ, pos, neg⟩ := st
  have hrep2 := hrep
  unfold RepresentsState Represents at hrep2
  simp only at hrep2
  obtain ⟨hlen, hai, hhu, hocc, hscore⟩ := hrep2
  have e : ∀ a b : Nat, Nat.add a b = a + b := fun _ _ => rfl
  cases fuel with
  | zero => unfold plain at hp; simp at hp
  | succ fuel =>
    rw [plain_succ, ← hscore] at hp
    unfold checkStep at h
    simp only [e] at h
    have hleaf : ∀ (q : Int), some (signOf sign * ((pos : Int) - (neg : Int))) = some q →
        sel sign (leafCheck isLower bp bn pos neg cert) (leafCheck isLower bp bn neg pos cert) =
          some rest →
        if isLower = true then (bp : Int) - (bn : Int) ≤ q else q ≤ (bp : Int) - (bn : Int) := by
      intro q hq hl
      simp only [Option.some.injEq] at hq
      rw [← hq, signOf_mul]
      cases sign with
      | true =>
        simp only [sel_true, if_true] at hl ⊢
        exact leafCheck_sound _ _ _ _ _ _ _ hl
      | false =>
        simp only [sel_false, Bool.false_eq_true, if_false] at hl ⊢
        have := leafCheck_sound _ _ _ _ _ _ _ hl
        cases isLower with
        | true => simp only [if_true] at this ⊢; omega
        | false => simp only [Bool.false_eq_true, if_false] at this ⊢; omega
    by_cases hterm : (pos : Int) - (neg : Int) ≥ 1000 ∨ (pos : Int) - (neg : Int) ≤ -1000
    · rw [if_pos hterm] at hp
      have hb : sel (Nat.ble (neg + 1000) pos) true (Nat.ble (pos + 1000) neg) = true := by
        rcases hterm with h1 | h1
        · rw [Nat.ble_eq_true_of_le (by omega)]; rfl
        · rw [Nat.ble_eq_true_of_le (by omega : pos + 1000 ≤ neg)]
          cases Nat.ble (neg + 1000) pos <;> rfl
      rw [hb, sel_true] at h
      exact hleaf p hp h
    · rw [if_neg hterm] at hp
      have hb : sel (Nat.ble (neg + 1000) pos) true (Nat.ble (pos + 1000) neg) = false := by
        have h1 : Nat.ble (neg + 1000) pos = false := by
          cases hx : Nat.ble (neg + 1000) pos with
          | false => rfl
          | true => have := Nat.le_of_ble_eq_true hx; omega
        have h2 : Nat.ble (pos + 1000) neg = false := by
          cases hx : Nat.ble (pos + 1000) neg with
          | false => rfl
          | true => have := Nat.le_of_ble_eq_true hx; omega
        rw [h1, h2]; rfl
      rw [hb, sel_false] at h
      have hmv : Nat.beq (Nat.mod occ 128) 127 = !hasMove s := by
        have := hasMoveFast_mod occ
        rw [hocc, hasMoveFast_eq s hlen] at this
        rw [hocc, this]
        simp
      rw [hmv] at h
      by_cases hmove : (!hasMove s) = true
      · rw [if_pos hmove] at hp
        rw [hmove, sel_true] at h
        simp only [Option.some.injEq] at hp
        rw [← hp]
        have := leafCheck_sound _ _ _ _ _ _ _ h
        simpa using this
      · rw [if_neg hmove] at hp
        have hmove2 : (!hasMove s) = false := by simpa using hmove
        rw [hmove2, sel_false] at h
        by_cases hdepth : depth ≥ 6
        · have hdepthZ : (depth : Int) ≥ 6 := by omega
          rw [if_pos hdepthZ] at hp
          have hl : last = true := by rw [hlast]; simpa using hdepth
          rw [hl, sel_true] at h
          exact hleaf p hp h
        · have hdepthZ : ¬ (depth : Int) ≥ 6 := by omega
          rw [if_neg hdepthZ] at hp
          have hl : last = false := by rw [hlast]; simpa using hdepth
          rw [hl, sel_false] at h
          have hch := hchild hl
          have hcastd : (depth : Int) + 1 = ((depth + 1 : Nat) : Int) := by push_cast; ring
          rw [hcastd, ← signOf_not] at hp
          have hnot : (not toAi) = ((!sign) == decide (aiPlayer ≠ 0)) := by
            rw [htoAi]
            cases sign <;> cases decide (aiPlayer ≠ 0) <;> rfl
          have hpiece : (if signOf sign = 1 then '2' else '1') =
              if toAi = true then aiCharOf aiPlayer else humanCharOf aiPlayer := by
            rw [htoAi]; exact piece_of_sign aiPlayer sign
          cases isLower with
          | true =>
            simp only [sel_true, if_true] at h ⊢
            rw [sel_ble] at h
            by_cases hb : bp + 10000 ≤ bn
            · have := plainLoop_mono _ _ _ _ _ _ hp
              omega
            · rw [if_neg hb] at h
              cases cert with
              | nil => simp at h
              | cons c tl =>
                simp only at h
                rw [dropAt_eq] at h
                by_cases hc : c < 7
                · rw [if_pos hc] at h
                  cases hd : dropRows toAi ai hu occ pos neg c 6 with
                  | none => rw [hd] at h; simp at h
                  | some st2 =>
                    rw [hd] at h
                    simp only at h
                    obtain ⟨hfree, hrepc⟩ := (dropRows_spec aiPlayer s ⟨ai, hu, occ, pos, neg⟩
                      toAi c hc _ hpiece hrep).2 st2 hd
                    have hmem : (c : Int) ∈ order := by
                      rw [order_eq_cast]
                      apply List.mem_map.2
                      refine ⟨c, ?_, rfl⟩
                      have : ∀ c : Fin 7, c.val ∈ ([3, 2, 4, 1, 5, 0, 6] : List Nat) := by decide
                      exact this ⟨c, hc⟩
                    obtain ⟨r, hr, hle⟩ := plainLoop_lower _ _ _ _ _ _ (c : Int) hp hmem hfree
                    have := hch (!sign) (not toAi) false bn bp st2 tl rest _ fuel r hrepc hnot
                      h hr
                    simp only [Bool.false_eq_true, if_false] at this
                    omega
                · rw [if_neg hc] at h; simp at h
          | false =>
            simp only [sel_false, Bool.false_eq_true, if_false] at h ⊢
            have hblt : Nat.blt (bp + 10000) bn = decide (bp + 10000 < bn) := by
              by_cases hx : bp + 10000 < bn
              · simp [hx, Nat.blt_eq]
              · simp only [hx, decide_False]
                cases hy : Nat.blt (bp + 10000) bn with
                | false => rfl
                | true => rw [Nat.blt_eq] at hy; exact absurd hy hx
            rw [hblt] at h
            by_cases hb : bp + 10000 < bn
            · simp [hb] at h
            · simp only [hb, decide_False, sel_false] at h
              have hall := upper_chain toAi ai hu occ pos neg _ cert rest h
              refine plainLoop_upper _ _ ((bp : Int) - (bn : Int)) _ _ _ _ hp (by omega) ?_
              intro col hcol hfree r hr
              rw [order_eq_cast] at hcol
              obtain ⟨c, hcmem, hce⟩ := List.mem_map.1 hcol
              subst hce
              have hc : c < 7 := by
                have : ∀ c ∈ ([3, 2, 4, 1, 5, 0, 6] : List Nat), c < 7 := by decide
                exact this c hcmem
              have hspec := dropRows_spec aiPlayer s ⟨ai, hu, occ, pos, neg⟩ toAi c hc _ hpiece
                hrep
              cases hd : dropRows toAi ai hu occ pos neg c 6 with
              | none => exact absurd hfree (hspec.1 hd)
              | some st2 =>
                obtain ⟨_, hrepc⟩ := hspec.2 st2 hd
                obtain ⟨ct, ct2, hchild2⟩ := hall c hcmem st2 hd
                have := hch (!sign) (not toAi) true bn bp st2 ct ct2 _ fuel r hrepc hnot
                  hchild2 hr
                simp only [if_true] at this
                omega

theorem check0_sound (aiPlayer : Int) : CheckSound aiPlayer 0 check0 :=
  checkStep_sound aiPlayer 0 false (by decide) _ fun _ =>
  checkStep_sound aiPlayer 1 false (by decide) _ fun _ =>
  checkStep_sound aiPlayer 2 false (by decide) _ fun _ =>
  checkStep_sound aiPlayer 3 false (by decide) _ fun _ =>
  checkStep_sound aiPlayer 4 false (by decide) _ fun _ =>
  checkStep_sound aiPlayer 5 false (by decide) _ fun _ =>
  checkStep_sound aiPlayer 6 true (by decide) _ fun h => by simp at h

/-! ### From a checked certificate to the value of a column -/

theorem moveValue_of_cert (aiPlayer : Int) (fuel : Nat) (state : List Char) (col : Int)
    (st : BitState) (toAi isLower : Bool) (bp bn : Nat) (cert rest : List Nat) (hfuel : 7 ≤ fuel)
    (hlow : bn < bp + 10000) (hbound : bp < bn + 10000)
    (htoAi : toAi = (false == decide (aiPlayer ≠ 0)))
    (hrep : RepresentsState aiPlayer (dropInto state col (aiCharOf aiPlayer)) st)
    (hcheck : check0 false toAi isLower bp bn st cert = some rest) :
    if isLower = true then moveValue aiPlayer fuel state col ≤ (bn : Int) - (bp : Int)
    else (bn : Int) - (bp : Int) ≤ moveValue aiPlayer fuel state col := by
  obtain ⟨r, p, hr, hp, hw1, hw2, hw3⟩ := negamax_windowBound aiPlayer fuel
    (dropInto state col (aiCharOf aiPlayer)) 0 (-10000) 10000 HUMAN_PLAYER (by omega)
    (by omega) (by omega)
  have hs := check0_sound aiPlayer false toAi isLower bp bn st cert rest _ fuel p hrep htoAi
    hcheck hp
  unfold moveValue
  rw [hr]
  simp only
  cases isLower with
  | true =>
    simp only [if_true] at hs ⊢
    by_cases h1 : r ≤ -10000
    · have := hw1 h1
      omega
    · by_cases h2 : r < 10000
      · have := hw3 (by omega) h2
        omega
      · omega
  | false =>
    simp only [Bool.false_eq_true, if_false] at hs ⊢
    by_cases h1 : r ≤ -10000
    · omega
    · by_cases h2 : r < 10000
      · have := hw3 (by omega) h2
        omega
      · have := hw2 (by omega)
        omega
/-! ### The opening move -/

theorem enc_replicate_zero (p : Char → Bool) (hp : p '0' = false) :
    ∀ n : Nat, enc p (List.replicate n '0') = 0 := by
  intro n
  induction n with
  | zero => rfl
  | succ n ih =>
    rw [List.replicate_succ]
    unfold enc
    rw [ih, hp]
    simp

theorem fastDrop_opening :
    ∀ c : Fin 7, fastDrop true 0 0 0 0 c.val =
      some (2 ^ (35 + c.val), 0, 2 ^ (35 + c.val), if c.val = 3 then 6 else 0) := by
  decide!

theorem represents_opening (aiPlayer : Int) (c : Nat) (hc : c < 7) :
    RepresentsState aiPlayer (dropInto emptyBoard (c : Int) (aiCharOf aiPlayer))
      (BitState.mk (2 ^ (35 + c)) 0 (2 ^ (35 + c)) (if c = 3 then 6 else 0) 0) := by
  have hlen : emptyBoard.length = 42 := by simp [emptyBoard]
  have ha0 : decide ('0' = aiCharOf aiPlayer) = false := by
    simpa using (aiCharOf_ne_zero aiPlayer).symm
  have hh0 : decide ('0' = humanCharOf aiPlayer) = false := by
    simpa using (humanCharOf_ne_zero aiPlayer).symm
  have ha : enc (fun c => decide (c = aiCharOf aiPlayer)) emptyBoard = 0 :=
    enc_replicate_zero _ ha0 42
  have hh : enc (fun c => decide (c = humanCharOf aiPlayer)) emptyBoard = 0 :=
    enc_replicate_zero _ hh0 42
  have ho : enc (fun c => c != '0') emptyBoard = 0 := enc_replicate_zero _ (by simp) 42
  have hscore : evaluatePosition aiPlayer emptyBoard = 0 := by
    rw [evaluatePosition_eq_center_add]
    have hsum : (sourceWindows.map fun w =>
        evaluateWindow emptyBoard w.1 w.2 (aiCharOf aiPlayer) (humanCharOf aiPlayer)).sum =
          0 := by
      apply List.sum_eq_zero
      intro x hx
      obtain ⟨w, hw, rfl⟩ := List.mem_map.1 hx
      rw [← fastWindow_eq emptyBoard _ _ (aiCharOf_ne_humanCharOf aiPlayer) hlen w hw, ha, hh]
      unfold fastWindow
      simp
    have hcells : (centerCells.map fun c => charAt emptyBoard (cellIndex c)) =
        List.replicate 6 '0' := by decide
    rw [hsum]
    unfold centerTerm
    rw [hcells]
    have c1 : (List.replicate 6 '0').countP (fun c => decide (c = aiCharOf aiPlayer)) = 0 := by
      apply List.countP_eq_zero.2
      intro c hc
      rw [List.eq_of_mem_replicate hc, ha0]
      simp
    have c2 : (List.replicate 6 '0').countP (fun c => decide (c = humanCharOf aiPlayer)) =
        0 := by
      apply List.countP_eq_zero.2
      intro c hc
      rw [List.eq_of_mem_replicate hc, hh0]
      simp
    rw [c1, c2]
    rfl
  have hrep0 : Represents aiPlayer emptyBoard 0 0 0 0 :=
    ⟨hlen, ha.symm, hh.symm, ho.symm, hscore.symm⟩
  have h := ((fastDrop_spec aiPlayer emptyBoard 0 0 0 0 true c hc (aiCharOf aiPlayer) (by simp)
    hrep0).2 _ _ _ _ (fastDrop_opening ⟨c, hc⟩)).2
  unfold RepresentsState
  simp only
  have e : (((if c = 3 then 6 else 0 : Nat) : Int) - ((0 : Nat) : Int)) =
      (if c = 3 then 6 else 0 : Int) := by
    by_cases h3 : c = 3
    · simp [h3]
    · simp [h3]
  rw [e]
  exact h

theorem openingCheck13 :
    check0 false false false 0 46
      (BitState.mk (2 ^ (35 + 3)) 0 (2 ^ (35 + 3)) (if 3 = 3 then 6 else 0) 0)
      openingCert13 = some [] := by
  decide!

theorem openingCheck12 :
    check0 false false true 0 46
      (BitState.mk (2 ^ (35 + 2)) 0 (2 ^ (35 + 2)) (if 2 = 3 then 6 else 0) 0)
      openingCert12 = some [] := by
  decide!

theorem openingCheck14 :
    check0 false false true 0 46
      (BitState.mk (2 ^ (35 + 4)) 0 (2 ^ (35 + 4)) (if 4 = 3 then 6 else 0) 0)
      openingCert14 = some [] := by
  decide!

theorem openingCheck11 :
    check0 false false true 0 46
      (BitState.mk (2 ^ (35 + 1)) 0 (2 ^ (35 + 1)) (if 1 = 3 then 6 else 0) 0)
      openingCert11 = some [] := by
  decide!

theorem openingCheck15 :
    check0 false false true 0 46
      (BitState.mk (2 ^ (35 + 5)) 0 (2 ^ (35 + 5)) (if 5 = 3 then 6 else 0) 0)
      openingCert15 = some [] := by
  decide!

theorem openingCheck10 :
    check0 false false true 0 46
      (BitState.mk (2 ^ (35 + 0)) 0 (2 ^ (35 + 0)) (if 0 = 3 then 6 else 0) 0)
      openingCert10 = some [] := by
  decide!

theorem openingCheck16 :
    check0 false false true 0 46
      (BitState.mk (2 ^ (35 + 6)) 0 (2 ^ (35 + 6)) (if 6 = 3 then 6 else 0) 0)
      openingCert16 = some [] := by
  decide!

theorem openingCheck03 :
    check0 false true false 0 26
      (BitState.mk (2 ^ (35 + 3)) 0 (2 ^ (35 + 3)) (if 3 = 3 then 6 else 0) 0)
      openingCert03 = some [] := by
  decide!

theorem openingCheck02 :
    check0 false true true 0 26
      (BitState.mk (2 ^ (35 + 2)) 0 (2 ^ (35 + 2)) (if 2 = 3 then 6 else 0) 0)
      openingCert02 = some [] := by
  decide!

theorem openingCheck04 :
    check0 false true true 0 26
      (BitState.mk (2 ^ (35 + 4)) 0 (2 ^ (35 + 4)) (if 4 = 3 then 6 else 0) 0)
      openingCert04 = some [] := by
  decide!

theorem openingCheck01 :
    check0 false true true 0 26
      (BitState.mk (2 ^ (35 + 1)) 0 (2 ^ (35 + 1)) (if 1 = 3 then 6 else 0) 0)
      openingCert01 = some [] := by
  decide!

theorem openingCheck05 :
    check0 false true true 0 26
      (BitState.mk (2 ^ (35 + 5)) 0 (2 ^ (35 + 5)) (if 5 = 3 then 6 else 0) 0)
      openingCert05 = some [] := by
  decide!

theorem openingCheck00 :
    check0 false true true 0 26
      (BitState.mk (2 ^ (35 + 0)) 0 (2 ^ (35 + 0)) (if 0 = 3 then 6 else 0) 0)
      openingCert00 = some [] := by
  decide!

theorem openingCheck06 :
    check0 false true true 0 26
      (BitState.mk (2 ^ (35 + 6)) 0 (2 ^ (35 + 6)) (if 6 = 3 then 6 else 0) 0)
      openingCert06 = some [] := by
  decide!

/-- C11: on the empty board, the string of 42 cells all '0', `updateAI`
returns column 3, the center column, as the opening move. This holds for
every value of `AIPlayer` and every fuel of 7 or more, the nesting of the
depth-6 search; the search is the `negamax` of the source with the window
(-10000, 10000), the order 3, 2, 4, 1, 5, 0, 6 and the strict test
`val > bestVal`. -/
theorem updateAI_opens_in_center (aiPlayer : Int) (fuel : Nat) (hfuel : 7 ≤ fuel) :
    updateAI aiPlayer fuel emptyBoard = some 3 := by
  have hvalues : ∃ v : Int, -10000 < v ∧
      v ≤ moveValue aiPlayer fuel emptyBoard ((3 : Nat) : Int) ∧
      ∀ n : Nat, n < 7 → n ≠ 3 → moveValue aiPlayer fuel emptyBoard (n : Int) ≤ v := by
    by_cases h : aiPlayer = 0
    · have hd : true = (false == decide (aiPlayer ≠ 0)) := by simp [h]
      have h3 : 26 ≤ moveValue aiPlayer fuel emptyBoard ((3 : Nat) : Int) := by
        have := moveValue_of_cert aiPlayer fuel emptyBoard ((3 : Nat) : Int) _ true false 0 26
          openingCert03 [] hfuel (by omega) (by omega) hd
          (represents_opening aiPlayer 3 (by omega)) openingCheck03
        simpa using this
      refine ⟨26, by omega, h3, ?_⟩
      intro n hn hne
      interval_cases n
      · have := moveValue_of_cert aiPlayer fuel emptyBoard ((0 : Nat) : Int) _ true true 0 26
          openingCert00 [] hfuel (by omega) (by omega) hd
          (represents_opening aiPlayer 0 (by omega)) openingCheck00
        simpa using this
      · have := moveValue_of_cert aiPlayer fuel emptyBoard ((1 : Nat) : Int) _ true true 0 26
          openingCert01 [] hfuel (by omega) (by omega) hd
          (represents_opening aiPlayer 1 (by omega)) openingCheck01
        simpa using this
      · have := moveValue_of_cert aiPlayer fuel emptyBoard ((2 : Nat) : Int) _ true true 0 26
          openingCert02 [] hfuel (by omega) (by omega) hd
          (represents_opening aiPlayer 2 (by omega)) openingCheck02
        simpa using this
      · exact absurd rfl hne
      · have := moveValue_of_cert aiPlayer fuel emptyBoard ((4 : Nat) : Int) _ true true 0 26
          openingCert04 [] hfuel (by omega) (by omega) hd
          (represents_opening aiPlayer 4 (by omega)) openingCheck04
        simpa using this
      · have := moveValue_of_cert aiPlayer fuel emptyBoard ((5 : Nat) : Int) _ true true 0 26
          openingCert05 [] hfuel (by omega) (by omega) hd
          (represents_opening aiPlayer 5 (by omega)) openingCheck05
        simpa using this
      · have := moveValue_of_cert aiPlayer fuel emptyBoard ((6 : Nat) : Int) _ true true 0 26
          openingCert06 [] hfuel (by omega) (by omega) hd
          (represents_opening aiPlayer 6 (by omega)) openingCheck06
        simpa using this
    · have hd : false = (false == decide (aiPlayer ≠ 0)) := by simp [h]
      have h3 : 46 ≤ moveValue aiPlayer fuel emptyBoard ((3 : Nat) : Int) := by
        have := moveValue_of_cert aiPlayer fuel emptyBoard ((3 : Nat) : Int) _ false false 0 46
          openingCert13 [] hfuel (by omega) (by omega) hd
          (represents_opening aiPlayer 3 (by omega)) openingCheck13
        simpa using this
      refine ⟨46, by omega, h3, ?_⟩
      intro n hn hne
      interval_cases n
      · have := moveValue_of_cert aiPlayer fuel emptyBoard ((0 : Nat) : Int) _ false true 0 46
          openingCert10 [] hfuel (by omega) (by omega) hd
          (represents_opening aiPlayer 0 (by omega)) openingCheck10
        simpa using this
      · have := moveValue_of_cert aiPlayer fuel emptyBoard ((1 : Nat) : Int) _ false true 0 46
          openingCert11 [] hfuel (by omega) (by omega) hd
          (represents_opening aiPlayer 1 (by omega)) openingCheck11
        simpa using this
      · have := moveValue_of_cert aiPlayer fuel emptyBoard ((2 : Nat) : Int) _ false true 0 46
          openingCert12 [] hfuel (by omega) (by omega) hd
          (represents_opening aiPlayer 2 (by omega)) openingCheck12
        simpa using this
      · exact absurd rfl hne
      · have := moveValue_of_cert aiPlayer fuel emptyBoard ((4 : Nat) : Int) _ false true 0 46
          openingCert14 [] hfuel (by omega) (by omega) hd
          (represents_opening aiPlayer 4 (by omega)) openingCheck14
        simpa using this
      · have := moveValue_of_cert aiPlayer fuel emptyBoard ((5 : Nat) : Int) _ false true 0 46
          openingCert15 [] hfuel (by omega) (by omega) hd
          (represents_opening aiPlayer 5 (by omega)) openingCheck15
        simpa using this
      · have := moveValue_of_cert aiPlayer fuel emptyBoard ((6 : Nat) : Int) _ false true 0 46
          openingCert16 [] hfuel (by omega) (by omega) hd
          (represents_opening aiPlayer 6 (by omega)) openingCheck16
        simpa using this
  obtain ⟨v, hv, h3, hothers⟩ := hvalues
  have h3z : v ≤ moveValue aiPlayer fuel emptyBoard 3 := h3
  have hnf3 : NotFull emptyBoard 3 := by decide
  obtain ⟨b, hb, hcase⟩ := updateAI_spec aiPlayer fuel emptyBoard hfuel
  rcases hcase with ⟨_, hall⟩ | ⟨pre, post, hsplit, hnf, _, hpre, _⟩
  · have := hall 3 (by simp [order]) hnf3
    omega
  · by_cases hb3 : b = 3
    · rw [hb, hb3]
    · exfalso
      have hbm : b ∈ order := by rw [hsplit]; simp
      obtain ⟨n, hn, hbn⟩ := order_mem_range b hbm
      have hn3 : n ≠ 3 := by
        intro e
        apply hb3
        rw [hbn, e]
        rfl
      have hbv := hothers n hn hn3
      rw [← hbn] at hbv
      cases pre with
      | nil =>
        unfold order at hsplit
        simp only [List.nil_append, List.cons.injEq] at hsplit
        exact hb3 hsplit.1.symm
      | cons x tl =>
        unfold order at hsplit
        simp only [List.cons_append, List.cons.injEq] at hsplit
        have := hpre 3 (by rw [← hsplit.1]; simp) hnf3
        omega

theorem updateAI_opens_in_center_witness :
    7 ≤ 7 ∧ updateAI 1 7 emptyBoard = some 3 :=
  ⟨by decide, updateAI_opens_in_center 1 7 (by decide)⟩

/-! ### The claims at concrete boards -/

/-- C3: the code at two boards reached by legal drops, the automated player
playing symbol '2'. After `aiWinMoves` the automated player has four in a row
(completed by the last drop) and `evaluatePosition` returns 946, below 1000;
after `humanWinMoves` the opponent has four in a row (completed by the last
drop) and `evaluatePosition` returns -990, above -1000. -/
theorem evaluatePosition_misses_four :
    (boardAfter aiWinMoves.dropLast).map (fun b => (hasFour b '1', hasFour b '2')) =
      some (false, false) ∧
    (boardAfter aiWinMoves).map (fun b => (hasFour b '2', evaluatePosition 1 b)) =
      some (true, 946) ∧
    (boardAfter humanWinMoves.dropLast).map (fun b => (hasFour b '1', hasFour b '2')) =
      some (false, false) ∧
    (boardAfter humanWinMoves).map (fun b => (hasFour b '1', evaluatePosition 1 b)) =
      some (true, -990) := by
  decide

/-- C4: the code at a board reached by 17 legal drops, the automated player
playing symbol '2': nobody has four in a row and `evaluatePosition` returns
-1010, which is not above -1000. -/
theorem evaluatePosition_false_alarm :
    (boardAfter quietMoves).map
      (fun b => (hasFour b '1', hasFour b '2', evaluatePosition 1 b)) =
      some (false, false, -1010) := by
  decide

/-- Against C7 as stated: on `lostBoard3` column 3 is not full and is the
first column of greatest value among the non-full columns, but `updateAI`
returns -1 and no column. -/
theorem updateAI_skips_only_column :
    NotFull lostBoard3 3 ∧
    (∀ c ∈ order, NotFull lostBoard3 c →
      moveValue 1 7 lostBoard3 c ≤ moveValue 1 7 lostBoard3 3) ∧
    updateAI 1 7 lostBoard3 = some (-1) := by
  decide

/-- The amended claim C7 at the board `twoOpen`: columns 4 and 5 are open,
column 4 has the greater value and is returned. -/
theorem updateAI_first_maximal_witness :
    updateAI 1 7 twoOpen = some 4 ∧
    ∃ b pre post, updateAI 1 7 twoOpen = some b ∧ order = pre ++ b :: post ∧
      NotFull twoOpen b ∧
      (∀ c ∈ order, NotFull twoOpen c → moveValue 1 7 twoOpen c ≤ moveValue 1 7 twoOpen b) ∧
      (∀ c ∈ pre, NotFull twoOpen c → moveValue 1 7 twoOpen c < moveValue 1 7 twoOpen b) :=
  ⟨by decide,
    let ⟨b, pre, post, h1, h2, h3, h4, h5, _⟩ :=
      updateAI_first_maximal 1 7 twoOpen (by decide) ⟨4, by decide, by decide, by decide⟩
    ⟨b, pre, post, h1, h2, h3, h4, h5⟩⟩

/-- Against C8 as stated: on `lostBoard0` column 0 is not full, but
`updateAI` returns -1. -/
theorem updateAI_no_move_with_open_column :
    NotFull lostBoard0 0 ∧ updateAI 1 7 lostBoard0 = some (-1) := by
  decide

/-- The amended claim C8 at the board `lostBoard0`. -/
theorem updateAI_no_move_iff_witness :
    ∃ b, updateAI 1 7 lostBoard0 = some b ∧
      (b = -1 ↔ ∀ c ∈ order, NotFull lostBoard0 c → moveValue 1 7 lostBoard0 c ≤ -10000) ∧
      ((∀ c ∈ order, ¬ NotFull lostBoard0 c) → b = -1) ∧
      (b ≠ -1 → 0 ≤ b ∧ b < 7 ∧ NotFull lostBoard0 b) :=
  updateAI_no_move_iff 1 7 lostBoard0 (by decide)

/-- Against C9 as stated: `winInThree` is reached by legal drops, obeys
gravity and holds no four in a row; the automated player (symbol '2')
completes four in a row by the drop in column 3, but `updateAI` returns
column 2, whose drop completes no four in a row. -/
theorem updateAI_passes_immediate_win :
    boardAfter winInThreeMoves = some winInThree ∧
    gravityConsistent winInThree = true ∧
    hasFour winInThree '1' = false ∧ hasFour winInThree '2' = false ∧
    NotFull winInThree 3 ∧ hasFour (dropInto winInThree 3 '2') '2' = true ∧
    updateAI 1 7 winInThree = some 2 ∧
    hasFour (dropInto winInThree 2 '2') '2' = false := by
  decide

/-- The amended claim C9 at the board `winInThree` and its winning column 3,
whose drop the evaluator scores at 1066. -/
theorem updateAI_takes_signalled_win_witness :
    evaluatePosition 1 (dropInto winInThree 3 (aiCharOf 1)) = 1066 ∧
    ∃ b, updateAI 1 7 winInThree = some b ∧ b ∈ order ∧ NotFull winInThree b ∧
      moveValue 1 7 winInThree 3 = evaluatePosition 1 (dropInto winInThree 3 (aiCharOf 1)) ∧
      moveValue 1 7 winInThree 3 ≤ moveValue 1 7 winInThree b ∧
      1000 ≤ moveValue 1 7 winInThree b :=
  ⟨by decide,
    updateAI_takes_signalled_win 1 7 winInThree 3 (by decide) (by decide) (by decide)
      (by decide)⟩

/-- Against C10 as stated: `lostInFive` is reached by legal drops, obeys
gravity and holds no four in a row; no drop of the automated player
(symbol '2') completes four in a row; the opponent completes four in a row by
the drop in column 5 and in no other column; but `updateAI` returns column 2
and not the blocking column 5. -/
theorem updateAI_does_not_block :
    boardAfter lostInFiveMoves = some lostInFive ∧
    gravityConsistent lostInFive = true ∧
    hasFour lostInFive '1' = false ∧ hasFour lostInFive '2' = false ∧
    (∀ c ∈ order, NotFull lostInFive c → hasFour (dropInto lostInFive c '2') '2' = false) ∧
    NotFull lostInFive 5 ∧ hasFour (dropInto lostInFive 5 '1') '1' = true ∧
    (∀ c ∈ order, c ≠ 5 → NotFull lostInFive c →
      hasFour (dropInto lostInFive c '1') '1' = false) ∧
    updateAI 1 7 lostInFive = some 2 := by
  decide

/-- The amended claim C10 at the board `blockInSix`: the opponent threatens
column 6, the only other open column is 4, and column 6 is returned. -/
theorem updateAI_blocks_witness :
    hasFour (dropInto blockInSix 6 '1') '1' = true ∧ updateAI 1 7 blockInSix = some 6 :=
  ⟨by decide,
    updateAI_blocks 1 7 blockInSix 6 (by decide) (by decide) (by decide) (by decide)
      (by decide) (by decide) (by decide)⟩

end Connect4
